import Mathlib

/-!
# Stash: repository and query-builder layer

A shallow embedding of `pkg/sqlite/repository.go`, `pkg/sqlite/query.go` and the parts of
`pkg/sqlite/scene.go` that build filter clauses, followed by theorems about them.

Conventions of the embedding
* a Go `error` result is an `Option Err` (`none` is the nil error);
* a Go panic (nil dereference, `reflect` misuse) is the outer `none` of an `Option` result;
* Go `int` is an `Int` kept in the 64-bit range by `wrapInt64` where arithmetic happens;
* `strings.Join(xs, sep)` is `String.intercalate sep xs`, `fmt.Sprintf` with `%s` is `++`.
-/

namespace Stash

/-! ## Values -/

/-- Dynamic values: what an `interface{}` argument or a record field can hold. -/
inductive Arg
  | null
  | int (i : Int)
  | str (s : String)
  | bool (b : Bool)
  deriving DecidableEq, Repr

/-- Go errors. `ErrNoRows` is the sentinel `sql.ErrNoRows`, compared by identity in the source;
every other error value is `other` with its message. -/
inductive Err
  | ErrNoRows
  | other (msg : String)
  deriving DecidableEq, Repr

/-- The method `Error()` of an error value. -/
def Err.Error : Err → String
  | Err.ErrNoRows => "sql: no rows in result set"
  | Err.other msg => msg

/-! ## Reflection over record values (`listKeys`, `updateSet`) -/

/-- What `reflect` sees in one struct field: either a value of a kind that cannot be nil
(an `int`, a `string`, a struct such as `sql.NullString`), or a pointer that is nil or points
at a value. The pointee may itself be a null wrapper (`Arg.null`). -/
inductive FieldValue
  | direct (v : Arg)
  | pointer (p : Option Arg)
  deriving DecidableEq, Repr

/-- The method `reflect.Value.IsNil`: it panics (`none`) on a kind that cannot be nil. -/
def FieldValue.IsNil : FieldValue → Option Bool
  | FieldValue.direct _ => none
  | FieldValue.pointer p => some p.isNone

/-- One struct field: its raw `db` tag and its value. -/
structure StructField where
  tag : String
  value : FieldValue
  deriving DecidableEq, Repr

/-- The expression `strings.Split(rawKey, ",")[0]`: the text before the first comma. -/
def tagKey (rawKey : String) : String :=
  String.mk (rawKey.data.takeWhile (fun ch => ch != ','))

/-- The loop of `updateSet`, with the slice `query` as accumulator. -/
def updateSetLoop (partialUpdate : Bool) : List StructField → List String → Option (List String)
  | [], query => some query
  | f :: rest, query =>
    let key := tagKey f.tag
    if key = "id" then
      updateSetLoop partialUpdate rest query
    else
      let add : Option Bool :=
        if partialUpdate then f.value.IsNil.map (fun isNil => !isNil) else some true
      match add with
      | none => none
      | some true => updateSetLoop partialUpdate rest (query ++ [key ++ "=:" ++ key])
      | some false => updateSetLoop partialUpdate rest query

/-- The function `updateSet(i, partial)` of repository.go. -/
def updateSet (obj : List StructField) (partialUpdate : Bool) : Option String :=
  (updateSetLoop partialUpdate obj []).map (fun query => String.intercalate ", " query)

/-- The loop of `listKeys`. -/
def listKeysLoop (addPrefix : Bool) : List StructField → List String → List String
  | [], query => query
  | f :: rest, query =>
    let key := tagKey f.tag
    if key = "id" then
      listKeysLoop addPrefix rest query
    else
      let key := if addPrefix then ":" ++ key else key
      listKeysLoop addPrefix rest (query ++ [key])

/-- The function `listKeys(i, addPrefix)` of repository.go. -/
def listKeys (obj : List StructField) (addPrefix : Bool) : String :=
  String.intercalate ", " (listKeysLoop addPrefix obj [])

/-- A map argument, as the list of its entries in the order `range` visits them. -/
abbrev GoMap := List (String × Arg)

/-- The function `updateSetMap(m)` of repository.go. -/
def updateSetMap (m : GoMap) : String :=
  String.intercalate ", " (m.map (fun kv => kv.1 ++ "=:" ++ kv.1))

/-- A field is present when its value is a pointer that is not nil. -/
def FieldValue.isPresent : FieldValue → Bool
  | FieldValue.pointer (some _) => true
  | _ => false

/-- A field is optional when its value is of pointer kind, nil or not. -/
def FieldValue.isPointer : FieldValue → Bool
  | FieldValue.pointer _ => true
  | FieldValue.direct _ => false

/-- The entries of the SET list that a partial update is to write for a record: one per field
whose key is not `id` and whose pointer is not nil, in declaration order. -/
def presentAssignments (obj : List StructField) : List String :=
  (obj.filter (fun f => decide (tagKey f.tag ≠ "id") && f.value.isPresent)).map
    (fun f => tagKey f.tag ++ "=:" ++ tagKey f.tag)

/-! ## The transaction handle and the database behind it -/

/-- A result row, as named column values. -/
abbrev Row := List (String × Arg)

/-- The integer held by a column of a row; a destination field that is not filled keeps its
zero value. -/
def Row.getInt (row : Row) (col : String) : Int :=
  match row.lookup col with
  | some (Arg.int i) => i
  | _ => 0

/-- The value `sql.Result`: the outcome of `LastInsertId()`. -/
structure SqlResult where
  lastInsertId : Except Err Int

/-- The record or map handed to `NamedExec`. -/
inductive NamedArg
  | struct (obj : List StructField)
  | map (m : GoMap)
  deriving DecidableEq, Repr

/-- One call made on the database, as recorded in the log of a world. -/
inductive Call
  | Begin
  | Commit
  | Rollback
  | Get (query : String) (args : List Arg)
  | Select (query : String) (args : List Arg)
  | Exec (stmt : String) (args : List Arg)
  | NamedExec (stmt : String) (arg : NamedArg)
  deriving DecidableEq, Repr

/-- A call that carries a statement (everything but transaction control). -/
def Call.isStatement : Call → Bool
  | Call.Begin => false
  | Call.Commit => false
  | Call.Rollback => false
  | _ => true

/-- A call that can change stored rows. -/
def Call.isWrite : Call → Bool
  | Call.Exec _ _ => true
  | Call.NamedExec _ _ => true
  | _ => false

/-- The database driver (`sqlx`), an external collaborator: how it answers each call from a
state `σ`. `Get` yields the row scanned into the destination or an error, `sql.ErrNoRows` when
the query has no row. -/
structure Dbi (σ : Type) where
  Get : String → List Arg → σ → Except Err Row × σ
  Select : String → List Arg → σ → Except Err (List Row) × σ
  Exec : String → List Arg → σ → Except Err SqlResult × σ
  NamedExec : String → NamedArg → σ → Except Err SqlResult × σ
  Begin : σ → σ
  Commit : σ → Option Err × σ
  Rollback : σ → σ

/-- The state the code runs in: the database state and the log of calls made so far. -/
structure World (σ : Type) where
  db : σ
  log : List Call

/-- An open transaction (`*sqlx.Tx` that is not nil). -/
structure Tx where
  deriving DecidableEq, Repr

/-- The error of a `(value, error)` pair returned by the driver. -/
def errOf {α : Type} : Except Err α → Option Err
  | Except.ok _ => none
  | Except.error e => some e

/-- The call `tx.Get(dest, query, args...)`. -/
def txGet {σ : Type} (d : Dbi σ) (_tx : Tx) (query : String) (args : List Arg) (w : World σ) :
    Except Err Row × World σ :=
  let r := d.Get query args w.db
  (r.1, { db := r.2, log := w.log ++ [Call.Get query args] })

/-- The call `tx.Select(dest, query, args...)`. -/
def txSelect {σ : Type} (d : Dbi σ) (_tx : Tx) (query : String) (args : List Arg) (w : World σ) :
    Except Err (List Row) × World σ :=
  let r := d.Select query args w.db
  (r.1, { db := r.2, log := w.log ++ [Call.Select query args] })

/-- The call `tx.Exec(stmt, args...)`. -/
def txExec {σ : Type} (d : Dbi σ) (_tx : Tx) (stmt : String) (args : List Arg) (w : World σ) :
    Except Err SqlResult × World σ :=
  let r := d.Exec stmt args w.db
  (r.1, { db := r.2, log := w.log ++ [Call.Exec stmt args] })

/-- The call `tx.NamedExec(stmt, arg)`. -/
def txNamedExec {σ : Type} (d : Dbi σ) (_tx : Tx) (stmt : String) (arg : NamedArg)
    (w : World σ) : Except Err SqlResult × World σ :=
  let r := d.NamedExec stmt arg w.db
  (r.1, { db := r.2, log := w.log ++ [Call.NamedExec stmt arg] })

/-- Modelled from the spec: `database.WithTxn` (package `database` is not among the sources).
It "opens a transaction, invokes `fn` with a handle, commits if `fn` returns success, rolls
back and propagates the error otherwise"; a failed commit is the error returned. The type `κ`
is the state of the variables the closure captures. -/
def WithTxn {σ κ : Type} (d : Dbi σ) (fn : Tx → World σ → (κ × Option Err) × World σ)
    (w : World σ) : (κ × Option Err) × World σ :=
  let w0 : World σ := { db := d.Begin w.db, log := w.log ++ [Call.Begin] }
  match fn Tx.mk w0 with
  | ((k, none), w1) =>
    let c := d.Commit w1.db
    ((k, c.1), { db := c.2, log := w1.log ++ [Call.Commit] })
  | ((k, some e), w1) =>
    ((k, some e), { db := d.Rollback w1.db, log := w1.log ++ [Call.Rollback] })

/-! ## repository.go -/

/-- The struct `repository`; `tx` is nil (`none`) or an open transaction. -/
structure repository where
  tx : Option Tx
  tableName : String
  idColumn : String
  deriving DecidableEq, Repr

/-- The method `wrapReadOnly`: with no transaction it runs `f` inside `database.WithTxn`, with
`r.tx` set for the duration of the call; otherwise it runs `f` directly. The closure receives
the repository as it is while it runs, and the handle that is then not nil. -/
def repository.wrapReadOnly {σ κ : Type} (d : Dbi σ) (r : repository)
    (f : repository → Tx → World σ → (κ × Option Err) × World σ) (w : World σ) :
    (κ × Option Err) × World σ :=
  match r.tx with
  | none => WithTxn d (fun tx w0 => f { r with tx := some tx } tx w0) w
  | some tx => f r tx w

/-- The method `get(id, dest)`: the destination after the call, and the error. -/
def repository.get {σ : Type} (d : Dbi σ) (r : repository) (id : Int) (dest : Row)
    (w : World σ) : (Row × Option Err) × World σ :=
  let stmt := "SELECT * FROM " ++ r.tableName ++ " WHERE " ++ r.idColumn ++ " = ? LIMIT 1"
  r.wrapReadOnly d (fun _ tx w0 =>
    match txGet d tx stmt [Arg.int id] w0 with
    | (Except.ok row, w1) => ((row, none), w1)
    | (Except.error e, w1) => ((dest, some e), w1)) w

/-- The method `buildCountQuery`. -/
def repository.buildCountQuery (_r : repository) (query : String) : String :=
  "SELECT COUNT(*) as count FROM (" ++ query ++ ") as temp"

/-- The method `runCountQuery`. -/
def repository.runCountQuery {σ : Type} (d : Dbi σ) (r : repository) (query : String)
    (args : List Arg) (w : World σ) : (Int × Option Err) × World σ :=
  let res := r.wrapReadOnly d (fun _ tx w0 =>
    match txGet d tx query args w0 with
    | (Except.ok row, w1) => ((row.getInt "count", none), w1)
    | (Except.error e, w1) => (((0 : Int), some e), w1)) w
  let result := res.1.1
  let err := res.1.2
  if err ≠ none ∧ err ≠ some Err.ErrNoRows then
    ((0, err), res.2)
  else
    ((result, none), res.2)

/-- The method `runIdsQuery`. -/
def repository.runIdsQuery {σ : Type} (d : Dbi σ) (r : repository) (query : String)
    (args : List Arg) (w : World σ) : (List Int × Option Err) × World σ :=
  let res := r.wrapReadOnly d (fun _ tx w0 =>
    match txSelect d tx query args w0 with
    | (Except.ok rows, w1) => ((rows, none), w1)
    | (Except.error e, w1) => ((([] : List Row), some e), w1)) w
  let result := res.1.1
  let err := res.1.2
  if err ≠ none ∧ err ≠ some Err.ErrNoRows then
    (([], err), res.2)
  else
    ((result.map (fun v => v.getInt "id"), none), res.2)

/-- The method `exists(id)`. -/
def repository.exists {σ : Type} (d : Dbi σ) (r : repository) (id : Int) (w : World σ) :
    (Bool × Option Err) × World σ :=
  let stmt := "SELECT " ++ r.idColumn ++ " FROM " ++ r.tableName ++ " WHERE " ++ r.idColumn
    ++ " = ? LIMIT 1"
  let stmt := r.buildCountQuery stmt
  let res := r.wrapReadOnly d (fun r0 _ w0 => r0.runCountQuery d stmt [Arg.int id] w0) w
  match res.1.2 with
  | some e => ((false, some e), res.2)
  | none => ((decide (res.1.1 = 1), none), res.2)

/-- The error `fmt.Errorf("%s %d does not exist in %s", r.idColumn, id, r.tableName)`. -/
def repository.notExistErr (r : repository) (id : Int) : Err :=
  Err.other (r.idColumn ++ " " ++ toString id ++ " does not exist in " ++ r.tableName)

/-- The method `update(id, obj, partial)`. The outer `none` is the panic of `updateSet` on a
field that cannot be nil, or of `r.tx.NamedExec` on a nil transaction. -/
def repository.update {σ : Type} (d : Dbi σ) (r : repository) (id : Int)
    (obj : List StructField) (partialUpdate : Bool) (w : World σ) :
    Option (Option Err × World σ) :=
  match r.exists d id w with
  | ((_, some e), w1) => some (some e, w1)
  | ((false, none), w1) => some (some (r.notExistErr id), w1)
  | ((true, none), w1) =>
    match updateSet obj partialUpdate with
    | none => none
    | some set =>
      let stmt := "UPDATE " ++ r.tableName ++ " SET " ++ set ++ " WHERE " ++ r.tableName ++ "."
        ++ r.idColumn ++ " = :id"
      match r.tx with
      | none => none
      | some tx =>
        let res := txNamedExec d tx stmt (NamedArg.struct obj) w1
        some (errOf res.1, res.2)

/-- The method `updateMap(id, m)`. -/
def repository.updateMap {σ : Type} (d : Dbi σ) (r : repository) (id : Int) (m : GoMap)
    (w : World σ) : Option (Option Err × World σ) :=
  match r.exists d id w with
  | ((_, some e), w1) => some (some e, w1)
  | ((false, none), w1) => some (some (r.notExistErr id), w1)
  | ((true, none), w1) =>
    let stmt := "UPDATE " ++ r.tableName ++ " SET " ++ updateSetMap m ++ " WHERE "
      ++ r.tableName ++ "." ++ r.idColumn ++ " = :id"
    match r.tx with
    | none => none
    | some tx =>
      let res := txNamedExec d tx stmt (NamedArg.map m) w1
      some (errOf res.1, res.2)

/-- The method `destroy(ids)`. -/
def repository.destroy {σ : Type} (d : Dbi σ) (r : repository) :
    List Int → World σ → Option (Option Err × World σ)
  | [], w => some (none, w)
  | id :: rest, w =>
    let stmt := "DELETE FROM " ++ r.tableName ++ " WHERE " ++ r.idColumn ++ " = ?"
    match r.tx with
    | none => none
    | some tx =>
      match txExec d tx stmt [Arg.int id] w with
      | (Except.error e, w1) => some (some e, w1)
      | (Except.ok _, w1) => repository.destroy d r rest w1

/-- The checking loop of `destroyExisting`: the error it returns from, if any. -/
def repository.destroyExistingCheck {σ : Type} (d : Dbi σ) (r : repository) :
    List Int → World σ → Option Err × World σ
  | [], w => (none, w)
  | id :: rest, w =>
    match r.exists d id w with
    | ((_, some e), w1) => (some e, w1)
    | ((false, none), w1) => (some (r.notExistErr id), w1)
    | ((true, none), w1) => repository.destroyExistingCheck d r rest w1

/-- The method `destroyExisting(ids)`. -/
def repository.destroyExisting {σ : Type} (d : Dbi σ) (r : repository) (ids : List Int)
    (w : World σ) : Option (Option Err × World σ) :=
  match r.destroyExistingCheck d ids w with
  | (some e, w1) => some (some e, w1)
  | (none, w1) => r.destroy d ids w1

/-- The verb `%v` of package fmt on one bound argument. -/
def Arg.fmtV : Arg → String
  | Arg.null => "<nil>"
  | Arg.int i => toString i
  | Arg.str s => s
  | Arg.bool b => toString b

/-- The verb `%v` of package fmt on the argument slice. -/
def fmtArgs (args : List Arg) : String :=
  "[" ++ String.intercalate " " (args.map Arg.fmtV) ++ "]"

/-- The body that `executeFindQuery` composes before it builds its two queries. -/
def repository.composeBody (r : repository) (body : String) (whereClauses : List String)
    (havingClauses : List String) : String :=
  let body := if whereClauses.length > 0 then
      body ++ " WHERE " ++ String.intercalate " AND " whereClauses
    else body
  let body := body ++ " GROUP BY " ++ r.tableName ++ ".id "
  let body := if havingClauses.length > 0 then
      body ++ " HAVING " ++ String.intercalate " AND " havingClauses
    else body
  body

/-- The closure that `executeFindQuery` hands to `wrapReadOnly`: it runs both queries, then
reports the first failure. The captured variables are `idsResult` and `countResult`. -/
def repository.executeFindQueryRun {σ : Type} (d : Dbi σ) (r0 : repository)
    (countQuery idsQuery : String) (args : List Arg) (w0 : World σ) :
    ((List Int × Int) × Option Err) × World σ :=
  let c := r0.runCountQuery d countQuery args w0
  let i := r0.runIdsQuery d idsQuery args c.2
  let countResult := c.1.1
  let idsResult := i.1.1
  match c.1.2, i.1.2 with
  | some countErr, _ =>
    (((idsResult, countResult), some (Err.other ("Error executing count query with SQL: "
      ++ countQuery ++ ", args: " ++ fmtArgs args ++ ", error: " ++ countErr.Error))), i.2)
  | none, some idsErr =>
    (((idsResult, countResult), some (Err.other ("Error executing find query with SQL: "
      ++ idsQuery ++ ", args: " ++ fmtArgs args ++ ", error: " ++ idsErr.Error))), i.2)
  | none, none => (((idsResult, countResult), none), i.2)

/-- The method `executeFindQuery`: the ids, the count and the error. -/
def repository.executeFindQuery {σ : Type} (d : Dbi σ) (r : repository) (body : String)
    (args : List Arg) (sortAndPagination : String) (whereClauses : List String)
    (havingClauses : List String) (w : World σ) : (List Int × Int × Option Err) × World σ :=
  let body := r.composeBody body whereClauses havingClauses
  let countQuery := r.buildCountQuery body
  let idsQuery := body ++ sortAndPagination
  let res := r.wrapReadOnly d
    (fun r0 _ w0 => r0.executeFindQueryRun d countQuery idsQuery args w0) w
  match res.1.2 with
  | some err => (([], 0, some err), res.2)
  | none => ((res.1.1.1, res.1.1.2, none), res.2)

/-- The method `insert(obj)`. -/
def repository.insert {σ : Type} (d : Dbi σ) (r : repository) (obj : List StructField)
    (w : World σ) : Option (Except Err SqlResult × World σ) :=
  let stmt := "INSERT INTO " ++ r.tableName ++ " (" ++ listKeys obj false ++ ") VALUES ("
    ++ listKeys obj true ++ ")"
  match r.tx with
  | none => none
  | some tx => some (txNamedExec d tx stmt (NamedArg.struct obj) w)

/-! ## scene.go: finding one scene -/

/-- The method `sceneQueryBuilder.find(id)`: the scene (nil is `none`) and the error. The
destination `ret` starts as the zero record. -/
def sceneQueryBuilder.find {σ : Type} (d : Dbi σ) (qb : repository) (id : Int) (w : World σ) :
    (Option Row × Option Err) × World σ :=
  match qb.get d id [] w with
  | ((_, some err), w1) =>
    if err = Err.ErrNoRows then ((none, none), w1) else ((none, some err), w1)
  | ((ret, none), w1) => ((some ret, none), w1)

/-- The method `sceneQueryBuilder.Find(id)`. -/
def sceneQueryBuilder.Find {σ : Type} (d : Dbi σ) (qb : repository) (id : Int) (w : World σ) :
    (Option Row × Option Err) × World σ :=
  sceneQueryBuilder.find d qb id w

/-! ## models: criterion inputs -/

/-- The enumeration `models.CriterionModifier`. In Go it is a string type, so a value can
also be any other string: `invalid raw`. -/
inductive CriterionModifier
  | Equals
  | NotEquals
  | GreaterThan
  | LessThan
  | IsNull
  | NotNull
  | IncludesAll
  | Includes
  | Excludes
  | MatchesRegex
  | NotMatchesRegex
  | invalid (raw : String)
  deriving DecidableEq, Repr

/-- Modelled from the spec: `CriterionModifier.IsValid` (generated model code, not among the
sources). A modifier is valid when it is one of the declared modifiers; "a criterion with an
invalid/absent modifier contributes no predicate". -/
def CriterionModifier.IsValid : CriterionModifier → Bool
  | CriterionModifier.invalid _ => false
  | _ => true

/-- The struct `models.StringCriterionInput`. -/
structure StringCriterionInput where
  Value : String
  Modifier : CriterionModifier
  deriving DecidableEq, Repr

/-- The struct `models.IntCriterionInput`. -/
structure IntCriterionInput where
  Value : Int
  Modifier : CriterionModifier
  deriving DecidableEq, Repr

/-- Functions of package sqlite that the sources call and that are not among them; they are
taken as given. -/
structure SqlHelpers where
  getIntCriterionWhereClause : String → IntCriterionInput → String × Int
  getSearchBinding : List String → String → Bool → String × List Arg
  getSimpleCriterionClause : CriterionModifier → String → String × Int

/-! ## Machine integers -/

/-- The largest Go `int` (64 bits). -/
def maxInt : Int := 2 ^ 63 - 1

/-- The smallest Go `int` (64 bits). -/
def minInt : Int := -(2 ^ 63)

/-- Two's-complement wrap-around of an integer result into the 64-bit range. -/
def wrapInt64 (x : Int) : Int := (x + 2 ^ 63) % 2 ^ 64 - 2 ^ 63

/-! ## query.go -/

/-- The struct `queryBuilder` (its repository apart, which the builder methods do not use). -/
structure queryBuilder where
  body : String
  whereClauses : List String
  havingClauses : List String
  args : List Arg
  sortAndPagination : String
  deriving DecidableEq, Repr

/-- The method `addWhere(clauses...)`. -/
def queryBuilder.addWhere (qb : queryBuilder) : List String → queryBuilder
  | [] => qb
  | clause :: rest =>
    if clause.length > 0 then
      queryBuilder.addWhere { qb with whereClauses := qb.whereClauses ++ [clause] } rest
    else
      queryBuilder.addWhere qb rest

/-- The method `addHaving(clauses...)`. -/
def queryBuilder.addHaving (qb : queryBuilder) : List String → queryBuilder
  | [] => qb
  | clause :: rest =>
    if clause.length > 0 then
      queryBuilder.addHaving { qb with havingClauses := qb.havingClauses ++ [clause] } rest
    else
      queryBuilder.addHaving qb rest

/-- The method `addArg(args...)`. -/
def queryBuilder.addArg (qb : queryBuilder) (args : List Arg) : queryBuilder :=
  { qb with args := qb.args ++ args }

/-- The method `handleStringCriterionInput(c, column)`; a nil criterion is `none`. -/
def queryBuilder.handleStringCriterionInput (h : SqlHelpers) (qb : queryBuilder)
    (c : Option StringCriterionInput) (column : String) : queryBuilder :=
  match c with
  | none => qb
  | some c =>
    let modifier := c.Modifier
    if c.Modifier.IsValid then
      match modifier with
      | CriterionModifier.Includes =>
        let b := h.getSearchBinding [column] c.Value false
        (qb.addWhere [b.1]).addArg b.2
      | CriterionModifier.Excludes =>
        let b := h.getSearchBinding [column] c.Value true
        (qb.addWhere [b.1]).addArg b.2
      | CriterionModifier.Equals =>
        (qb.addWhere [column ++ " LIKE ?"]).addArg [Arg.str c.Value]
      | CriterionModifier.NotEquals =>
        (qb.addWhere [column ++ " NOT LIKE ?"]).addArg [Arg.str c.Value]
      | CriterionModifier.MatchesRegex =>
        (qb.addWhere [column ++ " regexp ?"]).addArg [Arg.str c.Value]
      | CriterionModifier.NotMatchesRegex =>
        (qb.addWhere [column ++ " NOT regexp ?"]).addArg [Arg.str c.Value]
      | _ =>
        let s := h.getSimpleCriterionClause modifier "?"
        let qb := qb.addWhere [column ++ " " ++ s.1]
        if s.2 = 1 then qb.addArg [Arg.str c.Value] else qb
    else qb

/-! ## scene.go: the duration filter -/

/-- The function `getDurationWhereClause(durationFilter, column)`. -/
def getDurationWhereClause (h : SqlHelpers) (durationFilter : IntCriterionInput)
    (column : String) : String × List Arg :=
  let value := durationFilter.Value
  if durationFilter.Modifier = CriterionModifier.Equals then
    (column ++ " >= ? AND " ++ column ++ " < ?",
      ([] ++ [Arg.int value]) ++ [Arg.int (wrapInt64 (value + 1))])
  else if durationFilter.Modifier = CriterionModifier.NotEquals then
    ("(" ++ column ++ " < ? OR " ++ column ++ " >= ?)",
      ([] ++ [Arg.int value]) ++ [Arg.int (wrapInt64 (value + 1))])
  else
    let c := h.getIntCriterionWhereClause column durationFilter
    (c.1, if c.2 = 1 then [] ++ [Arg.int value] else [])

/-! ## Meaning of a where-clause over one numeric column

The store's reading of the clauses the duration filter emits: comparisons between the column
and positional placeholders, joined by `AND` and `OR` (`AND` binds tighter), optionally inside
one pair of parentheses. -/

/-- The lexer: tokens are separated by blanks, and a parenthesis is a token of its own.
`cur` is the token being read. -/
def lexClause : List Char → List Char → List String
  | [], cur => if cur = [] then [] else [String.mk cur]
  | ch :: rest, cur =>
    if ch = ' ' then
      if cur = [] then lexClause rest [] else String.mk cur :: lexClause rest []
    else if ch = '(' ∨ ch = ')' then
      if cur = [] then String.singleton ch :: lexClause rest []
      else String.mk cur :: String.singleton ch :: lexClause rest []
    else lexClause rest (cur ++ [ch])

/-- An operand: the placeholder `?` takes the next bound argument, which has to be an integer;
the column name stands for the value `d` of the row. -/
def evalOperand (column : String) (d : ℚ) (tok : String) (args : List Arg) :
    Option (ℚ × List Arg) :=
  if tok = "?" then
    match args with
    | Arg.int i :: rest => some ((i : ℚ), rest)
    | _ => none
  else if tok = column then some (d, args)
  else none

/-- A comparison operator. -/
def evalCompare (op : String) (x y : ℚ) : Option Bool :=
  if op = ">=" then some (decide (y ≤ x))
  else if op = "<" then some (decide (x < y))
  else if op = "<=" then some (decide (x ≤ y))
  else if op = ">" then some (decide (y < x))
  else if op = "=" then some (decide (x = y))
  else if op = "!=" then some (decide (x ≠ y))
  else none

/-- A disjunction of conjunctions of comparisons, read left to right: `orAcc` is the value of
the disjuncts already closed, `andAcc` the value of the conjunction being read. Every bound
argument has to be used. -/
def evalTokens (column : String) (d : ℚ) : List String → List Arg → Bool → Bool → Option Bool
  | [a, op, b], args, orAcc, andAcc =>
    match evalOperand column d a args with
    | none => none
    | some (x, args1) =>
      match evalOperand column d b args1 with
      | none => none
      | some (y, args2) =>
        match evalCompare op x y with
        | none => none
        | some v => if args2 = [] then some (orAcc || (andAcc && v)) else none
  | a :: op :: b :: k :: rest, args, orAcc, andAcc =>
    match evalOperand column d a args with
    | none => none
    | some (x, args1) =>
      match evalOperand column d b args1 with
      | none => none
      | some (y, args2) =>
        match evalCompare op x y with
        | none => none
        | some v =>
          if k = "AND" then evalTokens column d rest args2 orAcc (andAcc && v)
          else if k = "OR" then evalTokens column d rest args2 (orAcc || (andAcc && v)) true
          else none
  | _, _, _, _ => none

/-- One pair of parentheses around the whole clause is dropped. -/
def stripParens (toks : List String) : List String :=
  match toks with
  | [] => []
  | t :: rest => if t = "(" ∧ rest.getLast? = some ")" then rest.dropLast else t :: rest

/-- Whether a row whose column `column` holds `d` satisfies `clause`, the placeholders bound
positionally to `args`; `none` when the clause is outside the fragment or the binding fails. -/
def evalClause (column : String) (d : ℚ) (clause : String) (args : List Arg) : Option Bool :=
  evalTokens column d (stripParens (lexClause clause.data [])) args false true

/-- A column name: not empty, and free of blanks, parentheses and question marks. -/
def isColumnName (column : String) : Bool :=
  !column.data.isEmpty &&
    column.data.all (fun ch => ch != ' ' && ch != '(' && ch != ')' && ch != '?')

/-! ## A reference store: one table behind the driver -/

/-- One table of the store. `faults` scripts the failures of the store: each statement (and
each commit) takes the head of the list, and fails with it when it is an error. `saved` is the
snapshot a transaction opened by `Begin` rolls back to. -/
structure TableStore where
  tableName : String
  idColumn : String
  rows : List Row
  faults : List (Option Err)
  saved : Option (List Row)
  deriving DecidableEq, Repr

/-- The row has value `id` in the id column. -/
def rowHasId (idColumn : String) (id : Int) (row : Row) : Bool :=
  row.lookup idColumn == some (Arg.int id)

/-- The row has value `id` in the id column of the table. -/
abbrev TableStore.hasId (st : TableStore) (id : Int) (row : Row) : Bool :=
  rowHasId st.idColumn id row

/-- The fault the next statement meets, if any. -/
def TableStore.nextFault (st : TableStore) : Option Err :=
  match st.faults with
  | some e :: _ => some e
  | _ => none

/-- The store once the next entry of the fault script is used up. -/
def TableStore.step (st : TableStore) : TableStore :=
  { st with faults := st.faults.tail }

/-- The two single-row queries the repository sends: the existence probe of `exists` and the
fetch of `get`. -/
def TableStore.Get (query : String) (args : List Arg) (st : TableStore) :
    Except Err Row × TableStore :=
  match st.nextFault with
  | some e => (Except.error e, st.step)
  | none =>
    match args with
    | [Arg.int id] =>
      if query = "SELECT COUNT(*) as count FROM (" ++ ("SELECT " ++ st.idColumn ++ " FROM "
          ++ st.tableName ++ " WHERE " ++ st.idColumn ++ " = ? LIMIT 1") ++ ") as temp" then
        (Except.ok [("count", Arg.int (if st.rows.any (st.hasId id) then 1 else 0))], st.step)
      else if query = "SELECT * FROM " ++ st.tableName ++ " WHERE " ++ st.idColumn
          ++ " = ? LIMIT 1" then
        match st.rows.find? (st.hasId id) with
        | some row => (Except.ok row, st.step)
        | none => (Except.error Err.ErrNoRows, st.step)
      else (Except.error (Err.other "unsupported query"), st.step)
    | _ => (Except.error (Err.other "unsupported query"), st.step)

/-- No multi-row query is interpreted by this store. -/
def TableStore.Select (_query : String) (_args : List Arg) (st : TableStore) :
    Except Err (List Row) × TableStore :=
  match st.nextFault with
  | some e => (Except.error e, st.step)
  | none => (Except.error (Err.other "unsupported query"), st.step)

/-- The statement `DELETE FROM <table> WHERE <id column> = ?`. -/
def TableStore.Exec (stmt : String) (args : List Arg) (st : TableStore) :
    Except Err SqlResult × TableStore :=
  match st.nextFault with
  | some e => (Except.error e, st.step)
  | none =>
    match args with
    | [Arg.int id] =>
      if stmt = "DELETE FROM " ++ st.tableName ++ " WHERE " ++ st.idColumn ++ " = ?" then
        (Except.ok { lastInsertId := Except.ok 0 },
          { st.step with rows := st.rows.filter (fun row => !st.hasId id row) })
      else (Except.error (Err.other "unsupported statement"), st.step)
    | _ => (Except.error (Err.other "unsupported statement"), st.step)

/-- No named statement is interpreted by this store. -/
def TableStore.NamedExec (_stmt : String) (_arg : NamedArg) (st : TableStore) :
    Except Err SqlResult × TableStore :=
  match st.nextFault with
  | some e => (Except.error e, st.step)
  | none => (Except.error (Err.other "unsupported statement"), st.step)

/-- The reference store as a driver. -/
def tableDb : Dbi TableStore where
  Get := TableStore.Get
  Select := TableStore.Select
  Exec := TableStore.Exec
  NamedExec := TableStore.NamedExec
  Begin := fun st => { st with saved := some st.rows }
  Commit := fun st =>
    match st.nextFault with
    | some e => (some e, st.step)
    | none => (none, { st.step with saved := none })
  Rollback := fun st =>
    match st.saved with
    | some rows => { st with rows := rows, saved := none }
    | none => st

/-- The ids stored in the table, row by row. -/
def TableStore.ids (st : TableStore) : List Arg :=
  st.rows.filterMap (fun row => row.lookup st.idColumn)

/-- The repository that is bound to the table of a store, inside a transaction or not. -/
def TableStore.repo (st : TableStore) (tx : Option Tx) : repository :=
  { tx := tx, tableName := st.tableName, idColumn := st.idColumn }

/-- A scenes table with the rows 1, 2 and 3, and no fault scripted. -/
def sampleStore : TableStore :=
  { tableName := "scenes", idColumn := "id",
    rows := [[("id", Arg.int 1), ("title", Arg.str "a")],
             [("id", Arg.int 2), ("title", Arg.str "b")],
             [("id", Arg.int 3), ("title", Arg.null)]],
    faults := [], saved := none }

/-- The world of `sampleStore` before any call. -/
def sampleWorld : World TableStore := { db := sampleStore, log := [] }

/-- A partial scene record: the id, a title that is set, details that are omitted, a URL
that is explicitly cleared, and a rating that is set. -/
def sampleScenePartial : List StructField :=
  [ { tag := "id", value := FieldValue.direct (Arg.int 7) },
    { tag := "title", value := FieldValue.pointer (some (Arg.str "Beach")) },
    { tag := "details", value := FieldValue.pointer none },
    { tag := "url", value := FieldValue.pointer (some Arg.null) },
    { tag := "rating,omitempty", value := FieldValue.pointer (some (Arg.int 4)) } ]

/-- The fault script holds no failure. -/
def TableStore.noFaults (st : TableStore) : Prop := ∀ f ∈ st.faults, f = none

/-- The body of the find query as the specification words it. -/
def specBody (table body : String) (whereClauses havingClauses : List String) : String :=
  body ++ (if whereClauses = [] then "" else " WHERE " ++ String.intercalate " AND " whereClauses)
    ++ " GROUP BY " ++ table ++ ".id "
    ++ (if havingClauses = [] then "" else " HAVING " ++ String.intercalate " AND " havingClauses)

/-! ## Reading a builder back -/

/-- The number of `?` placeholders in a clause. -/
def placeholders (clause : String) : Nat := clause.data.count '?'

/-- A sequence of `handleStringCriterionInput` calls, each with a criterion that is not nil
and its column. -/
def handleStringCriteria (h : SqlHelpers) (qb : queryBuilder)
    (calls : List (StringCriterionInput × String)) : queryBuilder :=
  calls.foldl (fun qb call => qb.handleStringCriterionInput h (some call.1) call.2) qb

/-- The clause the criterion table gives for a string criterion with one of the modifiers
Equals, NotEquals, MatchesRegex and NotMatchesRegex. -/
def stringClause (call : StringCriterionInput × String) : String :=
  match call.1.Modifier with
  | CriterionModifier.Equals => call.2 ++ " LIKE ?"
  | CriterionModifier.NotEquals => call.2 ++ " NOT LIKE ?"
  | CriterionModifier.MatchesRegex => call.2 ++ " regexp ?"
  | CriterionModifier.NotMatchesRegex => call.2 ++ " NOT regexp ?"
  | _ => ""

/-- The modifiers of the string criterion table that write `column <operator> ?`. -/
def isPatternModifier : CriterionModifier → Bool
  | CriterionModifier.Equals => true
  | CriterionModifier.NotEquals => true
  | CriterionModifier.MatchesRegex => true
  | CriterionModifier.NotMatchesRegex => true
  | _ => false

/-- Helper functions that are never reached by the theorems' instances. -/
def sampleHelpers : SqlHelpers :=
  { getIntCriterionWhereClause := fun _ _ => ("", 0),
    getSearchBinding := fun _ _ _ => ("", []),
    getSimpleCriterionClause := fun _ _ => ("", 0) }

/-- A builder that already holds a clause and its argument. -/
def sampleBuilder : queryBuilder :=
  { body := "SELECT DISTINCT scenes.id FROM scenes", whereClauses := ["scenes.rating = ?"],
    havingClauses := ["count(scene_markers.scene_id) > 0"], args := [Arg.int 5],
    sortAndPagination := " ORDER BY scenes.title ASC" }

/-- A builder that holds no clause and no argument yet. -/
def emptyBuilder (body suffix : String) : queryBuilder :=
  { body := body, whereClauses := [], havingClauses := [], args := [],
    sortAndPagination := suffix }

/-- The database state in which the first statement of a read-only call runs: the state at
the call when the repository is inside a transaction, the state after `Begin` otherwise. -/
def repository.readState {σ : Type} (d : Dbi σ) (r : repository) (w : World σ) : σ :=
  match r.tx with
  | some _ => w.db
  | none => d.Begin w.db

/-- The store of `sampleStore`, about to fail its next statement with "disk I/O error". -/
def failingWorld : World TableStore :=
  { db := { sampleStore with faults := [some (Err.other "disk I/O error")] }, log := [] }

/-- The store of `sampleStore`, about to answer its next two statements with
`sql.ErrNoRows`. -/
def noRowsWorld : World TableStore :=
  { db := { sampleStore with faults := [some Err.ErrNoRows, some Err.ErrNoRows] }, log := [] }

/-! ## The codec `base64.StdEncoding` (standard library, RFC 4648 with padding) -/

/-- A byte of a `[]byte`. -/
abbrev Byte := Fin 256

/-- The alphabet of the standard encoding. -/
def base64Alphabet : List Char :=
  "ABCDEFGHIJKLMNOPQRSTUVWXYZabcdefghijklmnopqrstuvwxyz0123456789+/".data

/-- The character for a 6-bit value. -/
def base64Char (n : Nat) : Char := base64Alphabet.getD n 'A'

/-- The 6-bit value of a character of the alphabet. -/
def base64Index (c : Char) : Option Nat :=
  if base64Alphabet.indexOf c < 64 then some (base64Alphabet.indexOf c) else none

/-- Encoding, three bytes to four characters, the last group padded with `=`. -/
def base64EncodeBytes : List Byte → List Char
  | [] => []
  | [a] => [base64Char (a.val / 4), base64Char (a.val % 4 * 16), '=', '=']
  | [a, b] =>
    [base64Char (a.val / 4), base64Char (a.val % 4 * 16 + b.val / 16),
      base64Char (b.val % 16 * 4), '=']
  | a :: b :: c :: rest =>
    base64Char (a.val / 4) :: base64Char (a.val % 4 * 16 + b.val / 16) ::
      base64Char (b.val % 16 * 4 + c.val / 64) :: base64Char (c.val % 64) ::
      base64EncodeBytes rest

/-- The error `base64.CorruptInputError` (its byte offset is not modelled). -/
def corruptInputError : Err := Err.other "illegal base64 data"

/-- Decoding of the characters once line breaks are dropped: four characters to three bytes;
padding is accepted in the last group only, and the bits it leaves over are not checked. -/
def base64DecodeQuanta : List Char → Except Err (List Byte)
  | [] => Except.ok []
  | c0 :: c1 :: c2 :: c3 :: rest =>
    match base64Index c0, base64Index c1 with
    | some n0, some n1 =>
      if c2 = '=' then
        if c3 = '=' ∧ rest = [] then Except.ok [Fin.ofNat (n0 * 4 + n1 / 16)]
        else Except.error corruptInputError
      else
        match base64Index c2 with
        | none => Except.error corruptInputError
        | some n2 =>
          if c3 = '=' then
            if rest = [] then
              Except.ok [Fin.ofNat (n0 * 4 + n1 / 16), Fin.ofNat (n1 % 16 * 16 + n2 / 4)]
            else Except.error corruptInputError
          else
            match base64Index c3 with
            | none => Except.error corruptInputError
            | some n3 =>
              match base64DecodeQuanta rest with
              | Except.error e => Except.error e
              | Except.ok bytes =>
                Except.ok (Fin.ofNat (n0 * 4 + n1 / 16) :: Fin.ofNat (n1 % 16 * 16 + n2 / 4) ::
                  Fin.ofNat (n2 % 4 * 64 + n3) :: bytes)
    | _, _ => Except.error corruptInputError
  | _ => Except.error corruptInputError

/-- The method `base64.StdEncoding.EncodeToString`. -/
def StdEncoding.EncodeToString (data : List Byte) : String :=
  String.mk (base64EncodeBytes data)

/-- The method `base64.StdEncoding.DecodeString`; carriage returns and line feeds in the input
are ignored. -/
def StdEncoding.DecodeString (s : String) : Except Err (List Byte) :=
  base64DecodeQuanta (s.data.filter (fun c => c != '\r' && c != '\n'))

/-! ## utils/image.go -/

/-- The function `GetDataFromBase64String`. -/
def GetDataFromBase64String (encodedString : String) : Except Err (List Byte) :=
  StdEncoding.DecodeString encodedString

/-- The function `GetBase64StringFromData`. -/
def GetBase64StringFromData (data : List Byte) : String :=
  StdEncoding.EncodeToString data

/-- The bytes of the ASCII text "imageBytes". -/
def imageBytes : List Byte := [105, 109, 97, 103, 101, 66, 121, 116, 101, 115]

/-! ## models and jsonschema: the performer records -/

/-- The type `time.Time`, as an instant counted in seconds. -/
abbrev Time := Int

/-- The struct `sql.NullString` (and `models.SQLiteDate`, which has the same two fields). -/
structure NullString where
  String : String
  Valid : Bool
  deriving DecidableEq, Repr

/-- The struct `sql.NullBool`. -/
structure NullBool where
  Valid : Bool
  Bool : Bool
  deriving DecidableEq, Repr

/-- The struct `models.SQLiteTimestamp`. -/
structure SQLiteTimestamp where
  Timestamp : Time
  deriving DecidableEq, Repr

/-- The struct `models.JSONTime`. -/
structure JSONTime where
  Time : Time
  deriving DecidableEq, Repr

/-- Modelled from the spec: the struct `models.Performer` (its declaration is not among the
sources), an entity record with an integer primary key, nullable scalar fields and the two
timestamps; the fields are those that `ToJSON` and its test name. -/
structure Performer where
  ID : Int
  Checksum : String
  Name : NullString
  Gender : NullString
  URL : NullString
  Twitter : NullString
  Instagram : NullString
  Birthdate : NullString
  Ethnicity : NullString
  Country : NullString
  EyeColor : NullString
  Height : NullString
  Measurements : NullString
  FakeTits : NullString
  CareerLength : NullString
  Tattoos : NullString
  Piercings : NullString
  Aliases : NullString
  Favorite : NullBool
  CreatedAt : SQLiteTimestamp
  UpdatedAt : SQLiteTimestamp
  Details : NullString
  deriving DecidableEq, Repr

/-- Modelled from the spec: the struct `jsonschema.Performer` (its declaration is not among
the sources), the exported form of a performer; the fields are those that `ToJSON` and its
test name. -/
structure JSONPerformer where
  Name : String
  Gender : String
  URL : String
  Twitter : String
  Instagram : String
  Birthdate : String
  Ethnicity : String
  Country : String
  EyeColor : String
  Height : String
  Measurements : String
  FakeTits : String
  CareerLength : String
  Tattoos : String
  Piercings : String
  Aliases : String
  Favorite : Bool
  Image : String
  CreatedAt : JSONTime
  UpdatedAt : JSONTime
  Details : String
  deriving DecidableEq, Repr

/-- The zero value of `jsonschema.Performer`. -/
def JSONPerformer.zero : JSONPerformer :=
  { Name := "", Gender := "", URL := "", Twitter := "", Instagram := "", Birthdate := "",
    Ethnicity := "", Country := "", EyeColor := "", Height := "", Measurements := "",
    FakeTits := "", CareerLength := "", Tattoos := "", Piercings := "", Aliases := "",
    Favorite := false, Image := "", CreatedAt := { Time := 0 }, UpdatedAt := { Time := 0 },
    Details := "" }

/-- The interface `models.PerformerReader`. -/
structure PerformerReader where
  GetPerformerImage : Int → Except Err (List Byte)

/-! ## performer/export.go -/

/-- The function `ToJSON(reader, performer)`. The function `utils.GetYMDFromDatabaseDate` is
not among the sources and is taken as given (`ymd`). The outer `none` is the panic on a nil
performer. -/
def ToJSON (ymd : String → String) (reader : PerformerReader) (performer : Option Performer) :
    Option (Option JSONPerformer × Option Err) :=
  match performer with
  | none => none
  | some performer =>
    let j : JSONPerformer :=
      { JSONPerformer.zero with
        CreatedAt := { Time := performer.CreatedAt.Timestamp },
        UpdatedAt := { Time := performer.UpdatedAt.Timestamp } }
    let j := if performer.Name.Valid then { j with Name := performer.Name.String } else j
    let j := if performer.Gender.Valid then { j with Gender := performer.Gender.String } else j
    let j := if performer.URL.Valid then { j with URL := performer.URL.String } else j
    let j := if performer.Birthdate.Valid then
        { j with Birthdate := ymd performer.Birthdate.String }
      else j
    let j := if performer.Ethnicity.Valid then
        { j with Ethnicity := performer.Ethnicity.String }
      else j
    let j := if performer.Country.Valid then { j with Country := performer.Country.String } else j
    let j := if performer.EyeColor.Valid then
        { j with EyeColor := performer.EyeColor.String }
      else j
    let j := if performer.Height.Valid then { j with Height := performer.Height.String } else j
    let j := if performer.Measurements.Valid then
        { j with Measurements := performer.Measurements.String }
      else j
    let j := if performer.FakeTits.Valid then
        { j with FakeTits := performer.FakeTits.String }
      else j
    let j := if performer.CareerLength.Valid then
        { j with CareerLength := performer.CareerLength.String }
      else j
    let j := if performer.Tattoos.Valid then { j with Tattoos := performer.Tattoos.String } else j
    let j := if performer.Piercings.Valid then
        { j with Piercings := performer.Piercings.String }
      else j
    let j := if performer.Aliases.Valid then { j with Aliases := performer.Aliases.String } else j
    let j := if performer.Twitter.Valid then { j with Twitter := performer.Twitter.String } else j
    let j := if performer.Instagram.Valid then
        { j with Instagram := performer.Instagram.String }
      else j
    let j := if performer.Favorite.Valid then { j with Favorite := performer.Favorite.Bool } else j
    match reader.GetPerformerImage performer.ID with
    | Except.error err =>
      some (none, some (Err.other ("error getting performers image: " ++ err.Error)))
    | Except.ok image =>
      let j := if image.length > 0 then { j with Image := GetBase64StringFromData image } else j
      some (some j, none)

/-- The function `models.NullString(v)` that the test builds its records with. -/
def nullString (v : String) : NullString := { String := v, Valid := true }

/-- The instant `createTime` of export_test.go (1 January 2001, taken in UTC). -/
def createTime : Time := 978307200

/-- The instant `updateTime` of export_test.go (1 January 2002, taken in UTC). -/
def updateTime : Time := 1009843200

/-- The function `createFullPerformer(id, name)` of export_test.go; the checksum is the MD5 of
a name given with it. -/
def createFullPerformer (id : Int) (name checksum : String) : Performer :=
  { ID := id, Name := nullString name, Checksum := checksum, URL := nullString "url",
    Aliases := nullString "aliases", Birthdate := { String := "2001-01-01", Valid := true },
    CareerLength := nullString "careerLength", Country := nullString "country",
    Ethnicity := nullString "ethnicity", EyeColor := nullString "eyeColor",
    FakeTits := nullString "fakeTits", Favorite := { Bool := true, Valid := true },
    Gender := nullString "gender", Height := nullString "height",
    Instagram := nullString "instagram", Measurements := nullString "measurements",
    Piercings := nullString "piercings", Tattoos := nullString "tattoos",
    Twitter := nullString "twitter", CreatedAt := { Timestamp := createTime },
    UpdatedAt := { Timestamp := updateTime }, Details := nullString "details" }

/-- The function `createEmptyPerformer(id)` of export_test.go. -/
def createEmptyPerformer (id : Int) : Performer :=
  { ID := id, Checksum := "", Name := { String := "", Valid := false },
    Gender := { String := "", Valid := false }, URL := { String := "", Valid := false },
    Twitter := { String := "", Valid := false }, Instagram := { String := "", Valid := false },
    Birthdate := { String := "", Valid := false }, Ethnicity := { String := "", Valid := false },
    Country := { String := "", Valid := false }, EyeColor := { String := "", Valid := false },
    Height := { String := "", Valid := false }, Measurements := { String := "", Valid := false },
    FakeTits := { String := "", Valid := false },
    CareerLength := { String := "", Valid := false },
    Tattoos := { String := "", Valid := false }, Piercings := { String := "", Valid := false },
    Aliases := { String := "", Valid := false }, Favorite := { Bool := false, Valid := false },
    CreatedAt := { Timestamp := createTime }, UpdatedAt := { Timestamp := updateTime },
    Details := { String := "", Valid := false } }

/-- The function `createFullJSONPerformer(name, image)` of export_test.go. -/
def createFullJSONPerformer (name image : String) : JSONPerformer :=
  { Name := name, URL := "url", Aliases := "aliases", Birthdate := "2001-01-01",
    CareerLength := "careerLength", Country := "country", Ethnicity := "ethnicity",
    EyeColor := "eyeColor", FakeTits := "fakeTits", Favorite := true, Gender := "gender",
    Height := "height", Instagram := "instagram", Measurements := "measurements",
    Piercings := "piercings", Tattoos := "tattoos", Twitter := "twitter",
    CreatedAt := { Time := createTime }, UpdatedAt := { Time := updateTime }, Image := image,
    Details := "details" }

/-- The function `createEmptyJSONPerformer()` of export_test.go. -/
def createEmptyJSONPerformer : JSONPerformer :=
  { JSONPerformer.zero with
    CreatedAt := { Time := createTime }, UpdatedAt := { Time := updateTime } }

/-- The mocked reader of `TestToJSON`: performer 1 has the image "imageBytes", performer 2 has
none and the lookup for performer 3 fails; no other lookup is expected. -/
def mockPerformerReader : PerformerReader :=
  { GetPerformerImage := fun id =>
      if id = 1 then Except.ok imageBytes
      else if id = 2 then Except.ok []
      else if id = 3 then Except.error (Err.other "error getting image")
      else Except.error (Err.other "unexpected call") }

/-- Every nullable field of the performer is valid. -/
def Performer.allValid (p : Performer) : Bool :=
  p.Name.Valid && p.Gender.Valid && p.URL.Valid && p.Twitter.Valid && p.Instagram.Valid &&
    p.Birthdate.Valid && p.Ethnicity.Valid && p.Country.Valid && p.EyeColor.Valid &&
    p.Height.Valid && p.Measurements.Valid && p.FakeTits.Valid && p.CareerLength.Valid &&
    p.Tattoos.Valid && p.Piercings.Valid && p.Aliases.Valid && p.Favorite.Valid &&
    p.Details.Valid

/-- No nullable field of the performer is valid. -/
def Performer.noneValid (p : Performer) : Bool :=
  !p.Name.Valid && !p.Gender.Valid && !p.URL.Valid && !p.Twitter.Valid && !p.Instagram.Valid &&
    !p.Birthdate.Valid && !p.Ethnicity.Valid && !p.Country.Valid && !p.EyeColor.Valid &&
    !p.Height.Valid && !p.Measurements.Valid && !p.FakeTits.Valid && !p.CareerLength.Valid &&
    !p.Tattoos.Valid && !p.Piercings.Valid && !p.Aliases.Valid && !p.Favorite.Valid &&
    !p.Details.Valid

/-- The text before and the text after the last occurrence of `pat`, if it occurs. -/
def lastSplit (pat : List Char) : List Char → Option (List Char × List Char)
  | [] => none
  | c :: cs =>
    match lastSplit pat cs with
    | some (before, after) => some (c :: before, after)
    | none =>
      if pat.isPrefixOf (c :: cs) then some ([], (c :: cs).drop pat.length) else none

/-- The call `regexp.MustCompile(base64RE).FindStringSubmatch(s)` for the constant
`base64RE`, the pattern `^data:.+\/(.+);base64,(.*)$` (package regexp is the standard
library's). The text has to start with `data:` and hold no line feed after it, since `.`
matches none; both `.+` are greedy, the first one first, so the second group starts after the
last `;base64,` and the first group after the last `/` that leaves both `.+` a character. The
result is nil (`[]`) without a match, and the whole match followed by the two groups with
one. -/
def base64RE.FindStringSubmatch (s : String) : List String :=
  if "data:".data.isPrefixOf s.data then
    let r := s.data.drop 5
    if r.any (fun c => c == '\n') then []
    else
      match lastSplit ";base64,".data r with
      | none => []
      | some (head, group2) =>
        match head with
        | [] => []
        | _ :: t =>
          match lastSplit ['/'] t.dropLast, t.getLast? with
          | some (_, y), some l => [s, String.mk (y ++ [l]), String.mk group2]
          | _, _ => []
  else []

/-- The function `ProcessBase64Image(imageString)`: the MD5 hash, the image and the error.
The function `MD5FromBytes` is not among the sources and is taken as given (`md5`). -/
def ProcessBase64Image (md5 : List Byte → String) (imageString : String) :
    String × List Byte × Option Err :=
  if imageString = "" then
    ("", [], some (Err.other "empty image string"))
  else
    let found := base64RE.FindStringSubmatch imageString
    let encodedString :=
      if found.length > 2 then (base64RE.FindStringSubmatch imageString).getD 2 ""
      else imageString
    match GetDataFromBase64String encodedString with
    | Except.error err => ("", [], some err)
    | Except.ok imageData => (md5 imageData, imageData, none)

/-! ## The filter builder -/

/-- Modelled from the spec: a where- or having-fragment of the filter builder with its bound
arguments (the declaration is not among the sources). -/
structure sqlClause where
  sql : String
  args : List Arg
  deriving DecidableEq, Repr

/-- Modelled from the spec: an entry of the "join registry (deduplicated by alias)": the
joined table, its alias (empty when the table goes by its own name) and the join
condition. -/
structure join where
  table : String
  as : String
  onClause : String
  deriving DecidableEq, Repr

/-- The name a join goes by: its alias, or its table when the alias is empty. -/
def join.alias (j : join) : String := if j.as = "" then j.table else j.as

/-- Modelled from the spec: the struct `filterBuilder` (declared in a file that is not among
the sources): the join registry and the ordered where- and having-fragments that criterion
handlers contribute. -/
structure filterBuilder where
  joins : List join
  whereClauses : List sqlClause
  havingClauses : List sqlClause
  deriving DecidableEq, Repr

/-- Modelled from the spec: the method `filterBuilder.addJoin(table, as, onClause)`; the
registry is "deduplicated by alias", so a join whose alias is registered already is not
added. -/
def filterBuilder.addJoin (f : filterBuilder) (table as onClause : String) : filterBuilder :=
  let newJoin : join := { table := table, as := as, onClause := onClause }
  if f.joins.any (fun j => j.alias == newJoin.alias) then f
  else { f with joins := f.joins ++ [newJoin] }

/-- Modelled from the spec: the method `filterBuilder.addWhere(sql, args...)`; as with
`queryBuilder.addWhere`, an empty fragment is not added. -/
def filterBuilder.addWhere (f : filterBuilder) (sql : String) (args : List Arg) :
    filterBuilder :=
  if sql = "" then f
  else { f with whereClauses := f.whereClauses ++ [{ sql := sql, args := args }] }

/-- Modelled from the spec: the method `filterBuilder.addHaving(sql, args...)`. -/
def filterBuilder.addHaving (f : filterBuilder) (sql : String) (args : List Arg) :
    filterBuilder :=
  if sql = "" then f
  else { f with havingClauses := f.havingClauses ++ [{ sql := sql, args := args }] }

/-- Modelled from the spec: the method `join(f, as, parentIDCol)` of a repository, which
"registers a LEFT JOIN of this association table (aliased) into an in-progress query": the
table is joined under the alias, on its id column being equal to the owner's column. -/
def repository.join (r : repository) (f : filterBuilder) (as parentIDCol : String) :
    filterBuilder :=
  let t := if as ≠ "" then as else r.tableName
  f.addJoin r.tableName as (t ++ "." ++ r.idColumn ++ " = " ++ parentIDCol)

/-! ## scene.go: tables, association repositories and the is-missing filter -/

/-- The constant `sceneTable`. -/
def sceneTable : String := "scenes"

/-- The constant `sceneIDColumn`. -/
def sceneIDColumn : String := "scene_id"

/-- The constant `performersScenesTable`. -/
def performersScenesTable : String := "performers_scenes"

/-- The constant `scenesTagsTable`. -/
def scenesTagsTable : String := "scenes_tags"

/-- The constant `scenesGalleriesTable`. -/
def scenesGalleriesTable : String := "scenes_galleries"

/-- The constant `moviesScenesTable`. -/
def moviesScenesTable : String := "movies_scenes"

/-- The foreign-key column names, constants declared in files that are not among the
sources; they are taken as given. -/
structure ForeignKeyColumns where
  performerIDColumn : String
  tagIDColumn : String
  galleryIDColumn : String

/-- The struct `joinRepository`: a repository and its foreign-key column. -/
structure joinRepository where
  repository : repository
  fkColumn : String

/-- The method `sceneQueryBuilder.moviesRepository()`. -/
def sceneQueryBuilder.moviesRepository (qb : repository) : repository :=
  { tx := qb.tx, tableName := moviesScenesTable, idColumn := sceneIDColumn }

/-- The method `sceneQueryBuilder.performersRepository()`. -/
def sceneQueryBuilder.performersRepository (k : ForeignKeyColumns) (qb : repository) :
    joinRepository :=
  { repository := { tx := qb.tx, tableName := performersScenesTable, idColumn := sceneIDColumn },
    fkColumn := k.performerIDColumn }

/-- The method `sceneQueryBuilder.tagsRepository()`. -/
def sceneQueryBuilder.tagsRepository (k : ForeignKeyColumns) (qb : repository) :
    joinRepository :=
  { repository := { tx := qb.tx, tableName := scenesTagsTable, idColumn := sceneIDColumn },
    fkColumn := k.tagIDColumn }

/-- The method `sceneQueryBuilder.galleriesRepository()`. -/
def sceneQueryBuilder.galleriesRepository (k : ForeignKeyColumns) (qb : repository) :
    joinRepository :=
  { repository := { tx := qb.tx, tableName := scenesGalleriesTable, idColumn := sceneIDColumn },
    fkColumn := k.galleryIDColumn }

/-- The method `sceneQueryBuilder.stashIDRepository()`; a `stashIDRepository` is a struct
around a repository. -/
def sceneQueryBuilder.stashIDRepository (qb : repository) : repository :=
  { tx := qb.tx, tableName := "scene_stash_ids", idColumn := sceneIDColumn }

/-- The function `sceneIsMissingCriterionHandler(qb, isMissing)`, as the change it makes to
the filter builder it is applied to. -/
def sceneIsMissingCriterionHandler (k : ForeignKeyColumns) (qb : repository)
    (isMissing : Option String) (f : filterBuilder) : filterBuilder :=
  match isMissing with
  | none => f
  | some s =>
    if s ≠ "" then
      if s = "galleries" then
        ((sceneQueryBuilder.galleriesRepository k qb).repository.join f "galleries_join"
          "scenes.id").addWhere "galleries_join.scene_id IS NULL" []
      else if s = "studio" then
        f.addWhere "scenes.studio_id IS NULL" []
      else if s = "movie" then
        ((sceneQueryBuilder.moviesRepository qb).join f "movies_join"
          "scenes.id").addWhere "movies_join.scene_id IS NULL" []
      else if s = "performers" then
        ((sceneQueryBuilder.performersRepository k qb).repository.join f "performers_join"
          "scenes.id").addWhere "performers_join.scene_id IS NULL" []
      else if s = "date" then
        f.addWhere "scenes.date IS \"\" OR scenes.date IS \"0001-01-01\"" []
      else if s = "tags" then
        ((sceneQueryBuilder.tagsRepository k qb).repository.join f "tags_join"
          "scenes.id").addWhere "tags_join.scene_id IS NULL" []
      else if s = "stash_id" then
        ((sceneQueryBuilder.stashIDRepository qb).join f "scene_stash_ids"
          "scenes.id").addWhere "scene_stash_ids.scene_id IS NULL" []
      else
        f.addWhere ("(scenes." ++ s ++ " IS NULL OR TRIM(scenes." ++ s ++ ") = '')") []
    else f

/-- The names that the is-missing filter recognises. -/
def recognisedMissing : List String :=
  ["galleries", "studio", "movie", "performers", "date", "tags", "stash_id"]

/-- The relationship kinds of the is-missing filter, each with its association table and the
alias it is joined under. -/
def missingRelationships : List (String × String × String) :=
  [("galleries", "scenes_galleries", "galleries_join"),
   ("movie", "movies_scenes", "movies_join"),
   ("performers", "performers_scenes", "performers_join"),
   ("tags", "scenes_tags", "tags_join"),
   ("stash_id", "scene_stash_ids", "scene_stash_ids")]

/-- A filter builder that holds nothing yet. -/
def emptyFilter : filterBuilder := { joins := [], whereClauses := [], havingClauses := [] }

/-- Foreign-key column names for the instances of the theorems. -/
def sampleForeignKeys : ForeignKeyColumns :=
  { performerIDColumn := "performer_id", tagIDColumn := "tag_id",
    galleryIDColumn := "gallery_id" }

/-! ## scene.go: replacing the movies of a scene -/

/-- The type `sql.NullInt64`. -/
structure NullInt64 where
  Valid : Bool
  Int64 : Int
  deriving DecidableEq, Repr

/-- The method `Value()` of `sql.NullInt64`: the value the driver binds, NULL when not valid. -/
def NullInt64.Value (n : NullInt64) : Arg :=
  if n.Valid then Arg.int n.Int64 else Arg.null

/-- Modelled from the spec: the struct `models.MoviesScenes` (declared in a file that is not
among the sources), an "association record: a row in a join table linking two entity ids,
optionally carrying ordinal data (e.g., scene index within a movie)". The fields are those
that scene.go and export.go use. -/
structure MoviesScenes where
  MovieID : Int
  SceneID : Int
  SceneIndex : NullInt64
  deriving DecidableEq, Repr

/-- Modelled from the spec: the fields of a `models.MoviesScenes` value as reflection sees
them, each with its `db` tag (the column it is stored in) and the value that is bound. -/
def MoviesScenes.fields (m : MoviesScenes) : List StructField :=
  [ { tag := "movie_id", value := FieldValue.direct (Arg.int m.MovieID) },
    { tag := "scene_id", value := FieldValue.direct (Arg.int m.SceneID) },
    { tag := "scene_index", value := FieldValue.direct m.SceneIndex.Value } ]

/-- The loop of `UpdateMovies`: each element, with its `SceneID` overwritten, is inserted; the
first failure is returned. -/
def sceneQueryBuilder.UpdateMoviesLoop {σ : Type} (d : Dbi σ) (r : repository) (sceneID : Int) :
    List MoviesScenes → World σ → Option (Option Err × World σ)
  | [], w => some (none, w)
  | m :: rest, w =>
    let m : MoviesScenes := { m with SceneID := sceneID }
    match r.insert d m.fields w with
    | none => none
    | some (Except.error e, w1) => some (some e, w1)
    | some (Except.ok _, w1) => sceneQueryBuilder.UpdateMoviesLoop d r sceneID rest w1

/-- The method `sceneQueryBuilder.UpdateMovies(sceneID, movies)`; the outer `none` is the
panic of a statement sent on a nil transaction. -/
def sceneQueryBuilder.UpdateMovies {σ : Type} (d : Dbi σ) (qb : repository) (sceneID : Int)
    (movies : List MoviesScenes) (w : World σ) : Option (Option Err × World σ) :=
  let r := sceneQueryBuilder.moviesRepository qb
  match r.destroy d [sceneID] w with
  | none => none
  | some (some e, w1) => some (some e, w1)
  | some (none, w1) => sceneQueryBuilder.UpdateMoviesLoop d r sceneID movies w1

/-- The value bound for a field: a nil pointer binds NULL. -/
def FieldValue.bound : FieldValue → Arg
  | FieldValue.direct v => v
  | FieldValue.pointer none => Arg.null
  | FieldValue.pointer (some v) => v

/-- The row that inserting a record stores: one column per field whose key is not `id`, the
keys being those that `listKeys` lists. -/
def rowOfStruct (obj : List StructField) : Row :=
  (obj.filter (fun f => decide (tagKey f.tag ≠ "id"))).map
    (fun f => (tagKey f.tag, f.value.bound))

/-- The statement `INSERT INTO <table> (<keys>) VALUES (<:keys>)` with a record: the row of
the record is appended to the table. -/
def TableStore.Insert (stmt : String) (arg : NamedArg) (st : TableStore) :
    Except Err SqlResult × TableStore :=
  match st.nextFault with
  | some e => (Except.error e, st.step)
  | none =>
    match arg with
    | NamedArg.struct obj =>
      if stmt = "INSERT INTO " ++ st.tableName ++ " (" ++ listKeys obj false ++ ") VALUES ("
          ++ listKeys obj true ++ ")" then
        (Except.ok { lastInsertId := Except.ok (st.rows.length + 1) },
          { st.step with rows := st.rows ++ [rowOfStruct obj] })
      else (Except.error (Err.other "unsupported statement"), st.step)
    | NamedArg.map _ => (Except.error (Err.other "unsupported statement"), st.step)

/-- The reference store as the driver of an association table: as `tableDb`, and the INSERT
of a record is interpreted. -/
def assocDb : Dbi TableStore :=
  { tableDb with NamedExec := TableStore.Insert }

/-- The row of the table `movies_scenes` that holds an association record. -/
def MoviesScenes.row (m : MoviesScenes) : Row :=
  [("movie_id", Arg.int m.MovieID), ("scene_id", Arg.int m.SceneID),
   ("scene_index", m.SceneIndex.Value)]

/-- The rows of the table that belong to a scene. -/
def ownedBy (sceneID : Int) (rows : List Row) : List Row :=
  rows.filter (rowHasId sceneIDColumn sceneID)

/-- A `movies_scenes` table in which scene 1 is in movies 10 and 11 and scene 2 in movie 10,
with no fault scripted. -/
def sampleMovies : TableStore :=
  { tableName := "movies_scenes", idColumn := "scene_id",
    rows := [(MoviesScenes.mk 10 1 { Valid := true, Int64 := 1 }).row,
             (MoviesScenes.mk 10 2 { Valid := false, Int64 := 0 }).row,
             (MoviesScenes.mk 11 1 { Valid := true, Int64 := 2 }).row],
    faults := [], saved := none }

/-- The movies given to `UpdateMovies` in the instance: the same record of movie 12 twice,
then movie 10 without an index, with scene ids that the call overwrites. -/
def sampleNewMovies : List MoviesScenes :=
  [ { MovieID := 12, SceneID := 0, SceneIndex := { Valid := true, Int64 := 3 } },
    { MovieID := 12, SceneID := 0, SceneIndex := { Valid := true, Int64 := 3 } },
    { MovieID := 10, SceneID := 2, SceneIndex := { Valid := false, Int64 := 0 } } ]

/-! ## resolver_mutation_studio.go: creating and updating a studio in a transaction -/

/-- Modelled from the spec: the struct `models.StashIDInput` (not among the sources), with the
two fields the resolver reads. -/
structure StashIDInput where
  Endpoint : String
  StashID : String
  deriving DecidableEq, Repr

/-- Modelled from the spec: the struct `models.StashID` (not among the sources), with the two
fields the resolver writes. -/
structure StashID where
  StashID : String
  Endpoint : String
  deriving DecidableEq, Repr

/-- Modelled from the spec: the struct `models.StudioCreateInput` (not among the sources), with
the fields `StudioCreate` reads; a nil pointer or nil slice is `none`. -/
structure StudioCreateInput where
  Name : String
  URL : Option String
  ParentID : Option String
  Image : Option String
  StashIds : Option (List StashIDInput)
  deriving DecidableEq, Repr

/-- Modelled from the spec: the struct `models.StudioUpdateInput` (not among the sources), with
the fields `StudioUpdate` reads; a nil pointer or nil slice is `none`. -/
structure StudioUpdateInput where
  ID : String
  Name : Option String
  URL : Option String
  ParentID : Option String
  Image : Option String
  StashIds : Option (List StashIDInput)
  deriving DecidableEq, Repr

/-- Modelled from the spec: the struct `models.Studio` (not among the sources), an entity
record with the fields the resolver sets. -/
structure Studio where
  ID : Int
  Checksum : String
  Name : NullString
  URL : NullString
  ParentID : NullInt64
  CreatedAt : SQLiteTimestamp
  UpdatedAt : SQLiteTimestamp
  deriving DecidableEq, Repr

/-- Modelled from the spec: the struct `models.StudioPartial` (not among the sources), the
partial record of a studio with the fields the resolver sets; a nil pointer is `none`. -/
structure StudioPartial where
  ID : Int
  Checksum : Option String
  Name : Option NullString
  URL : Option NullString
  ParentID : Option NullInt64
  UpdatedAt : Option SQLiteTimestamp
  deriving DecidableEq, Repr

/-- What the studio mutations call that is declared outside the sources, taken as given: the
helpers of `utils` and `strconv` (the error of a conversion is dropped by the caller), the
clock, `wasFieldIncluded` of the request, the transaction of `database.DB` (`MustBeginTx`
panics, `none`, when no transaction can be begun) and the query builders, which work on the
transaction they are handed and do not end it. -/
structure StudioDeps (σ : Type) where
  MD5FromString : String → String
  MD5FromBytes : List Byte → String
  ParseInt : String → Int
  Atoi : String → Int
  Now : Time
  wasFieldIncluded : String → Bool
  MustBeginTx : σ → Option σ
  Commit : σ → Option Err × σ
  Rollback : σ → Option Err × σ
  Create : Studio → σ → Except Err Studio × σ
  Update : StudioPartial → σ → Except Err Studio × σ
  UpdateStudioImage : Int → List Byte → σ → Option Err × σ
  DestroyStudioImage : Int → σ → Option Err × σ
  UpdateStudioStashIDs : Int → List StashID → σ → Option Err × σ
  ValidateModifyStudio : StudioPartial → σ → Option Err × σ

/-- The loop that builds `stashIDJoins` from `input.StashIds`. -/
def stashIDJoins (stashIds : List StashIDInput) : List StashID :=
  stashIds.map (fun stashID => { StashID := stashID.StashID, Endpoint := stashID.Endpoint })

/-- The statements `_ = tx.Rollback(); return nil, err`: the error of the rollback is
dropped. -/
def rollbackAndReturn {σ : Type} (env : StudioDeps σ) (err : Err) (s : σ) (log : List Call) :
    Option ((Option Studio × Option Err) × World σ) :=
  some ((none, some err), { db := (env.Rollback s).2, log := log ++ [Call.Rollback] })

/-- The end of both mutations, from `// Save the stash_ids` on: the stash ids are saved for
`id` when the input has them, then the transaction is committed. -/
def saveStashIDsAndCommit {σ : Type} (env : StudioDeps σ) (id : Int)
    (stashIds : Option (List StashIDInput)) (studio : Studio) (s : σ) (log : List Call) :
    Option ((Option Studio × Option Err) × World σ) :=
  let saved : Option Err × σ :=
    match stashIds with
    | some ids => env.UpdateStudioStashIDs id (stashIDJoins ids) s
    | none => (none, s)
  match saved with
  | (some err, s1) => some ((none, some err), { db := s1, log := log })
  | (none, s1) =>
    match env.Commit s1 with
    | (some err, s2) => some ((none, some err), { db := s2, log := log ++ [Call.Commit] })
    | (none, s2) => some ((some studio, none), { db := s2, log := log ++ [Call.Commit] })

/-- The method `mutationResolver.StudioCreate(ctx, input)`: the studio (nil is `none`) and the
error; the outer `none` is the panic of `MustBeginTx`. -/
def mutationResolver.StudioCreate {σ : Type} (env : StudioDeps σ) (input : StudioCreateInput)
    (w : World σ) : Option ((Option Studio × Option Err) × World σ) :=
  let checksum := env.MD5FromString input.Name
  let processed : List Byte × Option Err :=
    match input.Image with
    | some image => (ProcessBase64Image env.MD5FromBytes image).2
    | none => ([], none)
  match processed with
  | (_, some err) => some ((none, some err), w)
  | (imageData, none) =>
    let currentTime := env.Now
    let newStudio : Studio :=
      { ID := 0, Checksum := checksum,
        Name := { String := input.Name, Valid := true },
        URL := match input.URL with
          | some url => { String := url, Valid := true }
          | none => { String := "", Valid := false },
        ParentID := match input.ParentID with
          | some p => { Int64 := env.ParseInt p, Valid := true }
          | none => { Int64 := 0, Valid := false },
        CreatedAt := { Timestamp := currentTime },
        UpdatedAt := { Timestamp := currentTime } }
    match env.MustBeginTx w.db with
    | none => none
    | some s0 =>
      let log0 := w.log ++ [Call.Begin]
      match env.Create newStudio s0 with
      | (Except.error err, s1) => rollbackAndReturn env err s1 log0
      | (Except.ok studio, s1) =>
        let image : Option Err × σ :=
          if imageData.length > 0 then env.UpdateStudioImage studio.ID imageData s1
          else (none, s1)
        match image with
        | (some err, s2) => rollbackAndReturn env err s2 log0
        | (none, s2) => saveStashIDsAndCommit env studio.ID input.StashIds studio s2 log0

/-- The method `mutationResolver.StudioUpdate(ctx, input)`: the studio (nil is `none`) and the
error; the outer `none` is the panic of `MustBeginTx`. -/
def mutationResolver.StudioUpdate {σ : Type} (env : StudioDeps σ) (input : StudioUpdateInput)
    (w : World σ) : Option ((Option Studio × Option Err) × World σ) :=
  let studioID := env.Atoi input.ID
  let imageIncluded := env.wasFieldIncluded "image"
  let processed : List Byte × Option Err :=
    match input.Image with
    | some image => (ProcessBase64Image env.MD5FromBytes image).2
    | none => ([], none)
  match processed with
  | (_, some err) => some ((none, some err), w)
  | (imageData, none) =>
    let updatedStudio : StudioPartial :=
      { ID := studioID,
        UpdatedAt := some { Timestamp := env.Now },
        Name := input.Name.map (fun name => { String := name, Valid := true }),
        Checksum := input.Name.map env.MD5FromString,
        URL := input.URL.map (fun url => { String := url, Valid := true }),
        ParentID := match input.ParentID with
          | some p => some { Int64 := env.ParseInt p, Valid := true }
          | none => some { Int64 := 0, Valid := false } }
    match env.MustBeginTx w.db with
    | none => none
    | some s0 =>
      let log0 := w.log ++ [Call.Begin]
      match env.ValidateModifyStudio updatedStudio s0 with
      | (some err, s1) => rollbackAndReturn env err s1 log0
      | (none, s1) =>
        match env.Update updatedStudio s1 with
        | (Except.error err, s2) => rollbackAndReturn env err s2 log0
        | (Except.ok studio, s2) =>
          let image : Option Err × σ :=
            if imageData.length > 0 then env.UpdateStudioImage studio.ID imageData s2
            else if imageIncluded then env.DestroyStudioImage studio.ID s2
            else (none, s2)
          match image with
          | (some err, s3) => rollbackAndReturn env err s3 log0
          | (none, s3) => saveStashIDsAndCommit env studioID input.StashIds studio s3 log0

/-- The number of calls in a log that end a transaction: `Commit` and `Rollback`. -/
def transactionEnds (log : List Call) : Nat :=
  (log.filter (fun c => c == Call.Commit || c == Call.Rollback)).length

/-- Collaborators for the instances, over a state that lists the writes made so far: every
operation succeeds but the saving of the stash ids, which fails after it has written. -/
def sampleStudioDeps : StudioDeps (List String) :=
  { MD5FromString := fun s => "md5(" ++ s ++ ")",
    MD5FromBytes := fun _ => "md5",
    ParseInt := fun s => if s = "1" then 1 else 0,
    Atoi := fun s => if s = "1" then 1 else 0,
    Now := createTime,
    wasFieldIncluded := fun _ => false,
    MustBeginTx := fun s => some s,
    Commit := fun s => (none, s ++ ["commit"]),
    Rollback := fun s => (none, s ++ ["rollback"]),
    Create := fun studio s => (Except.ok { studio with ID := 1 }, s ++ ["create"]),
    Update := fun p s =>
      (Except.ok { ID := p.ID, Checksum := p.Checksum.getD "",
                   Name := p.Name.getD { String := "", Valid := false },
                   URL := p.URL.getD { String := "", Valid := false },
                   ParentID := p.ParentID.getD { Int64 := 0, Valid := false },
                   CreatedAt := { Timestamp := createTime },
                   UpdatedAt := p.UpdatedAt.getD { Timestamp := createTime } },
        s ++ ["update"]),
    UpdateStudioImage := fun _ _ s => (none, s ++ ["image"]),
    DestroyStudioImage := fun _ s => (none, s ++ ["destroy image"]),
    UpdateStudioStashIDs := fun _ _ s =>
      (some (Err.other "stash ids not saved"), s ++ ["stash ids"]),
    ValidateModifyStudio := fun _ s => (none, s) }

/-- The stash ids of the failing inputs. -/
def sampleStashIds : List StashIDInput :=
  [ { Endpoint := "https://stashdb.org/graphql", StashID := "5c2a1e" } ]

/-- A create input that has stash ids. -/
def failingCreateInput : StudioCreateInput :=
  { Name := "Studio", URL := none, ParentID := none, Image := none,
    StashIds := some sampleStashIds }

/-- An update input for studio 1 that has stash ids. -/
def failingUpdateInput : StudioUpdateInput :=
  { ID := "1", Name := some "Studio", URL := none, ParentID := none, Image := none,
    StashIds := some sampleStashIds }

/-- The world of the studio instances before any call. -/
def studioWorld : World (List String) := { db := [], log := [] }

/-! ## The key lists of an INSERT, as the specification words them -/

/-- The db-tag name as the specification words it: `name` is the text before the first comma
of `tag`, that is, `name` holds no comma and `tag` is either `name` alone or `name`, a comma
and some further text. -/
def isTextBeforeFirstComma (name tag : String) : Prop :=
  ',' ∉ name.data ∧ (tag = name ∨ ∃ rest : String, tag = name ++ "," ++ rest)

/-- The column names of a record as the specification words them: `columns` lists, in
declaration order, the db-tag name of every field, those named `id` left out. -/
def isColumnNames (obj : List StructField) (columns : List String) : Prop :=
  ∃ names : List String,
    List.Forall₂ (fun f name => isTextBeforeFirstComma name f.tag) obj names ∧
    columns = names.filter (fun name => decide (name ≠ "id"))

/-- A scene record with an id, two plain columns and a tag that carries an option. -/
def sampleSceneRecord : List StructField :=
  [ { tag := "id", value := FieldValue.direct (Arg.int 7) },
    { tag := "title", value := FieldValue.direct (Arg.str "Beach") },
    { tag := "rating,omitempty", value := FieldValue.pointer (some (Arg.int 4)) },
    { tag := "url", value := FieldValue.pointer none } ]

/-! ## scene.go: the query of the auto-tagger -/

/-- The function `strings.HasSuffix`. -/
def HasSuffix (s suffix : String) : Bool := suffix.data.isSuffixOf s.data

/-- The loop of `QueryForAutoTag` over `pathPrefixes`, with `pathClauses` and `args` as
accumulators; `Separator` is the rune `filepath.Separator` of the platform. -/
def autoTagLoop (Separator : Char) :
    List String → List String × List Arg → List String × List Arg
  | [], acc => acc
  | p :: rest, (pathClauses, args) =>
    let pathClauses := pathClauses ++ ["scenes.path like ?"]
    let sep := String.singleton Separator
    let p := if !HasSuffix p sep then p ++ sep else p
    autoTagLoop Separator rest (pathClauses, args ++ [Arg.str (p ++ "%")])

/-- The statements of `QueryForAutoTag` up to the call of `runIdsQuery`: the query text and
its bound arguments. The function `selectDistinctIDs` is not among the sources and is taken as
given. -/
def sceneQueryBuilder.QueryForAutoTagQuery (selectDistinctIDs : String → String) (sep : Char)
    (regex : String) (pathPrefixes : List String) : String × List Arg :=
  let body := selectDistinctIDs "scenes"
    ++ " WHERE \n\tscenes.path regexp ? AND \n\tscenes.organized = 0"
  let args : List Arg := [] ++ [Arg.str ("(?i)" ++ regex)]
  let looped := autoTagLoop sep pathPrefixes ([], args)
  let pathClauses := looped.1
  let body :=
    if pathClauses.length > 0 then
      body ++ (" AND (" ++ String.intercalate " OR " pathClauses ++ ")")
    else body
  (body, looped.2)

/-- The loop of `QueryForAutoTag` over the ids found: the first failure of `Find` is
returned with no scenes; a scene that `Find` does not find is appended as nil. -/
def sceneQueryBuilder.QueryForAutoTagFind {σ : Type} (d : Dbi σ) (qb : repository) :
    List Int → List (Option Row) → World σ → (List (Option Row) × Option Err) × World σ
  | [], scenes, w => ((scenes, none), w)
  | id :: rest, scenes, w =>
    match sceneQueryBuilder.Find d qb id w with
    | ((_, some err), w1) => (([], some err), w1)
    | ((scene, none), w1) =>
      sceneQueryBuilder.QueryForAutoTagFind d qb rest (scenes ++ [scene]) w1

/-- The method `sceneQueryBuilder.QueryForAutoTag(regex, pathPrefixes)`. -/
def sceneQueryBuilder.QueryForAutoTag {σ : Type} (d : Dbi σ)
    (selectDistinctIDs : String → String) (sep : Char) (qb : repository) (regex : String)
    (pathPrefixes : List String) (w : World σ) :
    (List (Option Row) × Option Err) × World σ :=
  let query := sceneQueryBuilder.QueryForAutoTagQuery selectDistinctIDs sep regex pathPrefixes
  match qb.runIdsQuery d query.1 query.2 w with
  | ((_, some err), w1) => (([], some err), w1)
  | ((idsResult, none), w1) => sceneQueryBuilder.QueryForAutoTagFind d qb idsResult [] w1

/-- The path prefix as the query binds it: the separator is appended unless the prefix ends
with it already. -/
def withSeparator (sep : Char) (p : String) : String :=
  if HasSuffix p (String.singleton sep) then p else p ++ String.singleton sep

/-- A stand-in for `selectDistinctIDs` in the instances. -/
def sampleSelectDistinctIDs (table : String) : String :=
  "SELECT DISTINCT " ++ table ++ ".id FROM " ++ table

/-! ## task_stash_box_tag.go: tagging a performer from stash-box -/

/-- The function `getDate(val)`; a `models.SQLiteDate` has the two fields of
`sql.NullString`. -/
def getDate (val : Option String) : NullString :=
  match val with
  | none => { String := "", Valid := false }
  | some v => { String := v, Valid := false }

/-- The function `getNullString(val)`. -/
def getNullString (val : Option String) : NullString :=
  match val with
  | none => { String := "", Valid := false }
  | some v => { String := v, Valid := true }

/-- Modelled from the spec: the struct `models.ScrapedScenePerformer` (not among the sources),
with the fields `stashBoxPerformerTag` reads; a nil pointer is `none`. -/
structure ScrapedScenePerformer where
  Name : String
  Gender : Option String
  URL : Option String
  Twitter : Option String
  Instagram : Option String
  Birthdate : Option String
  Ethnicity : Option String
  Country : Option String
  EyeColor : Option String
  Height : Option String
  Measurements : Option String
  FakeTits : Option String
  CareerLength : Option String
  Tattoos : Option String
  Piercings : Option String
  Aliases : Option String
  Images : List String
  RemoteSiteID : Option String
  deriving DecidableEq, Repr

/-- Modelled from the spec: the struct `models.PerformerPartial` (not among the sources), the
partial record of a performer with the fields `stashBoxPerformerTag` sets; a nil pointer is
`none`. -/
structure PerformerPartial where
  ID : Int
  Name : Option NullString
  Gender : Option NullString
  URL : Option NullString
  Twitter : Option NullString
  Instagram : Option NullString
  Birthdate : Option NullString
  Ethnicity : Option NullString
  Country : Option NullString
  EyeColor : Option NullString
  Height : Option NullString
  Measurements : Option NullString
  FakeTits : Option NullString
  CareerLength : Option NullString
  Tattoos : Option NullString
  Piercings : Option NullString
  Aliases : Option NullString
  UpdatedAt : Option SQLiteTimestamp
  deriving DecidableEq, Repr

/-- Modelled from the spec: the struct `models.StashBox` (not among the sources), with the
field the task reads. -/
structure StashBox where
  Endpoint : String
  deriving DecidableEq, Repr

/-- The struct `StashBoxPerformerTagTask`; the transaction manager is among the
collaborators. -/
structure StashBoxPerformerTagTask where
  box : Option StashBox
  name : Option String
  performer : Option Performer
  refresh : Bool
  excluded_fields : List String
  deriving DecidableEq, Repr

/-- The map `excluded` that `stashBoxPerformerTag` builds from `t.excluded_fields`, as the
lookup `excluded[field]`. -/
def excludedFields (t : StashBoxPerformerTagTask) (field : String) : Bool :=
  t.excluded_fields.contains field

/-- The block of `stashBoxPerformerTag` that populates the partial record of an existing
performer (with id `id`) from the scraped performer. -/
def performerPartial (excluded : String → Bool) (id : Int) (performer : ScrapedScenePerformer)
    (updatedTime : Time) : PerformerPartial :=
  { ID := id,
    UpdatedAt := some { Timestamp := updatedTime },
    Aliases :=
      if performer.Aliases ≠ none ∧ ¬ excluded "aliases" = true then
        some (getNullString performer.Aliases) else none,
    Birthdate :=
      if performer.Birthdate ≠ none ∧ performer.Birthdate ≠ some ""
          ∧ ¬ excluded "birthdate" = true then
        some (getDate performer.Birthdate) else none,
    CareerLength :=
      if performer.CareerLength ≠ none ∧ ¬ excluded "career_length" = true then
        some (getNullString performer.CareerLength) else none,
    Country :=
      if performer.Country ≠ none ∧ ¬ excluded "country" = true then
        some (getNullString performer.Country) else none,
    Ethnicity :=
      if performer.Ethnicity ≠ none ∧ ¬ excluded "ethnicity" = true then
        some (getNullString performer.Ethnicity) else none,
    EyeColor :=
      if performer.EyeColor ≠ none ∧ ¬ excluded "eye_color" = true then
        some (getNullString performer.EyeColor) else none,
    FakeTits :=
      if performer.FakeTits ≠ none ∧ ¬ excluded "fake_tits" = true then
        some (getNullString performer.FakeTits) else none,
    Gender :=
      if performer.Gender ≠ none ∧ ¬ excluded "gender" = true then
        some (getNullString performer.Gender) else none,
    Height :=
      if performer.Height ≠ none ∧ ¬ excluded "height" = true then
        some (getNullString performer.Height) else none,
    Instagram :=
      if performer.Instagram ≠ none ∧ ¬ excluded "instagram" = true then
        some (getNullString performer.Instagram) else none,
    Measurements :=
      if performer.Measurements ≠ none ∧ ¬ excluded "measurements" = true then
        some (getNullString performer.Measurements) else none,
    Name :=
      if excluded "name" = true then
        some { String := performer.Name, Valid := true } else none,
    Piercings :=
      if performer.Piercings ≠ none ∧ ¬ excluded "piercings" = true then
        some (getNullString performer.Piercings) else none,
    Tattoos :=
      if performer.Tattoos ≠ none ∧ ¬ excluded "tattoos" = true then
        some (getNullString performer.Tattoos) else none,
    Twitter :=
      if performer.Twitter ≠ none ∧ ¬ excluded "twitter" = true then
        some (getNullString performer.Tattoos) else none,
    URL :=
      if performer.URL ≠ none ∧ ¬ excluded "url" = true then
        some (getNullString performer.URL) else none }

/-- What the task does that can be observed from outside: the calls it makes on the
repositories and the transaction, and the lines it logs. -/
inductive TaskEvent
  | Begin
  | Commit
  | Rollback
  | Update (updated : PerformerPartial)
  | UpdateStashIDs (id : Int) (stashIDs : List StashID)
  | UpdateImage (id : Int) (image : List Byte)
  | Create (newPerformer : Performer)
  | Errorf (msg : String)
  | Infof (msg : String)
  deriving DecidableEq, Repr

/-- The state the task runs in: the state of what is outside it and the events so far. -/
structure TaskWorld (σ : Type) where
  db : σ
  events : List TaskEvent

/-- What `stashBoxPerformerTag` calls that is declared outside the sources, taken as given:
the stash-box client, the clock, the helpers of `utils` and the performer repository
(`GetStashIDs` and `Update` as far as the caller uses their results). Modelled from the spec:
the transaction manager, whose `WithTxn` "opens a transaction, invokes `fn` with a handle,
commits if `fn` returns success, rolls back and propagates the error otherwise"; `Begin`,
`Commit` and `Rollback` are its three steps. -/
structure StashBoxDeps (σ : Type) where
  GetStashIDs : Int → σ → List StashID × σ
  FindStashBoxPerformerByID : String → σ → (Option ScrapedScenePerformer × Option Err) × σ
  FindStashBoxPerformerByName : String → σ → (Option ScrapedScenePerformer × Option Err) × σ
  Now : σ → Time × σ
  MD5FromString : String → String
  ReadImageFromURL : String → σ → Except Err (List Byte) × σ
  Update : PerformerPartial → σ → Option Err × σ
  UpdateStashIDs : Int → List StashID → σ → Option Err × σ
  UpdateImage : Int → List Byte → σ → Option Err × σ
  Create : Performer → σ → Except Err Performer × σ
  Begin : σ → σ
  Commit : σ → Option Err × σ
  Rollback : σ → σ

/-- The end of a `WithTxn` call: commit when the closure returned no error, roll back
otherwise; the error is that of the closure, or that of the commit. -/
def endTxn {σ : Type} (env : StashBoxDeps σ) (err : Option Err) (w : TaskWorld σ) :
    Option Err × TaskWorld σ :=
  match err with
  | none =>
    let c := env.Commit w.db
    (c.1, { db := c.2, events := w.events ++ [TaskEvent.Commit] })
  | some e => (some e, { db := env.Rollback w.db, events := w.events ++ [TaskEvent.Rollback] })

/-- The first part of `stashBoxPerformerTag`: the scraped performer and the error of the
look-up. The outer `none` is the panic of reading through `t.performer` when it is nil. -/
def StashBoxPerformerTagTask.fetch {σ : Type} (env : StashBoxDeps σ)
    (t : StashBoxPerformerTagTask) (box : StashBox) (w : TaskWorld σ) :
    Option ((Option ScrapedScenePerformer × Option Err) × TaskWorld σ) :=
  if t.refresh then
    match t.performer with
    | none => none
    | some tp =>
      let s0 := env.Begin w.db
      let got := env.GetStashIDs tp.ID s0
      let performerID := got.1.foldl
        (fun performerID id => if id.Endpoint = box.Endpoint then id.StashID else performerID) ""
      let ended := endTxn env none { db := got.2, events := w.events ++ [TaskEvent.Begin] }
      if performerID ≠ "" then
        let found := env.FindStashBoxPerformerByID performerID ended.2.db
        some (found.1, { ended.2 with db := found.2 })
      else some ((none, none), ended.2)
  else
    match t.name with
    | some name =>
      let found := env.FindStashBoxPerformerByName name w.db
      some (found.1, { w with db := found.2 })
    | none =>
      match t.performer with
      | none => none
      | some tp =>
        let found := env.FindStashBoxPerformerByName tp.Name.String w.db
        some (found.1, { w with db := found.2 })

/-- The closure that the update branch hands to `WithTxn`: the error it returns; the outer
`none` is the panic of reading through `performer.RemoteSiteID` when it is nil. The `err` of
the image block is a variable of that block. -/
def StashBoxPerformerTagTask.updateTxn {σ : Type} (env : StashBoxDeps σ)
    (t : StashBoxPerformerTagTask) (box : StashBox) (tp : Performer)
    (performer : ScrapedScenePerformer) (updated : PerformerPartial) (w : TaskWorld σ) :
    Option (Option Err × TaskWorld σ) :=
  let u := env.Update updated w.db
  let w1 : TaskWorld σ := { db := u.2, events := w.events ++ [TaskEvent.Update updated] }
  let ids : Option (Option Err × TaskWorld σ) :=
    if !t.refresh then
      match performer.RemoteSiteID with
      | none => none
      | some remoteSiteID =>
        let joins : List StashID := [{ Endpoint := box.Endpoint, StashID := remoteSiteID }]
        let r := env.UpdateStashIDs tp.ID joins w1.db
        some (r.1, { db := r.2, events := w1.events ++ [TaskEvent.UpdateStashIDs tp.ID joins] })
    else some (u.1, w1)
  match ids with
  | none => none
  | some (err, w2) =>
    if !t.refresh ∧ err ≠ none then some (err, w2)
    else
      match performer.Images with
      | first :: _ =>
        if ¬ excludedFields t "image" = true then
          match env.ReadImageFromURL first w2.db with
          | (Except.error e, s3) => some (some e, { w2 with db := s3 })
          | (Except.ok image, s3) =>
            let r := env.UpdateImage tp.ID image s3
            let w4 : TaskWorld σ :=
              { db := r.2, events := w2.events ++ [TaskEvent.UpdateImage tp.ID image] }
            match r.1 with
            | some e => some (some e, w4)
            | none =>
              if err = none then
                some (err, { w4 with events := w4.events
                  ++ [TaskEvent.Infof ("Updated performer " ++ performer.Name)] })
              else some (err, w4)
        else
          if err = none then
            some (err, { w2 with events := w2.events
              ++ [TaskEvent.Infof ("Updated performer " ++ performer.Name)] })
          else some (err, w2)
      | [] =>
        if err = none then
          some (err, { w2 with events := w2.events
            ++ [TaskEvent.Infof ("Updated performer " ++ performer.Name)] })
        else some (err, w2)

/-- The closure that the create branch hands to `WithTxn`: the error it returns; the outer
`none` is the panic of reading through `performer.RemoteSiteID` when it is nil. The `err` of
the image block is a variable of that block, so the error of `UpdateImage` is not the one
returned. -/
def StashBoxPerformerTagTask.createTxn {σ : Type} (env : StashBoxDeps σ) (box : StashBox)
    (performer : ScrapedScenePerformer) (newPerformer : Performer) (w : TaskWorld σ) :
    Option (Option Err × TaskWorld σ) :=
  let c := env.Create newPerformer w.db
  let w1 : TaskWorld σ := { db := c.2, events := w.events ++ [TaskEvent.Create newPerformer] }
  match c.1 with
  | Except.error e => some (some e, w1)
  | Except.ok createdPerformer =>
    match performer.RemoteSiteID with
    | none => none
    | some remoteSiteID =>
      let joins : List StashID := [{ Endpoint := box.Endpoint, StashID := remoteSiteID }]
      let r := env.UpdateStashIDs createdPerformer.ID joins w1.db
      let w2 : TaskWorld σ :=
        { db := r.2,
          events := w1.events ++ [TaskEvent.UpdateStashIDs createdPerformer.ID joins] }
      match r.1 with
      | some e => some (some e, w2)
      | none =>
        match performer.Images with
        | first :: _ =>
          match env.ReadImageFromURL first w2.db with
          | (Except.error e, s3) => some (some e, { w2 with db := s3 })
          | (Except.ok image, s3) =>
            let u := env.UpdateImage createdPerformer.ID image s3
            some (none, { db := u.2,
                          events := w2.events
                            ++ [TaskEvent.UpdateImage createdPerformer.ID image] })
        | [] => some (none, w2)

/-- The record `newPerformer` of the create branch. -/
def newPerformerOf {σ : Type} (env : StashBoxDeps σ) (performer : ScrapedScenePerformer)
    (currentTime : Time) : Performer :=
  { ID := 0,
    Aliases := getNullString performer.Aliases,
    Birthdate := getDate performer.Birthdate,
    CareerLength := getNullString performer.CareerLength,
    Checksum := env.MD5FromString performer.Name,
    Country := getNullString performer.Country,
    CreatedAt := { Timestamp := currentTime },
    Ethnicity := getNullString performer.Ethnicity,
    EyeColor := getNullString performer.EyeColor,
    FakeTits := getNullString performer.FakeTits,
    Favorite := { Bool := false, Valid := true },
    Gender := getNullString performer.Gender,
    Height := getNullString performer.Height,
    Instagram := getNullString performer.Instagram,
    Measurements := getNullString performer.Measurements,
    Name := { String := performer.Name, Valid := true },
    Piercings := getNullString performer.Piercings,
    Tattoos := getNullString performer.Tattoos,
    Twitter := getNullString performer.Twitter,
    URL := getNullString performer.URL,
    UpdatedAt := { Timestamp := currentTime },
    Details := { String := "", Valid := false } }

/-- The part of `stashBoxPerformerTag` that follows a look-up without error. -/
def StashBoxPerformerTagTask.save {σ : Type} (env : StashBoxDeps σ)
    (t : StashBoxPerformerTagTask) (box : StashBox) (found : Option ScrapedScenePerformer)
    (w : TaskWorld σ) : Option (TaskWorld σ) :=
  match found with
  | some performer =>
    let now := env.Now w.db
    let updatedTime := now.1
    match t.performer with
    | some tp =>
      let updated := performerPartial (excludedFields t) tp.ID performer updatedTime
      let w0 : TaskWorld σ :=
        { db := env.Begin now.2, events := w.events ++ [TaskEvent.Begin] }
      match StashBoxPerformerTagTask.updateTxn env t box tp performer updated w0 with
      | none => none
      | some (err, w1) => some (endTxn env err w1).2
    | none =>
      match t.name with
      | some name =>
        let now2 := env.Now now.2
        let newPerformer := newPerformerOf env performer now2.1
        let w0 : TaskWorld σ :=
          { db := env.Begin now2.2, events := w.events ++ [TaskEvent.Begin] }
        match StashBoxPerformerTagTask.createTxn env box performer newPerformer w0 with
        | none => none
        | some (err, w1) =>
          let ended := endTxn env err w1
          match ended.1 with
          | some e =>
            some { ended.2 with events := ended.2.events ++ [TaskEvent.Errorf
              ("Failed to save performer " ++ name ++ ": " ++ e.Error)] }
          | none =>
            some { ended.2 with events := ended.2.events
              ++ [TaskEvent.Infof ("Saved performer " ++ name)] }
      | none => some { w with db := now.2 }
  | none =>
    let name :=
      match t.name with
      | some name => name
      | none =>
        match t.performer with
        | some tp => tp.Name.String
        | none => ""
    some { w with events := w.events ++ [TaskEvent.Infof ("No match found for " ++ name)] }

/-- The method `StashBoxPerformerTagTask.stashBoxPerformerTag()`: the world after it; `none`
is a panic (of reading through a nil `t.box`, `t.performer` or `performer.RemoteSiteID`). -/
def StashBoxPerformerTagTask.stashBoxPerformerTag {σ : Type} (env : StashBoxDeps σ)
    (t : StashBoxPerformerTagTask) (w : TaskWorld σ) : Option (TaskWorld σ) :=
  match t.box with
  | none => none
  | some box =>
    match StashBoxPerformerTagTask.fetch env t box w with
    | none => none
    | some ((_, some err), w1) =>
      some { w1 with events := w1.events ++ [TaskEvent.Errorf
        ("Error fetching performer data from stash-box: " ++ err.Error)] }
    | some ((found, none), w1) => StashBoxPerformerTagTask.save env t box found w1

/-- The partial records handed to `Update`, in the order of the calls. -/
def updatesOf (events : List TaskEvent) : List PerformerPartial :=
  events.filterMap (fun ev =>
    match ev with
    | TaskEvent.Update updated => some updated
    | _ => none)

/-- A scraped performer for the instances: a Twitter handle and tattoos that differ, an
Instagram handle and no URL. -/
def sampleScraped : ScrapedScenePerformer :=
  { Name := "Scraped Name", Gender := some "FEMALE", URL := none,
    Twitter := some "handle", Instagram := some "insta", Birthdate := some "1990-01-01",
    Ethnicity := none, Country := some "NZ", EyeColor := none, Height := some "170",
    Measurements := none, FakeTits := none, CareerLength := none,
    Tattoos := some "left arm", Piercings := none, Aliases := some "Alias",
    Images := [], RemoteSiteID := some "5c2a1e" }

/-- Collaborators for the instances: stash-box finds `sampleScraped` under every name, and
every call succeeds. -/
def sampleStashBoxDeps : StashBoxDeps Unit :=
  { GetStashIDs := fun _ s => ([], s),
    FindStashBoxPerformerByID := fun _ s => ((some sampleScraped, none), s),
    FindStashBoxPerformerByName := fun _ s => ((some sampleScraped, none), s),
    Now := fun s => (updateTime, s),
    MD5FromString := fun s => "md5(" ++ s ++ ")",
    ReadImageFromURL := fun _ s => (Except.ok [], s),
    Update := fun _ s => (none, s),
    UpdateStashIDs := fun _ _ s => (none, s),
    UpdateImage := fun _ _ s => (none, s),
    Create := fun p s => (Except.ok p, s),
    Begin := fun s => s,
    Commit := fun s => (none, s),
    Rollback := fun s => s }

/-- The task of tagging the stored performer 1 by name, with the given fields excluded. -/
def sampleTagTask (excluded_fields : List String) : StashBoxPerformerTagTask :=
  { box := some { Endpoint := "https://stashdb.org/graphql" }, name := none,
    performer := some (createFullPerformer 1 "Stored Name" "checksum"), refresh := false,
    excluded_fields := excluded_fields }

/-- The world of the task instances before any call. -/
def taskWorld : TaskWorld Unit := { db := (), events := [] }

/-! ## manager/scene.go: the stream endpoints of a scene -/

/-- Modelled from the spec: the struct `models.Scene` (not among the sources), with the fields
that `GetSceneFileContainer`, `HasTranscode` and `GetSceneStreamPaths` read. -/
structure Scene where
  Path : String
  Checksum : String
  Format : NullString
  AudioCodec : NullString
  deriving DecidableEq, Repr

/-- Modelled from the spec: the struct `models.SceneStreamEndpoint` (not among the sources);
a nil pointer is `none`. -/
structure SceneStreamEndpoint where
  URL : String
  MimeType : Option String
  Label : Option String
  deriving DecidableEq, Repr

/-- What the stream functions use that is declared outside the sources, taken as given: the
constants and functions of package `ffmpeg` (a container and an audio codec are strings;
`NewVideoFile` yields the container that ffprobe reports, or an error), the ffprobe path and
the transcode path of the manager instance, and `utils.FileExists`. -/
structure StreamDeps where
  MimeWebm : String
  MimeHLS : String
  MimeMp4 : String
  Matroska : String
  MissingUnsupported : String
  IsValidAudioForContainer : String → String → Bool
  FFProbePath : String
  NewVideoFile : String → String → Except Err String
  MatchContainer : String → String → String
  GetTranscodePath : String → String
  FileExists : String → Bool × Option Err

/-- The function `GetSceneFileContainer(scene)`, for a scene that is not nil. -/
def GetSceneFileContainer (env : StreamDeps) (scene : Scene) : String × Option Err :=
  if scene.Format.Valid then
    (scene.Format.String, none)
  else
    match env.NewVideoFile env.FFProbePath scene.Path with
    | Except.error err => ("", some (Err.other ("error reading video file: " ++ err.Error)))
    | Except.ok tmpContainer => (env.MatchContainer tmpContainer scene.Path, none)

/-- The function `HasTranscode(scene)`. -/
def HasTranscode (env : StreamDeps) (scene : Option Scene) : Bool × Option Err :=
  match scene with
  | none => (false, some (Err.other "nil scene"))
  | some scene =>
    let transcodePath := env.GetTranscodePath scene.Checksum
    env.FileExists transcodePath

/-- The function `GetSceneStreamPaths(scene, directStreamURL)`: the endpoints (a nil slice is
`none`) and the error. -/
def GetSceneStreamPaths (env : StreamDeps) (scene : Option Scene) (directStreamURL : String) :
    Option (List SceneStreamEndpoint) × Option Err :=
  match scene with
  | none => (none, some (Err.other "nil scene"))
  | some s =>
    let ret : List SceneStreamEndpoint := []
    let mimeWebm := env.MimeWebm
    let mimeHLS := env.MimeHLS
    let mimeMp4 := env.MimeMp4
    let labelWebm := "webm"
    let labelHLS := "HLS"
    let labelMp4 := "mp4"
    let audioCodec := if s.AudioCodec.Valid then s.AudioCodec.String else env.MissingUnsupported
    match GetSceneFileContainer env s with
    | (_, some err) => (none, some err)
    | (container, none) =>
      let hasTranscode := (HasTranscode env scene).1
      let ret :=
        if hasTranscode = true ∨ env.IsValidAudioForContainer audioCodec container = true then
          ret ++ [{ URL := directStreamURL, MimeType := some mimeMp4,
                    Label := some "Direct stream" }]
        else ret
      let ret :=
        if container = env.Matroska then
          ret ++ [{ URL := directStreamURL ++ ".mkv", MimeType := some mimeMp4,
                    Label := some "mkv" }]
        else ret
      let defaultStreams : List SceneStreamEndpoint :=
        [ { URL := directStreamURL ++ ".webm", MimeType := some mimeWebm,
            Label := some labelWebm },
          { URL := directStreamURL ++ ".m3u8", MimeType := some mimeHLS,
            Label := some labelHLS },
          { URL := directStreamURL ++ ".mp4", MimeType := some mimeMp4,
            Label := some labelMp4 } ]
      (some (ret ++ defaultStreams), none)

/-- Stand-ins for the instances: the constants of package `ffmpeg` as upstream has them, AAC
as the one audio codec that is valid (in every container), and a transcode on disk for the
checksum `transcoded` only. -/
def sampleStreamDeps : StreamDeps :=
  { MimeWebm := "video/webm", MimeHLS := "application/vnd.apple.mpegurl",
    MimeMp4 := "video/mp4", Matroska := "matroska", MissingUnsupported := "",
    IsValidAudioForContainer := fun audio _ => audio == "aac",
    FFProbePath := "ffprobe",
    NewVideoFile := fun _ _ => Except.error (Err.other "no such file"),
    MatchContainer := fun container _ => container,
    GetTranscodePath := fun checksum => "transcodes/" ++ checksum ++ ".mp4",
    FileExists := fun path => (path == "transcodes/transcoded.mp4", none) }

/-- A Matroska scene with DTS audio, which is not valid for direct streaming, and a
transcode on disk. -/
def transcodedScene : Scene :=
  { Path := "/media/a.mkv", Checksum := "transcoded",
    Format := { String := "matroska", Valid := true },
    AudioCodec := { String := "dts", Valid := true } }

/-! ## scene.go: the o-counter of a scene -/

/-- The method `sceneQueryBuilder.IncrementOCounter(id)`. The outer `none` is a panic: of a
statement sent on a nil transaction, or of reading `OCounter` through the nil scene that
`find` returns for an id without a row. -/
def sceneQueryBuilder.IncrementOCounter {σ : Type} (d : Dbi σ) (qb : repository) (id : Int)
    (w : World σ) : Option ((Int × Option Err) × World σ) :=
  match qb.tx with
  | none => none
  | some tx =>
    match txExec d tx "UPDATE scenes SET o_counter = o_counter + 1 WHERE scenes.id = ?"
        [Arg.int id] w with
    | (Except.error err, w1) => some ((0, some err), w1)
    | (Except.ok _, w1) =>
      match sceneQueryBuilder.find d qb id w1 with
      | ((_, some err), w2) => some ((0, some err), w2)
      | ((none, none), _) => none
      | ((some scene, none), w2) => some ((scene.getInt "o_counter", none), w2)

/-- The method `sceneQueryBuilder.DecrementOCounter(id)`. -/
def sceneQueryBuilder.DecrementOCounter {σ : Type} (d : Dbi σ) (qb : repository) (id : Int)
    (w : World σ) : Option ((Int × Option Err) × World σ) :=
  match qb.tx with
  | none => none
  | some tx =>
    match txExec d tx
        "UPDATE scenes SET o_counter = o_counter - 1 WHERE scenes.id = ? and scenes.o_counter > 0"
        [Arg.int id] w with
    | (Except.error err, w1) => some ((0, some err), w1)
    | (Except.ok _, w1) =>
      match sceneQueryBuilder.find d qb id w1 with
      | ((_, some err), w2) => some ((0, some err), w2)
      | ((none, none), _) => none
      | ((some scene, none), w2) => some ((scene.getInt "o_counter", none), w2)

/-- The method `sceneQueryBuilder.ResetOCounter(id)`. -/
def sceneQueryBuilder.ResetOCounter {σ : Type} (d : Dbi σ) (qb : repository) (id : Int)
    (w : World σ) : Option ((Int × Option Err) × World σ) :=
  match qb.tx with
  | none => none
  | some tx =>
    match txExec d tx "UPDATE scenes SET o_counter = 0 WHERE scenes.id = ?" [Arg.int id] w with
    | (Except.error err, w1) => some ((0, some err), w1)
    | (Except.ok _, w1) =>
      match sceneQueryBuilder.find d qb id w1 with
      | ((_, some err), w2) => some ((0, some err), w2)
      | ((none, none), _) => none
      | ((some scene, none), w2) => some ((scene.getInt "o_counter", none), w2)

/-- A store of integer counters: the table `scenes` as the list of its rows, each the id of
a scene and its `o_counter`; `faults` scripts the failures as in `TableStore`. SQLite does
not wrap an integer sum that leaves the 64-bit range (it keeps it as a floating-point number
of the same sign), so a counter is an unbounded integer here. -/
structure CounterStore where
  rows : List (Int × Int)
  faults : List (Option Err)
  deriving DecidableEq, Repr

/-- The fault the next statement meets, if any. -/
def CounterStore.nextFault (st : CounterStore) : Option Err :=
  match st.faults with
  | some e :: _ => some e
  | _ => none

/-- The store once the next entry of the fault script is used up. -/
def CounterStore.step (st : CounterStore) : CounterStore :=
  { st with faults := st.faults.tail }

/-- The three UPDATE statements of the o-counter, on the rows of the scene `id`. -/
def CounterStore.Exec (stmt : String) (args : List Arg) (st : CounterStore) :
    Except Err SqlResult × CounterStore :=
  match st.nextFault with
  | some e => (Except.error e, st.step)
  | none =>
    match args with
    | [Arg.int id] =>
      if stmt = "UPDATE scenes SET o_counter = o_counter + 1 WHERE scenes.id = ?" then
        let rows := st.rows.map (fun row => if row.1 = id then (row.1, row.2 + 1) else row)
        (Except.ok { lastInsertId := Except.ok 0 }, { st.step with rows := rows })
      else if stmt = "UPDATE scenes SET o_counter = o_counter - 1 WHERE scenes.id = ? and scenes.o_counter > 0" then
        let rows := st.rows.map
          (fun row => if row.1 = id ∧ row.2 > 0 then (row.1, row.2 - 1) else row)
        (Except.ok { lastInsertId := Except.ok 0 }, { st.step with rows := rows })
      else if stmt = "UPDATE scenes SET o_counter = 0 WHERE scenes.id = ?" then
        let rows := st.rows.map (fun row => if row.1 = id then (row.1, 0) else row)
        (Except.ok { lastInsertId := Except.ok 0 }, { st.step with rows := rows })
      else (Except.error (Err.other "unsupported statement"), st.step)
    | _ => (Except.error (Err.other "unsupported statement"), st.step)

/-- The fetch `SELECT * FROM scenes WHERE id = ? LIMIT 1` of `find`. -/
def CounterStore.Get (query : String) (args : List Arg) (st : CounterStore) :
    Except Err Row × CounterStore :=
  match st.nextFault with
  | some e => (Except.error e, st.step)
  | none =>
    match args with
    | [Arg.int id] =>
      if query = "SELECT * FROM " ++ sceneTable ++ " WHERE " ++ "id" ++ " = ? LIMIT 1" then
        match st.rows.find? (fun row => row.1 == id) with
        | some row => (Except.ok [("id", Arg.int row.1), ("o_counter", Arg.int row.2)], st.step)
        | none => (Except.error Err.ErrNoRows, st.step)
      else (Except.error (Err.other "unsupported query"), st.step)
    | _ => (Except.error (Err.other "unsupported query"), st.step)

/-- The store of counters as a driver; it keeps no snapshot, so `Rollback` is not
interpreted. -/
def counterDb : Dbi CounterStore where
  Get := CounterStore.Get
  Select := fun _ _ st => (Except.error (Err.other "unsupported query"), st.step)
  Exec := CounterStore.Exec
  NamedExec := fun _ _ st => (Except.error (Err.other "unsupported statement"), st.step)
  Begin := fun st => st
  Commit := fun st => (none, st)
  Rollback := fun st => st

/-- A call of one of the three o-counter methods. -/
inductive OCounterCall
  | Increment (id : Int)
  | Decrement (id : Int)
  | Reset (id : Int)
  deriving DecidableEq, Repr

/-- The method that a call names, applied. -/
def OCounterCall.run {σ : Type} (d : Dbi σ) (qb : repository) :
    OCounterCall → World σ → Option ((Int × Option Err) × World σ)
  | OCounterCall.Increment id, w => sceneQueryBuilder.IncrementOCounter d qb id w
  | OCounterCall.Decrement id, w => sceneQueryBuilder.DecrementOCounter d qb id w
  | OCounterCall.Reset id, w => sceneQueryBuilder.ResetOCounter d qb id w

/-- A sequence of calls, one after the other; a panic ends the run. -/
def runOCounterCalls {σ : Type} (d : Dbi σ) (qb : repository) :
    List OCounterCall → World σ → Option (World σ)
  | [], w => some w
  | call :: rest, w =>
    match call.run d qb w with
    | none => none
    | some (_, w1) => runOCounterCalls d qb rest w1

/-- What a call is to do to a row, as the specification words it: the counter of the scene
named goes up by one, goes down by one unless it is 0 already (or below), or becomes 0; the
rows of other scenes are left as they are. -/
def OCounterCall.effect : OCounterCall → Int × Int → Int × Int
  | OCounterCall.Increment id, row => if row.1 = id then (row.1, row.2 + 1) else row
  | OCounterCall.Decrement id, row =>
    if row.1 = id then (row.1, if row.2 > 0 then row.2 - 1 else row.2) else row
  | OCounterCall.Reset id, row => if row.1 = id then (row.1, 0) else row

/-- The scene a call names. -/
def OCounterCall.id : OCounterCall → Int
  | OCounterCall.Increment id => id
  | OCounterCall.Decrement id => id
  | OCounterCall.Reset id => id

/-- The function `NewSceneReaderWriter(tx)`: the table `scenes` with the constant `idColumn`
of repository.go, `id`. -/
def NewSceneReaderWriter (tx : Option Tx) : repository :=
  { tx := tx, tableName := sceneTable, idColumn := "id" }

/-- The shape that the three o-counter methods share: the statement is sent with the id, then
the scene is fetched and its counter returned. -/
def oCounterMethod {σ : Type} (d : Dbi σ) (qb : repository) (stmt : String) (id : Int)
    (w : World σ) : Option ((Int × Option Err) × World σ) :=
  match qb.tx with
  | none => none
  | some tx =>
    match txExec d tx stmt [Arg.int id] w with
    | (Except.error err, w1) => some ((0, some err), w1)
    | (Except.ok _, w1) =>
      match sceneQueryBuilder.find d qb id w1 with
      | ((_, some err), w2) => some ((0, some err), w2)
      | ((none, none), _) => none
      | ((some scene, none), w2) => some ((scene.getInt "o_counter", none), w2)

/-- The statement that a call sends. -/
def OCounterCall.stmt : OCounterCall → String
  | OCounterCall.Increment _ =>
    "UPDATE scenes SET o_counter = o_counter + 1 WHERE scenes.id = ?"
  | OCounterCall.Decrement _ =>
    "UPDATE scenes SET o_counter = o_counter - 1 WHERE scenes.id = ? and scenes.o_counter > 0"
  | OCounterCall.Reset _ => "UPDATE scenes SET o_counter = 0 WHERE scenes.id = ?"

/-- Three scenes with the counters 0, 2 and 5, and no fault scripted. -/
def sampleCounters : World CounterStore :=
  { db := { rows := [(1, 0), (2, 2), (3, 5)], faults := [] }, log := [] }

/-- The counters after are those of the same scenes, row by row, and none that was
non-negative has become negative. -/
def keepsNonNegative (before after : List (Int × Int)) : Prop :=
  List.Forall₂ (fun a b => a.1 = b.1 ∧ (0 ≤ a.2 → 0 ≤ b.2)) before after

/-! ## xpath.go: post-processing of scraped text -/

/-- The function `unicode.IsSpace`: the white space of Latin-1 and the code points with the
Unicode property White_Space beyond it. -/
def isSpace (c : Char) : Bool :=
  c == '\t' || c == '\n' || c == '\x0b' || c == '\x0c' || c == '\r' || c == ' ' ||
  c.val == 0x85 || c.val == 0xA0 || c.val == 0x1680 ||
  (decide (0x2000 ≤ c.val) && decide (c.val ≤ 0x200A)) ||
  c.val == 0x2028 || c.val == 0x2029 || c.val == 0x202F || c.val == 0x205F ||
  c.val == 0x3000

/-- The function `strings.TrimSpace`, on the characters of a string. -/
def trimSpace (l : List Char) : List Char :=
  ((l.dropWhile isSpace).reverse.dropWhile isSpace).reverse

/-- The call `regexp.MustCompile("\n").ReplaceAllString(value, "")`: every line feed is
removed. -/
def removeLineFeeds (l : List Char) : List Char :=
  l.filter (fun c => c != '\n')

/-- The call `regexp.MustCompile("  +").ReplaceAllString(value, " ")`: every maximal run of
two or more spaces becomes one space, that is, a space is dropped exactly when a space
follows it. -/
def collapseSpaces : List Char → List Char
  | [] => []
  | c :: rest =>
    if c = ' ' ∧ rest.head? = some ' ' then collapseSpaces rest
    else c :: collapseSpaces rest

/-- The function `commonPostProcess(value)`. -/
def commonPostProcess (value : String) : String :=
  let value := trimSpace value.data
  let value := removeLineFeeds value
  let value := collapseSpaces value
  String.mk value

/-- No two characters next to each other are both spaces. -/
def noDoubleSpace (l : List Char) : Prop :=
  List.Chain' (fun a b => ¬ (a = ' ' ∧ b = ' ')) l

/-! ## xpath.go: collecting the results of a scraper -/

/-- The type `xPathResult`, a `map[string]string`, as the list of its entries. -/
abbrev xPathResult := List (String × String)

/-- The type `xPathResults`, a slice of maps. -/
abbrev xPathResults := List xPathResult

/-- The assignment `m[key] = value` on a map: the entry of the key is replaced, or added. -/
def mapAssign (m : xPathResult) (key value : String) : xPathResult :=
  if m.any (fun kv => kv.1 == key) then
    m.map (fun kv => if kv.1 = key then (kv.1, value) else kv)
  else m ++ [(key, value)]

/-- The method `xPathResults.setKey(index, key, value)`; `none` is the panic of indexing the
slice out of range. -/
def xPathResults.setKey (r : xPathResults) (index : Int) (key value : String) :
    Option xPathResults :=
  let r := if index ≥ r.length then r ++ [[]] else r
  if 0 ≤ index ∧ index < r.length then
    some (r.set index.toNat (mapAssign (r.getD index.toNat []) key value))
  else none

/-- The type `xpathRegexConfig`, by the strings that `apply` reads from it: the entries
`regex` and `with` (the empty string when the entry is absent or not a string). -/
structure xpathRegexConfig where
  regex : String
  withString : String
  deriving DecidableEq, Repr

/-- The type `xpathScraperAttrConfig`, by what its getters return: `getSelector()`,
`getConcat()`, `getParseDate()` and `getReplace()`. -/
structure xpathScraperAttrConfig where
  selector : String
  concat : String
  parseDate : String
  replace : List xpathRegexConfig
  deriving DecidableEq, Repr

/-- A value of an `xpathScraperConfig`, by the cases of the type switch in `process`. -/
inductive xpathConfigValue
  | string (v : String)
  | map (v : xpathScraperAttrConfig)
  | other
  deriving DecidableEq, Repr

/-- The type `xpathScraperConfig`, a map, as the list of its entries in the order in which
`range` visits them. -/
abbrev xpathScraperConfig := List (String × xpathConfigValue)

/-- The type `commonXPathConfig`, a map, as the list of its entries in the order in which
`range` visits them. -/
abbrev commonXPathConfig := List (String × String)

/-- What the scraper calls that is declared outside the sources, taken as given: the queries
of `htmlquery` on a document of nodes, `strings.Contains` and `strings.Replace` (of all
occurrences), `regexp.Compile` with `ReplaceAllString` (an error when the expression does not
compile), and `time.Parse` with `Format`. -/
structure XPathDeps (Node : Type) where
  QueryAll : Node → String → Except Err (List Node)
  InnerText : Node → String
  Contains : String → String → Bool
  Replace : String → String → String → String
  ReplaceAllString : String → String → String → Except Err String
  Parse : String → String → Except Err Time
  Format : Time → String → String

/-- The method `commonXPathConfig.applyCommon(src)`. -/
def applyCommon {Node : Type} (env : XPathDeps Node) (c : commonXPathConfig) (src : String) :
    String :=
  c.foldl (fun ret kv => if env.Contains ret kv.1 then env.Replace ret kv.1 kv.2 else ret) src

/-- The method `xpathRegexConfig.apply(value)`; the warning it logs is left out. -/
def xpathRegexConfig.apply {Node : Type} (env : XPathDeps Node) (c : xpathRegexConfig)
    (value : String) : String :=
  if c.regex ≠ "" then
    match env.ReplaceAllString c.regex value c.withString with
    | Except.error _ => value
    | Except.ok replaced => replaced
  else value

/-- The method `xpathRegexConfigs.apply(value)`. -/
def xpathRegexConfigs.apply {Node : Type} (env : XPathDeps Node) (c : List xpathRegexConfig)
    (value : String) : String :=
  commonPostProcess (c.foldl (fun value config => config.apply env value) value)

/-- The method `xpathScraperAttrConfig.concatenateResults(nodes)`. -/
def xpathScraperAttrConfig.concatenateResults {Node : Type} (env : XPathDeps Node)
    (c : xpathScraperAttrConfig) (nodes : List Node) : String :=
  String.intercalate c.concat (nodes.map (fun elem => commonPostProcess (env.InnerText elem)))

/-- The method `xpathScraperAttrConfig.parseDate(value)`; the warning it logs is left out. -/
def xpathScraperAttrConfig.parseDateValue {Node : Type} (env : XPathDeps Node)
    (c : xpathScraperAttrConfig) (value : String) : String :=
  if c.parseDate = "" then value
  else
    match env.Parse c.parseDate value with
    | Except.error _ => value
    | Except.ok parsedValue => env.Format parsedValue "2006-01-02"

/-- The method `xpathScraperAttrConfig.postProcess(value)`: the regex replacements, then the
date. -/
def xpathScraperAttrConfig.postProcess {Node : Type} (env : XPathDeps Node)
    (c : xpathScraperAttrConfig) (value : String) : String :=
  c.parseDateValue env (xpathRegexConfigs.apply env c.replace value)

/-- The function `runXPathQuery(doc, xpath, common)`; a nil `common` is `none`, and a query
that fails gives nil. -/
def runXPathQuery {Node : Type} (env : XPathDeps Node) (doc : Node) (xpath : String)
    (common : Option commonXPathConfig) : List Node :=
  let xpath :=
    match common with
    | some c => applyCommon env c xpath
    | none => xpath
  match env.QueryAll doc xpath with
  | Except.error _ => []
  | Except.ok found => found

/-- The loops `for i, elem := range found` of `process`: the text of the element at index
`i`, made by `text`, is set under the key; `i` is the index of the first element of the
list. -/
def setKeyLoop {Node : Type} (text : Node → String) (k : String) :
    Nat → List Node → xPathResults → Option xPathResults
  | _, [], ret => some ret
  | i, elem :: rest, ret =>
    match ret.setKey i k (text elem) with
    | none => none
    | some ret => setKeyLoop text k (i + 1) rest ret

/-- The loop of `process` over the entries of the configuration, with `ret` as
accumulator. -/
def processLoop {Node : Type} (env : XPathDeps Node) (doc : Node)
    (common : Option commonXPathConfig) :
    xpathScraperConfig → xPathResults → Option xPathResults
  | [], ret => some ret
  | (k, value) :: rest, ret =>
    let step : Option xPathResults :=
      match value with
      | xpathConfigValue.string v =>
        let found := runXPathQuery env doc v common
        if found.length > 0 then
          setKeyLoop (fun elem => commonPostProcess (env.InnerText elem)) k 0 found ret
        else some ret
      | xpathConfigValue.map attrConfig =>
        let found := runXPathQuery env doc attrConfig.selector common
        if found.length > 0 then
          if attrConfig.concat ≠ "" then
            let result := attrConfig.concatenateResults env found
            let result := attrConfig.postProcess env result
            ret.setKey 0 k result
          else
            setKeyLoop (fun elem =>
              attrConfig.postProcess env (commonPostProcess (env.InnerText elem))) k 0 found ret
        else some ret
      | xpathConfigValue.other => some ret
    match step with
    | none => none
    | some ret => processLoop env doc common rest ret

/-- The method `xpathScraperConfig.process(doc, common)`; `none` is a panic. -/
def xpathScraperConfig.process {Node : Type} (env : XPathDeps Node) (s : xpathScraperConfig)
    (doc : Node) (common : Option commonXPathConfig) : Option xPathResults :=
  processLoop env doc common s []

/-- Results for the instances: one record, with a title. -/
def sampleResults : xPathResults := [[("Title", "Beach")]]

/-! ## Theorems -/

theorem updateSetLoop_partial (obj : List StructField)
    (h : ∀ f ∈ obj, tagKey f.tag ≠ "id" → f.value.isPointer = true) (acc : List String) :
    updateSetLoop true obj acc = some (acc ++ presentAssignments obj) := by
  induction obj generalizing acc with
  | nil => simp [updateSetLoop, presentAssignments]
  | cons f rest ih =>
    have hrest : ∀ g ∈ rest, tagKey g.tag ≠ "id" → g.value.isPointer = true :=
      fun g hg => h g (List.mem_cons_of_mem _ hg)
    by_cases hk : tagKey f.tag = "id"
    · simp [updateSetLoop, presentAssignments, hk, ih hrest]
    · have hp := h f (List.mem_cons_self _ _) hk
      cases hv : f.value with
      | direct v => simp [hv, FieldValue.isPointer] at hp
      | pointer p =>
        cases p with
        | none =>
          simp [updateSetLoop, hk, hv, FieldValue.IsNil, ih hrest, presentAssignments,
            FieldValue.isPresent]
        | some v =>
          simp [updateSetLoop, hk, hv, FieldValue.IsNil, ih hrest, presentAssignments,
            FieldValue.isPresent]

theorem updateSet_partial_direct_field (id : Arg) (tag : String) (v : Arg)
    (rest : List StructField) (htag : tagKey tag ≠ "id") :
    updateSet ({ tag := "id", value := FieldValue.direct id }
      :: { tag := tag, value := FieldValue.direct v } :: rest) true = none := by
  have hid : tagKey "id" = "id" := by decide
  simp [updateSet, updateSetLoop, hid, htag, FieldValue.IsNil]

theorem assignment_injective (k k2 : String) (h : k ++ "=:" ++ k = k2 ++ "=:" ++ k2) : k = k2 := by
  have hd := congrArg String.data h
  simp only [String.data_append] at hd
  have hl := congrArg List.length hd
  simp only [List.length_append] at hl
  have hlen : k.data.length = k2.data.length := by omega
  have := List.append_inj hd (by simp [hlen])
  have h2 := List.append_inj this.1 hlen
  exact String.ext h2.1

/-- C1: for a record whose fields other than `id` are optional (pointer) fields,
`updateSet(obj, true)` returns the `", "`-joined list `query` that holds, in declaration order,
exactly the assignments `k=:k` of the fields whose key `k` is not `id` and whose pointer is not
nil. Hence `k=:k` is emitted iff `k` is not `id` and a field tagged `k` is a non-nil pointer; a
field whose pointer is present but holds a null value is emitted, and a key all of whose fields
are nil pointers is not. -/
theorem updateSet_partial_emits_present (obj : List StructField)
    (h : ∀ f ∈ obj, tagKey f.tag ≠ "id" → f.value.isPointer = true) :
    ∃ query : List String,
      updateSetLoop true obj [] = some query ∧
      updateSet obj true = some (String.intercalate ", " query) ∧
      query = presentAssignments obj ∧
      (∀ k : String, (k ++ "=:" ++ k) ∈ query ↔
        (k ≠ "id" ∧ ∃ f ∈ obj, tagKey f.tag = k ∧ ∃ v, f.value = FieldValue.pointer (some v))) ∧
      (∀ f ∈ obj, tagKey f.tag ≠ "id" → f.value = FieldValue.pointer (some Arg.null) →
        (tagKey f.tag ++ "=:" ++ tagKey f.tag) ∈ query) ∧
      (∀ k : String, (∀ f ∈ obj, tagKey f.tag = k → f.value = FieldValue.pointer none) →
        (k ++ "=:" ++ k) ∉ query) := by
  have hloop := updateSetLoop_partial obj h []
  simp only [List.nil_append] at hloop
  have hmem : ∀ k : String, (k ++ "=:" ++ k) ∈ presentAssignments obj ↔
      (k ≠ "id" ∧ ∃ f ∈ obj, tagKey f.tag = k ∧ ∃ v, f.value = FieldValue.pointer (some v)) := by
    intro k
    simp only [presentAssignments, List.mem_map, List.mem_filter, Bool.and_eq_true,
      decide_eq_true_eq]
    constructor
    · rintro ⟨f, ⟨hf, hk, hp⟩, heq⟩
      have hkk := assignment_injective _ _ heq
      refine ⟨hkk ▸ hk, f, hf, hkk, ?_⟩
      cases hv : f.value with
      | direct v => simp [hv, FieldValue.isPresent] at hp
      | pointer p =>
        cases p with
        | none => simp [hv, FieldValue.isPresent] at hp
        | some v => exact ⟨v, rfl⟩
    · rintro ⟨hk, f, hf, hkk, v, hv⟩
      exact ⟨f, ⟨hf, hkk ▸ hk, by simp [hv, FieldValue.isPresent]⟩, by rw [hkk]⟩
  refine ⟨presentAssignments obj, hloop, by simp [updateSet, hloop], rfl, hmem, ?_, ?_⟩
  · intro f hf hk hv
    exact (hmem _).2 ⟨hk, f, hf, rfl, Arg.null, hv⟩
  · intro k hall hin
    obtain ⟨_, f, hf, hkk, v, hv⟩ := (hmem k).1 hin
    rw [hall f hf hkk] at hv
    cases hv

/-- C1 at `sampleScenePartial`: the set title, the cleared URL and the set rating are
written, the omitted details are not. -/
theorem updateSet_partial_emits_present_witness :
    (∀ f ∈ sampleScenePartial, tagKey f.tag ≠ "id" → f.value.isPointer = true) ∧
    updateSet sampleScenePartial true = some "title=:title, url=:url, rating=:rating" := by
  have hyp : ∀ f ∈ sampleScenePartial, tagKey f.tag ≠ "id" → f.value.isPointer = true := by
    decide
  obtain ⟨query, _, hset, hq, _⟩ := updateSet_partial_emits_present sampleScenePartial hyp
  refine ⟨hyp, ?_⟩
  rw [hset, hq]
  decide

theorem TableStore.nextFault_of_noFaults (st : TableStore) (h : st.noFaults) :
    st.nextFault = none := by
  unfold TableStore.nextFault
  cases hf : st.faults with
  | nil => rfl
  | cons a rest =>
    have := h a (by simp [hf])
    subst this
    rfl

theorem TableStore.noFaults_step (st : TableStore) (h : st.noFaults) : st.step.noFaults := by
  intro f hf
  exact h f (List.mem_of_mem_tail hf)

theorem exists_tableDb_some (st : TableStore) (id : Int) (log : List Call) :
    (st.repo (some Tx.mk)).exists tableDb id { db := st, log := log } =
      (match st.nextFault with
        | some e => if e = Err.ErrNoRows then (false, none) else (false, some e)
        | none => (st.rows.any (st.hasId id), none),
       { db := st.step, log := log ++ [Call.Get ((st.repo (some Tx.mk)).buildCountQuery
          ("SELECT " ++ st.idColumn ++ " FROM " ++ st.tableName ++ " WHERE " ++ st.idColumn
            ++ " = ? LIMIT 1")) [Arg.int id]] }) := by
  cases hf : st.nextFault with
  | none =>
    by_cases hany : st.rows.any (st.hasId id) = true
    · simp [repository.exists, repository.wrapReadOnly, repository.runCountQuery, txGet, tableDb,
        TableStore.Get, TableStore.repo, repository.buildCountQuery, hf, Row.getInt, hany]
    · simp [repository.exists, repository.wrapReadOnly, repository.runCountQuery, txGet, tableDb,
        TableStore.Get, TableStore.repo, repository.buildCountQuery, hf, Row.getInt, hany]
  | some e =>
    by_cases he : e = Err.ErrNoRows
    · simp [repository.exists, repository.wrapReadOnly, repository.runCountQuery, txGet, tableDb,
        TableStore.Get, TableStore.repo, repository.buildCountQuery, hf, Row.getInt, he]
    · simp [repository.exists, repository.wrapReadOnly, repository.runCountQuery, txGet, tableDb,
        TableStore.Get, TableStore.repo, repository.buildCountQuery, hf, Row.getInt, he]

theorem filter_isWrite_append_get (log : List Call) (q : String) (a : List Arg) :
    (log ++ [Call.Get q a]).filter Call.isWrite = log.filter Call.isWrite := by
  simp [List.filter_append, Call.isWrite]

theorem exists_tableDb_frame (st : TableStore) (tx : Option Tx) (id : Int) (log : List Call) :
    ((st.repo tx).exists tableDb id { db := st, log := log }).2.db.rows = st.rows ∧
    ((st.repo tx).exists tableDb id { db := st, log := log }).2.db.tableName = st.tableName ∧
    ((st.repo tx).exists tableDb id { db := st, log := log }).2.db.idColumn = st.idColumn ∧
    ((st.repo tx).exists tableDb id { db := st, log := log }).2.log.filter Call.isWrite
      = log.filter Call.isWrite ∧
    (st.rows.any (st.hasId id) = false →
      ((st.repo tx).exists tableDb id { db := st, log := log }).1 ≠ (true, none)) := by
  cases tx with
  | some tx =>
    cases tx
    rw [exists_tableDb_some]
    refine ⟨rfl, rfl, rfl, filter_isWrite_append_get _ _ _, ?_⟩
    intro hany
    cases hf : st.nextFault with
    | none => simp [hany]
    | some e => by_cases he : e = Err.ErrNoRows <;> simp [he]
  | none =>
    by_cases hany : st.rows.any (st.hasId id) = true <;>
    rcases hfa : st.faults with _ | ⟨(_ | e), (_ | ⟨(_ | e2), rest⟩)⟩ <;>
    simp [repository.exists, repository.wrapReadOnly, repository.runCountQuery, txGet,
            tableDb, TableStore.Get, TableStore.repo, repository.buildCountQuery, hfa, Row.getInt,
            WithTxn, TableStore.nextFault, TableStore.step, List.filter_append, Call.isWrite,
            hany] <;>
    split_ifs <;> simp_all [Call.isWrite]

theorem TableStore.repo_congr (st st1 : TableStore) (tx : Option Tx)
    (ht : st1.tableName = st.tableName) (hc : st1.idColumn = st.idColumn) :
    st1.repo tx = st.repo tx := by
  simp [TableStore.repo, ht, hc]

theorem destroyExistingCheck_frame (tx : Option Tx) (ids : List Int) :
    ∀ (st : TableStore) (log : List Call),
      ((st.repo tx).destroyExistingCheck tableDb ids { db := st, log := log }).2.db.rows
        = st.rows ∧
      ((st.repo tx).destroyExistingCheck tableDb ids { db := st, log := log }).2.log.filter
        Call.isWrite = log.filter Call.isWrite ∧
      ((∃ id ∈ ids, st.rows.any (st.hasId id) = false) →
        ((st.repo tx).destroyExistingCheck tableDb ids { db := st, log := log }).1 ≠ none) := by
  induction ids with
  | nil => intro st log; simp [repository.destroyExistingCheck]
  | cons id rest ih =>
    intro st log
    obtain ⟨h1, h2, h3, h4, h5⟩ := exists_tableDb_frame st tx id log
    rcases hex : (st.repo tx).exists tableDb id { db := st, log := log } with
      ⟨⟨b, e⟩, ⟨st1, log1⟩⟩
    rw [hex] at h1 h2 h3 h4 h5
    simp only at h1 h2 h3 h4
    unfold repository.destroyExistingCheck
    rw [hex]
    cases e with
    | some e => simp [h1, h4]
    | none =>
      cases b with
      | false => simp [h1, h4]
      | true =>
        simp only
        obtain ⟨i1, i2, i3⟩ := ih st1 log1
        rw [TableStore.repo_congr st st1 tx h2 h3] at i1 i2 i3
        refine ⟨i1.trans h1, i2.trans h4, ?_⟩
        rintro ⟨j, hj, hmiss⟩
        rcases List.mem_cons.1 hj with rfl | hj
        · exact absurd rfl (h5 hmiss)
        · apply i3
          refine ⟨j, hj, ?_⟩
          simpa [TableStore.hasId, h1, h3] using hmiss

theorem destroyExistingCheck_ok (ids : List Int) :
    ∀ (st : TableStore) (log : List Call), st.noFaults →
      (∀ id ∈ ids, st.rows.any (st.hasId id) = true) →
      ∃ st1 log1, (st.repo (some Tx.mk)).destroyExistingCheck tableDb ids { db := st, log := log }
          = (none, { db := st1, log := log1 }) ∧
        st1.rows = st.rows ∧ st1.tableName = st.tableName ∧ st1.idColumn = st.idColumn ∧
        st1.noFaults ∧ log1.filter Call.isWrite = log.filter Call.isWrite := by
  induction ids with
  | nil =>
    intro st log hnf _
    exact ⟨st, log, by simp [repository.destroyExistingCheck], rfl, rfl, rfl, hnf, rfl⟩
  | cons id rest ih =>
    intro st log hnf hall
    have hid := hall id (List.mem_cons_self _ _)
    unfold repository.destroyExistingCheck
    rw [exists_tableDb_some, st.nextFault_of_noFaults hnf, hid]
    simp only
    obtain ⟨st1, log1, e1, e2, e3, e4, e5, e6⟩ := ih st.step _ (st.noFaults_step hnf)
      (fun j hj => hall j (List.mem_cons_of_mem _ hj))
    refine ⟨st1, log1, ?_, e2, e3, e4, e5, ?_⟩
    · rw [← e1]
      rfl
    · rw [e6, filter_isWrite_append_get]

theorem txExec_tableDb_delete (st : TableStore) (log : List Call) (id : Int)
    (hnf : st.noFaults) :
    txExec tableDb Tx.mk ("DELETE FROM " ++ st.tableName ++ " WHERE " ++ st.idColumn ++ " = ?")
        [Arg.int id] { db := st, log := log } =
      (Except.ok { lastInsertId := Except.ok 0 },
        { db := { st.step with rows := st.rows.filter (fun row => !st.hasId id row) },
          log := log ++ [Call.Exec
            ("DELETE FROM " ++ st.tableName ++ " WHERE " ++ st.idColumn ++ " = ?")
            [Arg.int id]] }) := by
  simp [txExec, tableDb, TableStore.Exec, st.nextFault_of_noFaults hnf]

theorem destroy_ok (ids : List Int) :
    ∀ (st : TableStore) (log : List Call), st.noFaults →
      ∃ st1, (st.repo (some Tx.mk)).destroy tableDb ids { db := st, log := log }
          = some (none, { db := st1, log := log ++ ids.map (fun id =>
              Call.Exec ("DELETE FROM " ++ st.tableName ++ " WHERE " ++ st.idColumn ++ " = ?")
                [Arg.int id]) }) ∧
        st1.rows = st.rows.filter (fun row => !ids.any (fun id => st.hasId id row)) := by
  induction ids with
  | nil =>
    intro st log _
    exact ⟨st, by simp [repository.destroy], by simp⟩
  | cons id rest ih =>
    intro st log hnf
    have hstep : (st.step).noFaults := st.noFaults_step hnf
    obtain ⟨st1, e1, e2⟩ := ih
      { st.step with rows := st.rows.filter (fun row => !st.hasId id row) }
      (log ++ [Call.Exec ("DELETE FROM " ++ st.tableName ++ " WHERE " ++ st.idColumn ++ " = ?")
        [Arg.int id]]) hstep
    refine ⟨st1, ?_, ?_⟩
    · unfold repository.destroy
      simp only [TableStore.repo]
      rw [txExec_tableDb_delete st log id hnf]
      simp only [TableStore.repo, TableStore.step] at e1
      simp only [TableStore.step]
      rw [e1]
      simp
    · rw [e2]
      simp [TableStore.step, TableStore.hasId, List.filter_filter, Bool.and_comm]

/-- C2: over the reference store, (1) if some listed id has no row then `destroyExisting`
returns an error, whatever the store's faults and with or without a transaction, the rows are
those from before the call and no `Exec` (no DELETE) has been issued; (2) if every listed id
has a row and no statement fails, then inside a transaction it returns no error, has issued
one DELETE per listed id, and the rows left are exactly those whose id is not listed. -/
theorem destroyExisting_all_or_nothing (st : TableStore) (ids : List Int) (log : List Call) :
    (∀ tx : Option Tx, (∃ id ∈ ids, st.rows.any (st.hasId id) = false) →
      ∃ e w1, (st.repo tx).destroyExisting tableDb ids { db := st, log := log }
          = some (some e, w1) ∧
        w1.db.rows = st.rows ∧ w1.log.filter Call.isWrite = log.filter Call.isWrite) ∧
    ((∀ id ∈ ids, st.rows.any (st.hasId id) = true) → st.noFaults →
      ∃ w1, (st.repo (some Tx.mk)).destroyExisting tableDb ids { db := st, log := log }
          = some (none, w1) ∧
        w1.db.rows = st.rows.filter (fun row => !ids.any (fun id => st.hasId id row)) ∧
        w1.log.filter Call.isWrite = log.filter Call.isWrite ++ ids.map (fun id =>
          Call.Exec ("DELETE FROM " ++ st.tableName ++ " WHERE " ++ st.idColumn ++ " = ?")
            [Arg.int id])) := by
  constructor
  · intro tx hmiss
    obtain ⟨h1, h2, h3⟩ := destroyExistingCheck_frame tx ids st log
    rcases hc : (st.repo tx).destroyExistingCheck tableDb ids { db := st, log := log } with
      ⟨e, w1⟩
    rw [hc] at h1 h2 h3
    cases e with
    | none => exact absurd rfl (h3 hmiss)
    | some e => exact ⟨e, w1, by simp [repository.destroyExisting, hc], h1, h2⟩
  · intro hall hnf
    obtain ⟨st1, log1, e1, e2, e3, e4, e5, e6⟩ := destroyExistingCheck_ok ids st log hnf hall
    obtain ⟨st2, d1, d2⟩ := destroy_ok ids st1 log1 e5
    rw [TableStore.repo_congr st st1 _ e3 e4] at d1
    refine ⟨_, by simp only [repository.destroyExisting, e1]; exact d1, ?_, ?_⟩
    · simp only [d2, e2, TableStore.hasId, e4]
    · simp [List.filter_append, e6, e3, e4, List.filter_map, Function.comp_def, Call.isWrite]

/-- C2 on `sampleStore` (rows 1, 2, 3): destroying [1, 4] fails and leaves all three rows;
destroying [1, 3] succeeds and leaves row 2. -/
theorem destroyExisting_all_or_nothing_witness :
    (∃ e w1, (sampleStore.repo (some Tx.mk)).destroyExisting tableDb [1, 4] sampleWorld
        = some (some e, w1) ∧ w1.db.rows = sampleStore.rows ∧
        w1.log.filter Call.isWrite = []) ∧
    (∃ w1, (sampleStore.repo (some Tx.mk)).destroyExisting tableDb [1, 3] sampleWorld
        = some (none, w1) ∧
        w1.db.rows = [[("id", Arg.int 2), ("title", Arg.str "b")]]) := by
  constructor
  · obtain ⟨e, w1, h1, h2, h3⟩ := (destroyExisting_all_or_nothing sampleStore [1, 4] []).1
      (some Tx.mk) (by decide)
    exact ⟨e, w1, h1, h2, h3⟩
  · obtain ⟨w1, h1, h2, _⟩ := (destroyExisting_all_or_nothing sampleStore [1, 3] []).2
      (by decide) (by intro f hf; simp [sampleStore] at hf)
    refine ⟨w1, h1, ?_⟩
    rw [h2]
    decide

theorem runCountQuery_writes {σ : Type} (d : Dbi σ) (r : repository) (query : String)
    (args : List Arg) (w : World σ) :
    (r.runCountQuery d query args w).2.log.filter Call.isWrite = w.log.filter Call.isWrite := by
  cases htx : r.tx with
  | some tx =>
    rcases hg : d.Get query args w.db with ⟨res, s1⟩
    cases res with
    | ok row =>
      simp [repository.runCountQuery, repository.wrapReadOnly, htx, txGet, hg,
        List.filter_append, Call.isWrite]
    | error e =>
      simp only [repository.runCountQuery, repository.wrapReadOnly, htx, txGet, hg]
      split_ifs <;> simp [List.filter_append, Call.isWrite]
  | none =>
    rcases hg : d.Get query args (d.Begin w.db) with ⟨res, s1⟩
    cases res with
    | ok row =>
      simp only [repository.runCountQuery, repository.wrapReadOnly, htx, txGet, hg, WithTxn]
      split_ifs <;> simp [List.filter_append, Call.isWrite]
    | error e =>
      simp only [repository.runCountQuery, repository.wrapReadOnly, htx, txGet, hg, WithTxn]
      split_ifs <;> simp [List.filter_append, Call.isWrite]

theorem exists_writes {σ : Type} (d : Dbi σ) (r : repository) (id : Int) (w : World σ) :
    (r.exists d id w).2.log.filter Call.isWrite = w.log.filter Call.isWrite := by
  cases htx : r.tx with
  | some tx =>
    have h := runCountQuery_writes d r (r.buildCountQuery ("SELECT " ++ r.idColumn ++ " FROM "
      ++ r.tableName ++ " WHERE " ++ r.idColumn ++ " = ? LIMIT 1")) [Arg.int id] w
    simp only [repository.exists, repository.wrapReadOnly, htx]
    split <;> exact h
  | none =>
    have h := runCountQuery_writes d { r with tx := some Tx.mk }
      (r.buildCountQuery ("SELECT " ++ r.idColumn ++ " FROM "
      ++ r.tableName ++ " WHERE " ++ r.idColumn ++ " = ? LIMIT 1")) [Arg.int id]
      { db := d.Begin w.db, log := w.log ++ [Call.Begin] }
    simp only [List.filter_append] at h
    simp only [repository.exists, repository.wrapReadOnly, htx, WithTxn]
    split <;> split <;> simp_all [List.filter_append, Call.isWrite]

/-- C3: (1) for every driver, whenever the existence probe `exists(id)` does not answer
"exists, no error" (the id is missing, or the probe failed), `update` and `updateMap` return
an error in the world the probe left: nothing is executed after the probe, and the probe has
issued no `Exec` and no `NamedExec`; the error is the probe's own error when it failed and the
"does not exist" error otherwise. (2) Over the reference store, an id without a row is such
a case, whatever the faults and with or without a transaction, and the rows are unchanged. -/
theorem update_missing_id_no_write {σ : Type} (d : Dbi σ) (r : repository) (id : Int)
    (obj : List StructField) (partialUpdate : Bool) (m : GoMap) (w : World σ) :
    ((r.exists d id w).1 ≠ (true, none) →
      ∃ e, r.update d id obj partialUpdate w = some (some e, (r.exists d id w).2) ∧
        r.updateMap d id m w = some (some e, (r.exists d id w).2) ∧
        (r.exists d id w).2.log.filter Call.isWrite = w.log.filter Call.isWrite ∧
        (∀ e0, (r.exists d id w).1.2 = some e0 → e = e0) ∧
        ((r.exists d id w).1.2 = none → e = r.notExistErr id)) ∧
    (∀ (st : TableStore) (tx : Option Tx) (log : List Call),
      st.rows.any (st.hasId id) = false →
      ∃ e w1, (st.repo tx).update tableDb id obj partialUpdate { db := st, log := log }
          = some (some e, w1) ∧
        (st.repo tx).updateMap tableDb id m { db := st, log := log } = some (some e, w1) ∧
        w1.db.rows = st.rows ∧ w1.log.filter Call.isWrite = log.filter Call.isWrite) := by
  have generic : ∀ {τ : Type} (d : Dbi τ) (r : repository) (w : World τ),
      (r.exists d id w).1 ≠ (true, none) →
      ∃ e, r.update d id obj partialUpdate w = some (some e, (r.exists d id w).2) ∧
        r.updateMap d id m w = some (some e, (r.exists d id w).2) ∧
        (∀ e0, (r.exists d id w).1.2 = some e0 → e = e0) ∧
        ((r.exists d id w).1.2 = none → e = r.notExistErr id) := by
    intro τ d r w h
    rcases hex : r.exists d id w with ⟨⟨b, e⟩, w1⟩
    rw [hex] at h
    cases e with
    | some e => exact ⟨e, by simp [repository.update, hex], by simp [repository.updateMap, hex],
        by simp, by simp⟩
    | none =>
      cases b with
      | true => exact absurd rfl h
      | false => exact ⟨r.notExistErr id, by simp [repository.update, hex],
          by simp [repository.updateMap, hex], by simp, by simp⟩
  constructor
  · intro h
    obtain ⟨e, h1, h2, h3, h4⟩ := generic d r w h
    exact ⟨e, h1, h2, exists_writes d r id w, h3, h4⟩
  · intro st tx log habsent
    obtain ⟨f1, _, _, f4, f5⟩ := exists_tableDb_frame st tx id log
    obtain ⟨e, h1, h2, _, _⟩ := generic tableDb (st.repo tx) { db := st, log := log } (f5 habsent)
    exact ⟨e, _, h1, h2, f1, f4⟩

/-- C3 on `sampleStore` (rows 1, 2, 3): updating id 4 returns the "does not exist" error from
both `update` and `updateMap`, with the rows unchanged and no write issued. -/
theorem update_missing_id_no_write_witness :
    ∃ w1, (sampleStore.repo (some Tx.mk)).update tableDb 4 sampleScenePartial true sampleWorld
        = some (some (Err.other "id 4 does not exist in scenes"), w1) ∧
      (sampleStore.repo (some Tx.mk)).updateMap tableDb 4 [("title", Arg.str "x")] sampleWorld
        = some (some (Err.other "id 4 does not exist in scenes"), w1) ∧
      w1.db.rows = sampleStore.rows ∧ w1.log.filter Call.isWrite = [] := by
  have hprobe : ((sampleStore.repo (some Tx.mk)).exists tableDb 4 sampleWorld).1
      ≠ (true, none) := by decide
  obtain ⟨e, h1, h2, h3, _, h5⟩ := (update_missing_id_no_write tableDb
    (sampleStore.repo (some Tx.mk)) 4 sampleScenePartial true [("title", Arg.str "x")]
    sampleWorld).1 hprobe
  have he : e = Err.other "id 4 does not exist in scenes" := by
    rw [h5 (by decide)]
    decide
  subst he
  exact ⟨_, h1, h2, by decide, h3⟩

theorem runCountQuery_log {σ : Type} (d : Dbi σ) (r : repository) (tx : Tx)
    (htx : r.tx = some tx) (query : String) (args : List Arg) (w : World σ) :
    (r.runCountQuery d query args w).2.log = w.log ++ [Call.Get query args] := by
  rcases hg : d.Get query args w.db with ⟨res, s1⟩
  cases res with
  | ok row => simp [repository.runCountQuery, repository.wrapReadOnly, htx, txGet, hg]
  | error e =>
    simp only [repository.runCountQuery, repository.wrapReadOnly, htx, txGet, hg]
    split_ifs <;> rfl

theorem runIdsQuery_log {σ : Type} (d : Dbi σ) (r : repository) (tx : Tx)
    (htx : r.tx = some tx) (query : String) (args : List Arg) (w : World σ) :
    (r.runIdsQuery d query args w).2.log = w.log ++ [Call.Select query args] := by
  rcases hg : d.Select query args w.db with ⟨res, s1⟩
  cases res with
  | ok rows => simp [repository.runIdsQuery, repository.wrapReadOnly, htx, txSelect, hg]
  | error e =>
    simp only [repository.runIdsQuery, repository.wrapReadOnly, htx, txSelect, hg]
    split_ifs <;> rfl

theorem composeBody_eq_specBody (r : repository) (body : String)
    (whereClauses havingClauses : List String) :
    r.composeBody body whereClauses havingClauses
      = specBody r.tableName body whereClauses havingClauses := by
  have hlit : (".id  HAVING " : String) = ".id " ++ " HAVING " := by decide
  cases whereClauses <;> cases havingClauses <;>
    simp [repository.composeBody, specBody, String.append_assoc] <;>
    rw [hlit, String.append_assoc]

theorem WithTxn_statements {σ κ : Type} (d : Dbi σ)
    (fn : Tx → World σ → (κ × Option Err) × World σ) (w : World σ) :
    (WithTxn d fn w).2.log.filter Call.isStatement
      = (fn Tx.mk { db := d.Begin w.db, log := w.log ++ [Call.Begin] }).2.log.filter
          Call.isStatement := by
  unfold WithTxn
  rcases hfn : fn Tx.mk { db := d.Begin w.db, log := w.log ++ [Call.Begin] } with ⟨⟨k, e⟩, w1⟩
  cases e <;> simp [hfn, List.filter_append, Call.isStatement]

theorem executeFindQueryRun_log {σ : Type} (d : Dbi σ) (r0 : repository) (tx : Tx)
    (htx : r0.tx = some tx) (countQuery idsQuery : String) (args : List Arg) (w0 : World σ) :
    (r0.executeFindQueryRun d countQuery idsQuery args w0).2.log
      = w0.log ++ [Call.Get countQuery args, Call.Select idsQuery args] := by
  have h : (r0.executeFindQueryRun d countQuery idsQuery args w0).2
      = (r0.runIdsQuery d idsQuery args (r0.runCountQuery d countQuery args w0).2).2 := by
    simp only [repository.executeFindQueryRun]
    split <;> rfl
  rw [h, runIdsQuery_log d r0 tx htx, runCountQuery_log d r0 tx htx]
  simp

theorem executeFindQuery_world {σ : Type} (d : Dbi σ) (r : repository) (body : String)
    (args : List Arg) (sortAndPagination : String) (whereClauses havingClauses : List String)
    (w : World σ) :
    (r.executeFindQuery d body args sortAndPagination whereClauses havingClauses w).2
      = (r.wrapReadOnly d (fun r0 _ w0 => r0.executeFindQueryRun d
          (r.buildCountQuery (r.composeBody body whereClauses havingClauses))
          (r.composeBody body whereClauses havingClauses ++ sortAndPagination) args w0) w).2 := by
  simp only [repository.executeFindQuery]
  split <;> rfl

/-- C4: with `B` the body followed by the WHERE part (only when there are where-clauses),
`" GROUP BY <table>.id "` and the HAVING part (only when there are having-clauses),
`executeFindQuery` sends exactly two statements, in this order: the count query
`"SELECT COUNT(*) as count FROM (" ++ B ++ ") as temp"` and the id query
`B ++ sortAndPagination`, both with the argument list it was given. Inside a transaction these
two calls are all it adds to the log; without one they run between a `Begin` and a `Commit` or
`Rollback`. -/
theorem executeFindQuery_runs_composed_queries {σ : Type} (d : Dbi σ) (r : repository)
    (body : String) (args : List Arg) (sortAndPagination : String)
    (whereClauses havingClauses : List String) (w : World σ) :
    r.composeBody body whereClauses havingClauses
      = specBody r.tableName body whereClauses havingClauses ∧
    (r.executeFindQuery d body args sortAndPagination whereClauses havingClauses w).2.log.filter
        Call.isStatement
      = w.log.filter Call.isStatement ++
        [Call.Get ("SELECT COUNT(*) as count FROM ("
            ++ specBody r.tableName body whereClauses havingClauses ++ ") as temp") args,
         Call.Select (specBody r.tableName body whereClauses havingClauses ++ sortAndPagination)
            args] ∧
    (r.tx ≠ none →
      (r.executeFindQuery d body args sortAndPagination whereClauses havingClauses w).2.log
        = w.log ++
          [Call.Get ("SELECT COUNT(*) as count FROM ("
              ++ specBody r.tableName body whereClauses havingClauses ++ ") as temp") args,
           Call.Select (specBody r.tableName body whereClauses havingClauses ++ sortAndPagination)
              args]) := by
  have hbody := composeBody_eq_specBody r body whereClauses havingClauses
  have hres := executeFindQuery_world d r body args sortAndPagination whereClauses havingClauses w
  rw [hbody] at hres
  simp only [repository.buildCountQuery] at hres
  refine ⟨hbody, ?_, ?_⟩
  · rw [hres]
    cases htx : r.tx with
    | some tx =>
      simp only [repository.wrapReadOnly, htx]
      rw [executeFindQueryRun_log d r tx htx]
      simp [List.filter_append, Call.isStatement]
    | none =>
      simp only [repository.wrapReadOnly, htx]
      rw [WithTxn_statements, executeFindQueryRun_log d _ Tx.mk rfl]
      simp [List.filter_append, Call.isStatement]
  · intro hne
    rw [hres]
    cases htx : r.tx with
    | none => exact absurd htx hne
    | some tx =>
      simp only [repository.wrapReadOnly, htx]
      rw [executeFindQueryRun_log d r tx htx]

/-- C4 on a scene query with two where-clauses and one having-clause, inside a
transaction on `sampleStore`. -/
theorem executeFindQuery_runs_composed_queries_witness :
    ((sampleStore.repo (some Tx.mk)).executeFindQuery tableDb "SELECT scenes.id FROM scenes"
        [Arg.str "a%", Arg.int 3] " ORDER BY scenes.title ASC LIMIT 10 "
        ["scenes.title LIKE ?", "scenes.rating = ?"] ["count(scene_markers.scene_id) > 0"]
        sampleWorld).2.log
      = [Call.Get ("SELECT COUNT(*) as count FROM (SELECT scenes.id FROM scenes WHERE "
            ++ "scenes.title LIKE ? AND scenes.rating = ? GROUP BY scenes.id  HAVING "
            ++ "count(scene_markers.scene_id) > 0) as temp") [Arg.str "a%", Arg.int 3],
         Call.Select ("SELECT scenes.id FROM scenes WHERE "
            ++ "scenes.title LIKE ? AND scenes.rating = ? GROUP BY scenes.id  HAVING "
            ++ "count(scene_markers.scene_id) > 0 ORDER BY scenes.title ASC LIMIT 10 ")
            [Arg.str "a%", Arg.int 3]] :=
  ((executeFindQuery_runs_composed_queries tableDb (sampleStore.repo (some Tx.mk))
    "SELECT scenes.id FROM scenes" [Arg.str "a%", Arg.int 3]
    " ORDER BY scenes.title ASC LIMIT 10 " ["scenes.title LIKE ?", "scenes.rating = ?"]
    ["count(scene_markers.scene_id) > 0"] sampleWorld).2.2 (by decide)).trans rfl

/-- C10: `find` (and `Find`, which is `find`) sorts the outcome of the single-row fetch
`get` three ways: on `sql.ErrNoRows` it returns (nil, nil), on any other error `e` it returns
(nil, e), and with no error it returns the fetched record and no error; so (nil, nil) is
returned exactly when the fetch reports "no rows". Inside a transaction the outcome of the
fetch is the driver's answer to `SELECT * FROM <table> WHERE <id column> = ? LIMIT 1`. -/
theorem find_sorts_fetch_outcome {σ : Type} (d : Dbi σ) (qb : repository) (id : Int)
    (w : World σ) :
    ((qb.get d id [] w).1.2 = some Err.ErrNoRows →
      sceneQueryBuilder.find d qb id w = ((none, none), (qb.get d id [] w).2)) ∧
    (∀ e, (qb.get d id [] w).1.2 = some e → e ≠ Err.ErrNoRows →
      sceneQueryBuilder.find d qb id w = ((none, some e), (qb.get d id [] w).2)) ∧
    ((qb.get d id [] w).1.2 = none →
      sceneQueryBuilder.find d qb id w
        = ((some (qb.get d id [] w).1.1, none), (qb.get d id [] w).2)) ∧
    ((sceneQueryBuilder.find d qb id w).1 = (none, none)
      ↔ (qb.get d id [] w).1.2 = some Err.ErrNoRows) ∧
    sceneQueryBuilder.Find d qb id w = sceneQueryBuilder.find d qb id w ∧
    (qb.tx ≠ none →
      (sceneQueryBuilder.find d qb id w).1 =
        match (d.Get ("SELECT * FROM " ++ qb.tableName ++ " WHERE " ++ qb.idColumn
            ++ " = ? LIMIT 1") [Arg.int id] w.db).1 with
        | Except.ok row => (some row, none)
        | Except.error e => if e = Err.ErrNoRows then (none, none) else (none, some e)) := by
  refine ⟨?_, ?_, ?_, ?_, rfl, ?_⟩
  · intro h
    rcases hg : qb.get d id [] w with ⟨⟨ret, err⟩, w1⟩
    rw [hg] at h
    simp only at h
    subst h
    simp [sceneQueryBuilder.find, hg]
  · intro e h hne
    rcases hg : qb.get d id [] w with ⟨⟨ret, err⟩, w1⟩
    rw [hg] at h
    simp only at h
    subst h
    simp [sceneQueryBuilder.find, hg, hne]
  · intro h
    rcases hg : qb.get d id [] w with ⟨⟨ret, err⟩, w1⟩
    rw [hg] at h
    simp only at h
    subst h
    simp [sceneQueryBuilder.find, hg]
  · rcases hg : qb.get d id [] w with ⟨⟨ret, err⟩, w1⟩
    cases err with
    | none => simp [sceneQueryBuilder.find, hg]
    | some e =>
      by_cases he : e = Err.ErrNoRows
      · simp [sceneQueryBuilder.find, hg, he]
      · simp [sceneQueryBuilder.find, hg, he]
  · intro hne
    cases htx : qb.tx with
    | none => exact absurd htx hne
    | some tx =>
      rcases hg : d.Get ("SELECT * FROM " ++ qb.tableName ++ " WHERE " ++ qb.idColumn
        ++ " = ? LIMIT 1") [Arg.int id] w.db with ⟨res, s1⟩
      cases res with
      | ok row =>
        simp [sceneQueryBuilder.find, repository.get, repository.wrapReadOnly, htx, txGet, hg]
      | error e =>
        by_cases he : e = Err.ErrNoRows
        · simp [sceneQueryBuilder.find, repository.get, repository.wrapReadOnly, htx, txGet, hg,
            he]
        · simp [sceneQueryBuilder.find, repository.get, repository.wrapReadOnly, htx, txGet, hg,
            he]

/-- C10 on `sampleStore` (rows 1, 2, 3) inside a transaction: scene 2 is returned, scene 4 is
(nil, nil), and a store that fails with "disk I/O error" gives (nil, that error). -/
theorem find_sorts_fetch_outcome_witness :
    (sceneQueryBuilder.find tableDb (sampleStore.repo (some Tx.mk)) 2 sampleWorld).1
      = (some [("id", Arg.int 2), ("title", Arg.str "b")], none) ∧
    (sceneQueryBuilder.find tableDb (sampleStore.repo (some Tx.mk)) 4 sampleWorld).1
      = (none, none) ∧
    (sceneQueryBuilder.find tableDb (sampleStore.repo (some Tx.mk)) 2
        { db := { sampleStore with faults := [some (Err.other "disk I/O error")] },
          log := [] }).1
      = (none, some (Err.other "disk I/O error")) := by
  refine ⟨?_, ?_, ?_⟩
  · exact ((find_sorts_fetch_outcome tableDb (sampleStore.repo (some Tx.mk)) 2
      sampleWorld).2.2.2.2.2 (by decide)).trans (by decide)
  · exact ((find_sorts_fetch_outcome tableDb (sampleStore.repo (some Tx.mk)) 4
      sampleWorld).2.2.2.1).2 (by decide)
  · exact ((find_sorts_fetch_outcome tableDb (sampleStore.repo (some Tx.mk)) 2
      { db := { sampleStore with faults := [some (Err.other "disk I/O error")] },
        log := [] }).2.1 (Err.other "disk I/O error") (by decide) (by decide)).symm ▸ rfl

theorem lexClause_column (cs : List Char)
    (hcs : ∀ ch ∈ cs, ch ≠ ' ' ∧ ch ≠ '(' ∧ ch ≠ ')') :
    ∀ (rest cur : List Char), lexClause (cs ++ rest) cur = lexClause rest (cur ++ cs) := by
  induction cs with
  | nil => intro rest cur; simp
  | cons ch cs ih =>
    intro rest cur
    obtain ⟨h1, h2, h3⟩ := hcs ch (List.mem_cons_self _ _)
    have := ih (fun x hx => hcs x (List.mem_cons_of_mem _ hx)) rest (cur ++ [ch])
    simp only [List.cons_append, lexClause, h1, h2, h3, if_false, or_self]
    simpa using this

theorem isColumnName_spec (c : String) (hc : isColumnName c = true) :
    c.data ≠ [] ∧ (∀ ch ∈ c.data, ch ≠ ' ' ∧ ch ≠ '(' ∧ ch ≠ ')') ∧ c ≠ "?" := by
  simp only [isColumnName, Bool.and_eq_true, Bool.not_eq_true', List.all_eq_true, bne_iff_ne,
    ne_eq, List.isEmpty_eq_false] at hc
  refine ⟨?_, fun ch hch => ⟨(hc.2 ch hch).1.1.1, (hc.2 ch hch).1.1.2, (hc.2 ch hch).1.2⟩, ?_⟩
  · intro h
    simp [h] at hc
  · rintro rfl
    have := (hc.2 '?' (by decide)).2
    exact this rfl

theorem lexClause_word (cs : List Char) (hcs : ∀ ch ∈ cs, ch ≠ ' ' ∧ ch ≠ '(' ∧ ch ≠ ')')
    (hne : cs ≠ []) (rest : List Char) :
    lexClause (cs ++ ' ' :: rest) [] = String.mk cs :: lexClause rest [] := by
  rw [lexClause_column cs hcs]
  simp [lexClause, hne]

theorem lexClause_word_close (cs : List Char)
    (hcs : ∀ ch ∈ cs, ch ≠ ' ' ∧ ch ≠ '(' ∧ ch ≠ ')') (hne : cs ≠ []) (rest : List Char) :
    lexClause (cs ++ ')' :: rest) [] = String.mk cs :: ")" :: lexClause rest [] := by
  rw [lexClause_column cs hcs]
  simp [lexClause, hne]
  rfl

theorem lexClause_last (cs : List Char) (hcs : ∀ ch ∈ cs, ch ≠ ' ' ∧ ch ≠ '(' ∧ ch ≠ ')')
    (hne : cs ≠ []) : lexClause cs [] = [String.mk cs] := by
  have := lexClause_column cs hcs [] []
  simp only [List.append_nil, List.nil_append] at this
  rw [this]
  simp [lexClause, hne]

theorem lexClause_open (rest : List Char) :
    lexClause ('(' :: rest) [] = "(" :: lexClause rest [] := by
  simp [lexClause]
  rfl

theorem lexClause_equals (c : String) (hc : isColumnName c = true) :
    lexClause (c ++ " >= ? AND " ++ c ++ " < ?").data [] = [c, ">=", "?", "AND", c, "<", "?"] := by
  obtain ⟨hne, hcs, _⟩ := isColumnName_spec c hc
  have e : (c ++ " >= ? AND " ++ c ++ " < ?").data
      = c.data ++ ' ' :: (['>', '='] ++ ' ' :: (['?'] ++ ' ' :: (['A', 'N', 'D'] ++ ' ' ::
          (c.data ++ ' ' :: (['<'] ++ ' ' :: ['?']))))) := by
    have e1 : (" >= ? AND " : String).data
        = [' ', '>', '=', ' ', '?', ' ', 'A', 'N', 'D', ' '] := rfl
    have e2 : (" < ?" : String).data = [' ', '<', ' ', '?'] := rfl
    simp [String.data_append, e1, e2]
  rw [e, lexClause_word c.data hcs hne, lexClause_word _ (by decide) (by decide),
    lexClause_word _ (by decide) (by decide), lexClause_word _ (by decide) (by decide),
    lexClause_word c.data hcs hne, lexClause_word _ (by decide) (by decide),
    lexClause_last _ (by decide) (by decide)]

theorem lexClause_notEquals (c : String) (hc : isColumnName c = true) :
    lexClause ("(" ++ c ++ " < ? OR " ++ c ++ " >= ?)").data []
      = ["(", c, "<", "?", "OR", c, ">=", "?", ")"] := by
  obtain ⟨hne, hcs, _⟩ := isColumnName_spec c hc
  have e : ("(" ++ c ++ " < ? OR " ++ c ++ " >= ?)").data
      = '(' :: (c.data ++ ' ' :: (['<'] ++ ' ' :: (['?'] ++ ' ' :: (['O', 'R'] ++ ' ' ::
          (c.data ++ ' ' :: (['>', '='] ++ ' ' :: (['?'] ++ ')' :: []))))))) := by
    have e0 : ("(" : String).data = ['('] := rfl
    have e1 : (" < ? OR " : String).data = [' ', '<', ' ', '?', ' ', 'O', 'R', ' '] := rfl
    have e2 : (" >= ?)" : String).data = [' ', '>', '=', ' ', '?', ')'] := rfl
    simp [String.data_append, e0, e1, e2]
  rw [e, lexClause_open, lexClause_word c.data hcs hne, lexClause_word _ (by decide) (by decide),
    lexClause_word _ (by decide) (by decide), lexClause_word _ (by decide) (by decide),
    lexClause_word c.data hcs hne, lexClause_word _ (by decide) (by decide),
    lexClause_word_close _ (by decide) (by decide)]
  simp [lexClause]

theorem evalClause_equals (c : String) (hc : isColumnName c = true) (d : ℚ) (a b : Int) :
    evalClause c d (c ++ " >= ? AND " ++ c ++ " < ?") [Arg.int a, Arg.int b]
      = some (decide ((a : ℚ) ≤ d) && decide (d < (b : ℚ))) := by
  obtain ⟨_, _, hq⟩ := isColumnName_spec c hc
  have hp : ¬ (c = "(" ∧ [(">=" : String), "?", "AND", c, "<", "?"].getLast? = some ")") := by
    rintro ⟨_, h⟩
    simp at h
  unfold evalClause
  rw [lexClause_equals c hc]
  simp only [stripParens, hp, if_false]
  simp [evalTokens, evalOperand, evalCompare, hq]

theorem evalClause_notEquals (c : String) (hc : isColumnName c = true) (d : ℚ) (a b : Int) :
    evalClause c d ("(" ++ c ++ " < ? OR " ++ c ++ " >= ?)") [Arg.int a, Arg.int b]
      = some (decide (d < (a : ℚ)) || decide ((b : ℚ) ≤ d)) := by
  obtain ⟨_, _, hq⟩ := isColumnName_spec c hc
  unfold evalClause
  rw [lexClause_notEquals c hc]
  have hs : stripParens ["(", c, "<", "?", "OR", c, ">=", "?", ")"]
      = [c, "<", "?", "OR", c, ">=", "?"] := by
    simp [stripParens]
  rw [hs]
  simp [evalTokens, evalOperand, evalCompare, hq]

theorem wrapInt64_succ (v : Int) (hmin : minInt ≤ v) (hmax : v < maxInt) :
    wrapInt64 (v + 1) = v + 1 := by
  unfold wrapInt64
  unfold minInt at hmin
  unfold maxInt at hmax
  norm_num at hmin hmax ⊢
  omega

/-- C5: for a Go `int` value `v` below the largest one, `getDurationWhereClause` with modifier
Equals returns the clause `c >= ? AND c < ?` with the arguments `[v, v+1]`; and when `c` is a
column name, a row whose duration is the rational `d` satisfies that clause, bound
positionally, iff `v ≤ d < v + 1`. With `v = 120`, 120.6 matches and 121.0 does not. -/
theorem duration_equals_matches_whole_second (h : SqlHelpers) (c : String) (v : Int) (d : ℚ)
    (hmin : minInt ≤ v) (hmax : v < maxInt) :
    getDurationWhereClause h { Value := v, Modifier := CriterionModifier.Equals } c
      = (c ++ " >= ? AND " ++ c ++ " < ?", [Arg.int v, Arg.int (v + 1)]) ∧
    (isColumnName c = true →
      (∃ b, evalClause c d
          (getDurationWhereClause h { Value := v, Modifier := CriterionModifier.Equals } c).1
          (getDurationWhereClause h { Value := v, Modifier := CriterionModifier.Equals } c).2
          = some b ∧ (b = true ↔ ((v : ℚ) ≤ d ∧ d < (v : ℚ) + 1))) ∧
      evalClause c (603 / 5)
          (getDurationWhereClause h { Value := 120, Modifier := CriterionModifier.Equals } c).1
          (getDurationWhereClause h { Value := 120, Modifier := CriterionModifier.Equals } c).2
          = some true ∧
      evalClause c 121
          (getDurationWhereClause h { Value := 120, Modifier := CriterionModifier.Equals } c).1
          (getDurationWhereClause h { Value := 120, Modifier := CriterionModifier.Equals } c).2
          = some false) := by
  have hshape : ∀ u : Int, minInt ≤ u → u < maxInt →
      getDurationWhereClause h { Value := u, Modifier := CriterionModifier.Equals } c
        = (c ++ " >= ? AND " ++ c ++ " < ?", [Arg.int u, Arg.int (u + 1)]) := by
    intro u h1 h2
    simp [getDurationWhereClause, wrapInt64_succ u h1 h2]
  refine ⟨hshape v hmin hmax, fun hc => ⟨?_, ?_, ?_⟩⟩
  · rw [hshape v hmin hmax]
    refine ⟨_, evalClause_equals c hc d v (v + 1), ?_⟩
    simp
  · rw [hshape 120 (by decide) (by decide)]
    simp only []
    rw [evalClause_equals c hc]
    norm_num
  · rw [hshape 120 (by decide) (by decide)]
    simp only []
    rw [evalClause_equals c hc]
    norm_num

/-- C5 at the column `scenes.duration` and the value 120, for the durations 120.6 and 121. -/
theorem duration_equals_matches_whole_second_witness :
    getDurationWhereClause sampleHelpers
        { Value := 120, Modifier := CriterionModifier.Equals } "scenes.duration"
      = ("scenes.duration >= ? AND scenes.duration < ?", [Arg.int 120, Arg.int 121]) ∧
    evalClause "scenes.duration" (603 / 5) "scenes.duration >= ? AND scenes.duration < ?"
      [Arg.int 120, Arg.int 121] = some true ∧
    evalClause "scenes.duration" 121 "scenes.duration >= ? AND scenes.duration < ?"
      [Arg.int 120, Arg.int 121] = some false := by
  have hw := duration_equals_matches_whole_second
    sampleHelpers "scenes.duration" 120 (603 / 5) (by decide) (by decide)
  have hshape := hw.1
  obtain ⟨_, h1, h2⟩ := hw.2 (by decide)
  rw [hshape] at h1 h2
  exact ⟨hshape, h1, h2⟩

/-- C6: for a Go `int` value `v` below the largest one, `getDurationWhereClause` with modifier
NotEquals returns the clause `(c < ? OR c >= ?)` with the arguments `[v, v+1]`; and when `c`
is a column name, for every rational duration `d` both the Equals and the NotEquals clause
have a truth value at `d`, and the NotEquals clause holds exactly when the Equals clause for the
same `v` does not. -/
theorem duration_notEquals_is_complement (h : SqlHelpers) (c : String) (v : Int) (d : ℚ)
    (hc : isColumnName c = true) (hmin : minInt ≤ v) (hmax : v < maxInt) :
    getDurationWhereClause h { Value := v, Modifier := CriterionModifier.NotEquals } c
      = ("(" ++ c ++ " < ? OR " ++ c ++ " >= ?)", [Arg.int v, Arg.int (v + 1)]) ∧
    ∃ b, evalClause c d
          (getDurationWhereClause h { Value := v, Modifier := CriterionModifier.Equals } c).1
          (getDurationWhereClause h { Value := v, Modifier := CriterionModifier.Equals } c).2
          = some b ∧
        evalClause c d
          (getDurationWhereClause h { Value := v, Modifier := CriterionModifier.NotEquals } c).1
          (getDurationWhereClause h { Value := v, Modifier := CriterionModifier.NotEquals } c).2
          = some (!b) ∧
        (b = true ↔ ((v : ℚ) ≤ d ∧ d < (v : ℚ) + 1)) := by
  have hne : getDurationWhereClause h { Value := v, Modifier := CriterionModifier.NotEquals } c
      = ("(" ++ c ++ " < ? OR " ++ c ++ " >= ?)", [Arg.int v, Arg.int (v + 1)]) := by
    simp [getDurationWhereClause, wrapInt64_succ v hmin hmax]
  have heq : getDurationWhereClause h { Value := v, Modifier := CriterionModifier.Equals } c
      = (c ++ " >= ? AND " ++ c ++ " < ?", [Arg.int v, Arg.int (v + 1)]) := by
    simp [getDurationWhereClause, wrapInt64_succ v hmin hmax]
  refine ⟨hne, decide ((v : ℚ) ≤ d) && decide (d < ((v + 1 : Int) : ℚ)), ?_, ?_, ?_⟩
  · rw [heq]
    exact evalClause_equals c hc d v (v + 1)
  · rw [hne]
    simp only []
    rw [evalClause_notEquals c hc d v (v + 1)]
    congr 1
    rw [Bool.eq_iff_iff]
    simp only [Bool.or_eq_true, Bool.not_eq_true', Bool.and_eq_false_iff, decide_eq_true_eq,
      decide_eq_false_iff_not, not_le, not_lt]
  · simp

/-- C6 at the column `scenes.duration` and the value 120: at 120.6 the Equals clause holds and
the NotEquals clause does not. -/
theorem duration_notEquals_is_complement_witness :
    evalClause "scenes.duration" (603 / 5) "scenes.duration >= ? AND scenes.duration < ?"
      [Arg.int 120, Arg.int 121] = some true ∧
    evalClause "scenes.duration" (603 / 5) "(scenes.duration < ? OR scenes.duration >= ?)"
      [Arg.int 120, Arg.int 121] = some false := by
  obtain ⟨hne, b, h1, h2, h3⟩ := duration_notEquals_is_complement
    sampleHelpers "scenes.duration" 120 (603 / 5) (by decide) (by decide) (by decide)
  have hb : b = true := h3.2 (by norm_num)
  subst hb
  rw [hne] at h2
  have heq : getDurationWhereClause sampleHelpers
      { Value := 120, Modifier := CriterionModifier.Equals } "scenes.duration"
      = ("scenes.duration >= ? AND scenes.duration < ?", [Arg.int 120, Arg.int 121]) := by
    decide
  rw [heq] at h1
  exact ⟨h1, h2⟩

theorem addWhere_single (qb : queryBuilder) (clause : String) (hpos : clause.length > 0) :
    qb.addWhere [clause] = { qb with whereClauses := qb.whereClauses ++ [clause] } := by
  simp [queryBuilder.addWhere, hpos]

theorem length_append_pos (column suffix : String) (hs : suffix.length > 0) :
    (column ++ suffix).length > 0 := by
  rw [String.length_append]
  omega

/-- C7: for a criterion that is not nil, with value `x`, on column `c`,
`handleStringCriterionInput` appends exactly one where-clause and the one argument `x`, and
changes nothing else of the builder (the having-clauses in particular): the clause is
`c LIKE ?` for Equals, `c NOT LIKE ?` for NotEquals, `c regexp ?` for MatchesRegex and
`c NOT regexp ?` for NotMatchesRegex. -/
theorem handleStringCriterionInput_pattern_modifiers (h : SqlHelpers) (qb : queryBuilder)
    (x : String) (c : String) :
    qb.handleStringCriterionInput h
        (some { Value := x, Modifier := CriterionModifier.Equals }) c
      = { qb with whereClauses := qb.whereClauses ++ [c ++ " LIKE ?"],
                  args := qb.args ++ [Arg.str x] } ∧
    qb.handleStringCriterionInput h
        (some { Value := x, Modifier := CriterionModifier.NotEquals }) c
      = { qb with whereClauses := qb.whereClauses ++ [c ++ " NOT LIKE ?"],
                  args := qb.args ++ [Arg.str x] } ∧
    qb.handleStringCriterionInput h
        (some { Value := x, Modifier := CriterionModifier.MatchesRegex }) c
      = { qb with whereClauses := qb.whereClauses ++ [c ++ " regexp ?"],
                  args := qb.args ++ [Arg.str x] } ∧
    qb.handleStringCriterionInput h
        (some { Value := x, Modifier := CriterionModifier.NotMatchesRegex }) c
      = { qb with whereClauses := qb.whereClauses ++ [c ++ " NOT regexp ?"],
                  args := qb.args ++ [Arg.str x] } := by
  refine ⟨?_, ?_, ?_, ?_⟩
  · simp [queryBuilder.handleStringCriterionInput, CriterionModifier.IsValid,
      addWhere_single qb _ (length_append_pos c " LIKE ?" (by decide)), queryBuilder.addArg]
  · simp [queryBuilder.handleStringCriterionInput, CriterionModifier.IsValid,
      addWhere_single qb _ (length_append_pos c " NOT LIKE ?" (by decide)), queryBuilder.addArg]
  · simp [queryBuilder.handleStringCriterionInput, CriterionModifier.IsValid,
      addWhere_single qb _ (length_append_pos c " regexp ?" (by decide)), queryBuilder.addArg]
  · simp [queryBuilder.handleStringCriterionInput, CriterionModifier.IsValid,
      addWhere_single qb _ (length_append_pos c " NOT regexp ?" (by decide)), queryBuilder.addArg]

/-- C8: `handleStringCriterionInput` with a nil criterion, or with a criterion whose
modifier is not valid, returns the builder it was given: the where-clauses, the
having-clauses, the arguments, the body and the sort and pagination are all as before. -/
theorem handleStringCriterionInput_nil_or_invalid (h : SqlHelpers) (qb : queryBuilder)
    (column : String) :
    qb.handleStringCriterionInput h none column = qb ∧
    (∀ c : StringCriterionInput, c.Modifier.IsValid = false →
      qb.handleStringCriterionInput h (some c) column = qb ∧
      (qb.handleStringCriterionInput h (some c) column).whereClauses = qb.whereClauses ∧
      (qb.handleStringCriterionInput h (some c) column).havingClauses = qb.havingClauses ∧
      (qb.handleStringCriterionInput h (some c) column).args = qb.args ∧
      (qb.handleStringCriterionInput h (some c) column).body = qb.body ∧
      (qb.handleStringCriterionInput h (some c) column).sortAndPagination
        = qb.sortAndPagination) := by
  refine ⟨rfl, fun c hc => ?_⟩
  have : qb.handleStringCriterionInput h (some c) column = qb := by
    simp [queryBuilder.handleStringCriterionInput, hc]
  simp [this]

/-- C8 on `sampleBuilder`: a criterion whose modifier is the unknown string `"LIKE"` leaves
the builder as it was. -/
theorem handleStringCriterionInput_nil_or_invalid_witness :
    sampleBuilder.handleStringCriterionInput sampleHelpers
        (some { Value := "x", Modifier := CriterionModifier.invalid "LIKE" }) "scenes.title"
      = sampleBuilder :=
  ((handleStringCriterionInput_nil_or_invalid sampleHelpers sampleBuilder "scenes.title").2
    { Value := "x", Modifier := CriterionModifier.invalid "LIKE" } (by decide)).1

theorem handleStringCriterionInput_pattern (h : SqlHelpers) (qb : queryBuilder)
    (call : StringCriterionInput × String) (hm : isPatternModifier call.1.Modifier = true) :
    qb.handleStringCriterionInput h (some call.1) call.2
      = { qb with whereClauses := qb.whereClauses ++ [stringClause call],
                  args := qb.args ++ [Arg.str call.1.Value] } := by
  obtain ⟨⟨x, m⟩, c⟩ := call
  cases m <;> simp [isPatternModifier] at hm
  · simp [queryBuilder.handleStringCriterionInput, CriterionModifier.IsValid, stringClause,
      addWhere_single qb _ (length_append_pos c " LIKE ?" (by decide)), queryBuilder.addArg]
  · simp [queryBuilder.handleStringCriterionInput, CriterionModifier.IsValid, stringClause,
      addWhere_single qb _ (length_append_pos c " NOT LIKE ?" (by decide)), queryBuilder.addArg]
  · simp [queryBuilder.handleStringCriterionInput, CriterionModifier.IsValid, stringClause,
      addWhere_single qb _ (length_append_pos c " regexp ?" (by decide)), queryBuilder.addArg]
  · simp [queryBuilder.handleStringCriterionInput, CriterionModifier.IsValid, stringClause,
      addWhere_single qb _ (length_append_pos c " NOT regexp ?" (by decide)), queryBuilder.addArg]

theorem handleStringCriteria_pattern (h : SqlHelpers)
    (calls : List (StringCriterionInput × String)) :
    ∀ qb : queryBuilder, (∀ call ∈ calls, isPatternModifier call.1.Modifier = true) →
      handleStringCriteria h qb calls
        = { qb with whereClauses := qb.whereClauses ++ calls.map stringClause,
                    args := qb.args ++ calls.map (fun call => Arg.str call.1.Value) } := by
  induction calls with
  | nil => intro qb _; simp [handleStringCriteria]
  | cons call rest ih =>
    intro qb hall
    have h1 := handleStringCriterionInput_pattern h qb call (hall call (List.mem_cons_self _ _))
    have h2 := ih { qb with whereClauses := qb.whereClauses ++ [stringClause call],
                            args := qb.args ++ [Arg.str call.1.Value] }
      (fun c hc => hall c (List.mem_cons_of_mem _ hc))
    simp only [handleStringCriteria, List.foldl_cons] at h2 ⊢
    rw [h1, h2]
    simp

theorem placeholders_stringClause (call : StringCriterionInput × String)
    (hm : isPatternModifier call.1.Modifier = true) (hq : '?' ∉ call.2.data) :
    placeholders (stringClause call) = 1 := by
  obtain ⟨⟨x, m⟩, c⟩ := call
  have h0 : List.count '?' c.data = 0 := List.count_eq_zero_of_not_mem hq
  cases m <;> simp [isPatternModifier] at hm <;>
    simp [stringClause, placeholders, String.data_append, List.count_append, h0]

/-- C9: start from a builder without clauses and arguments and apply any sequence of
`handleStringCriterionInput` calls whose modifiers are Equals, NotEquals, MatchesRegex or
NotMatchesRegex and whose column names hold no `?`. Then the where-clauses are the calls'
clauses in call order, each holds exactly one placeholder, the arguments are the calls' values
in call order, and so the number of placeholders in the where-clauses is the number of
arguments and the i-th argument is the value of the criterion whose clause holds the i-th
placeholder. No having-clause is added. -/
theorem handleStringCriteria_placeholders_match_args (h : SqlHelpers) (body suffix : String)
    (calls : List (StringCriterionInput × String))
    (hcalls : ∀ call ∈ calls, isPatternModifier call.1.Modifier = true ∧ '?' ∉ call.2.data) :
    (handleStringCriteria h (emptyBuilder body suffix) calls).whereClauses = calls.map stringClause ∧
    (handleStringCriteria h (emptyBuilder body suffix) calls).args = calls.map (fun call => Arg.str call.1.Value) ∧
    (handleStringCriteria h (emptyBuilder body suffix) calls).havingClauses = [] ∧
    (∀ clause ∈ (handleStringCriteria h (emptyBuilder body suffix) calls).whereClauses, placeholders clause = 1) ∧
    ((handleStringCriteria h (emptyBuilder body suffix) calls).whereClauses.map placeholders).sum
      = (handleStringCriteria h (emptyBuilder body suffix) calls).args.length ∧
    (∀ i : Nat,
      (handleStringCriteria h (emptyBuilder body suffix) calls).whereClauses[i]?
        = (calls[i]?).map stringClause ∧
      (handleStringCriteria h (emptyBuilder body suffix) calls).args[i]?
        = (calls[i]?).map (fun call => Arg.str call.1.Value)) := by
  have hrun := handleStringCriteria_pattern h calls
    (emptyBuilder body suffix) (fun call hc => (hcalls call hc).1)
  simp only [emptyBuilder, List.nil_append] at hrun ⊢
  have hone : ∀ clause ∈ calls.map stringClause, placeholders clause = 1 := by
    intro clause hcl
    obtain ⟨call, hc, rfl⟩ := List.mem_map.1 hcl
    exact placeholders_stringClause call (hcalls call hc).1 (hcalls call hc).2
  have hsum : ∀ l : List String, (∀ clause ∈ l, placeholders clause = 1) →
      (l.map placeholders).sum = l.length := by
    intro l
    induction l with
    | nil => intro _; rfl
    | cons a l ih =>
      intro hl
      simp only [List.map_cons, List.sum_cons, List.length_cons]
      rw [hl a (List.mem_cons_self _ _), ih (fun c hc => hl c (List.mem_cons_of_mem _ hc))]
      omega
  rw [hrun]
  refine ⟨rfl, rfl, rfl, hone, ?_, fun i => ⟨?_, ?_⟩⟩
  · simp only [hsum _ hone, List.length_map]
  · simp only [List.getElem?_map]
  · simp only [List.getElem?_map]

/-- C9 on two calls: an Equals on the title and a NotMatchesRegex on the path. -/
theorem handleStringCriteria_placeholders_match_args_witness :
    (handleStringCriteria sampleHelpers (emptyBuilder "SELECT" "")
      [({ Value := "Beach", Modifier := CriterionModifier.Equals }, "scenes.title"),
       ({ Value := "mp4$", Modifier := CriterionModifier.NotMatchesRegex }, "scenes.path")]
      ).whereClauses = ["scenes.title LIKE ?", "scenes.path NOT regexp ?"] ∧
    (handleStringCriteria sampleHelpers (emptyBuilder "SELECT" "")
      [({ Value := "Beach", Modifier := CriterionModifier.Equals }, "scenes.title"),
       ({ Value := "mp4$", Modifier := CriterionModifier.NotMatchesRegex }, "scenes.path")]
      ).args = [Arg.str "Beach", Arg.str "mp4$"] := by
  have hw := handleStringCriteria_placeholders_match_args sampleHelpers "SELECT" ""
    [({ Value := "Beach", Modifier := CriterionModifier.Equals }, "scenes.title"),
     ({ Value := "mp4$", Modifier := CriterionModifier.NotMatchesRegex }, "scenes.path")]
    (by decide)
  exact ⟨hw.1.trans (by decide), hw.2.1.trans (by decide)⟩

theorem runCountQuery_error {σ : Type} (d : Dbi σ) (r : repository) (query : String)
    (args : List Arg) (w : World σ) (e : Err)
    (hget : (d.Get query args (r.readState d w)).1 = Except.error e) :
    (r.runCountQuery d query args w).1 = (0, if e = Err.ErrNoRows then none else some e) := by
  cases htx : r.tx with
  | some tx =>
    simp only [repository.readState, htx] at hget
    rcases hg : d.Get query args w.db with ⟨res, s1⟩
    rw [hg] at hget
    simp only at hget
    subst hget
    by_cases he : e = Err.ErrNoRows
    · simp [repository.runCountQuery, repository.wrapReadOnly, htx, txGet, hg, he]
    · simp [repository.runCountQuery, repository.wrapReadOnly, htx, txGet, hg, he]
  | none =>
    simp only [repository.readState, htx] at hget
    rcases hg : d.Get query args (d.Begin w.db) with ⟨res, s1⟩
    rw [hg] at hget
    simp only at hget
    subst hget
    by_cases he : e = Err.ErrNoRows
    · simp [repository.runCountQuery, repository.wrapReadOnly, htx, txGet, hg, he, WithTxn]
    · simp [repository.runCountQuery, repository.wrapReadOnly, htx, txGet, hg, he, WithTxn]

theorem runIdsQuery_error {σ : Type} (d : Dbi σ) (r : repository) (query : String)
    (args : List Arg) (w : World σ) (e : Err)
    (hsel : (d.Select query args (r.readState d w)).1 = Except.error e) :
    (r.runIdsQuery d query args w).1 = ([], if e = Err.ErrNoRows then none else some e) := by
  cases htx : r.tx with
  | some tx =>
    simp only [repository.readState, htx] at hsel
    rcases hg : d.Select query args w.db with ⟨res, s1⟩
    rw [hg] at hsel
    simp only at hsel
    subst hsel
    by_cases he : e = Err.ErrNoRows
    · simp [repository.runIdsQuery, repository.wrapReadOnly, htx, txSelect, hg, he]
    · simp [repository.runIdsQuery, repository.wrapReadOnly, htx, txSelect, hg, he]
  | none =>
    simp only [repository.readState, htx] at hsel
    rcases hg : d.Select query args (d.Begin w.db) with ⟨res, s1⟩
    rw [hg] at hsel
    simp only at hsel
    subst hsel
    by_cases he : e = Err.ErrNoRows
    · simp [repository.runIdsQuery, repository.wrapReadOnly, htx, txSelect, hg, he, WithTxn]
    · simp [repository.runIdsQuery, repository.wrapReadOnly, htx, txSelect, hg, he, WithTxn]

theorem runCountQuery_inside {σ : Type} (d : Dbi σ) (r : repository) (tx : Tx)
    (htx : r.tx = some tx) (query : String) (args : List Arg) (w : World σ) :
    (r.runCountQuery d query args w).2.db = (d.Get query args w.db).2 ∧
    (r.runCountQuery d query args w).1.2
      = (match errOf (d.Get query args w.db).1 with
          | some e => if e = Err.ErrNoRows then none else some e
          | none => none) := by
  rcases hg : d.Get query args w.db with ⟨res, s1⟩
  cases res with
  | ok row => simp [repository.runCountQuery, repository.wrapReadOnly, htx, txGet, hg, errOf]
  | error e =>
    by_cases he : e = Err.ErrNoRows
    · simp [repository.runCountQuery, repository.wrapReadOnly, htx, txGet, hg, errOf, he]
    · simp [repository.runCountQuery, repository.wrapReadOnly, htx, txGet, hg, errOf, he]

theorem runIdsQuery_inside {σ : Type} (d : Dbi σ) (r : repository) (tx : Tx)
    (htx : r.tx = some tx) (query : String) (args : List Arg) (w : World σ) :
    (r.runIdsQuery d query args w).1.2
      = (match errOf (d.Select query args w.db).1 with
          | some e => if e = Err.ErrNoRows then none else some e
          | none => none) := by
  rcases hg : d.Select query args w.db with ⟨res, s1⟩
  cases res with
  | ok rows => simp [repository.runIdsQuery, repository.wrapReadOnly, htx, txSelect, hg, errOf]
  | error e =>
    by_cases he : e = Err.ErrNoRows
    · simp [repository.runIdsQuery, repository.wrapReadOnly, htx, txSelect, hg, errOf, he]
    · simp [repository.runIdsQuery, repository.wrapReadOnly, htx, txSelect, hg, errOf, he]

theorem executeFindQuery_of_run_error {σ : Type} (d : Dbi σ) (r : repository) (body : String)
    (args : List Arg) (sortAndPagination : String) (whereClauses havingClauses : List String)
    (w : World σ) (err : Err)
    (hrun : ∀ tx : Tx, ({ r with tx := some tx } : repository).executeFindQueryRun d
        (r.buildCountQuery (r.composeBody body whereClauses havingClauses))
        (r.composeBody body whereClauses havingClauses ++ sortAndPagination) args
        { db := r.readState d w,
          log := match r.tx with
            | some _ => w.log
            | none => w.log ++ [Call.Begin] } |>.1.2 = some err) :
    (r.executeFindQuery d body args sortAndPagination whereClauses havingClauses w).1
      = ([], 0, some err) := by
  cases htx : r.tx with
  | some tx =>
    have h := hrun tx
    simp only [repository.readState, htx] at h
    have hr : ({ r with tx := some tx } : repository) = r := by
      cases r
      simp_all
    rw [hr] at h
    simp only [repository.executeFindQuery, repository.wrapReadOnly, htx]
    have hw : ({ db := w.db, log := w.log } : World σ) = w := rfl
    rw [hw] at h
    rw [h]
  | none =>
    have h := hrun Tx.mk
    simp only [repository.readState, htx] at h
    simp only [repository.executeFindQuery, repository.wrapReadOnly, htx, WithTxn]
    rcases hres : ({ r with tx := some Tx.mk } : repository).executeFindQueryRun d
        (r.buildCountQuery (r.composeBody body whereClauses havingClauses))
        (r.composeBody body whereClauses havingClauses ++ sortAndPagination) args
        { db := d.Begin w.db, log := w.log ++ [Call.Begin] } with ⟨⟨k, e⟩, w1⟩
    rw [hres] at h
    simp only at h
    subst h
    simp

theorem executeFindQueryRun_error {σ : Type} (d : Dbi σ) (r0 : repository)
    (countQuery idsQuery : String) (args : List Arg) (w0 : World σ) :
    (r0.executeFindQueryRun d countQuery idsQuery args w0).1.2
      = (match (r0.runCountQuery d countQuery args w0).1.2,
            (r0.runIdsQuery d idsQuery args (r0.runCountQuery d countQuery args w0).2).1.2 with
          | some countErr, _ =>
            some (Err.other ("Error executing count query with SQL: "
              ++ countQuery ++ ", args: " ++ fmtArgs args ++ ", error: " ++ countErr.Error))
          | none, some idsErr =>
            some (Err.other ("Error executing find query with SQL: "
              ++ idsQuery ++ ", args: " ++ fmtArgs args ++ ", error: " ++ idsErr.Error))
          | none, none => none) := by
  simp only [repository.executeFindQueryRun]
  split <;> simp_all

theorem wrapped_ne (pre : String) (hpre : pre.length > 0) (e : Err) :
    Err.other (pre ++ e.Error) ≠ e := by
  intro h
  have h2 := congrArg Err.Error h
  simp only [Err.Error] at h2
  have h3 := congrArg String.length h2
  rw [String.length_append] at h3
  omega

/-- C11, as the code has it: the error of a failed query is not handed on unchanged.
With `cq` the count query and `iq` the id query that `executeFindQuery` builds, and the store
in the state `s0` where the call's first statement runs: (1) if the store fails `cq` with an
error `e` other than `sql.ErrNoRows`, the call returns no ids, the count 0 and the new error
"Error executing count query with SQL: cq, args: ..., error: " followed by the message of `e`;
(2) if the store answers `cq` with a row or with `sql.ErrNoRows`, and then fails `iq` with an
error `e` other than `sql.ErrNoRows`, the call returns no ids, the count 0 and the new error
"Error executing find query with SQL: iq, args: ..., error: " followed by the message of `e`.
In both cases the error returned is a different error value from `e`. -/
theorem executeFindQuery_wraps_store_error {σ : Type} (d : Dbi σ) (r : repository)
    (body : String) (args : List Arg) (sortAndPagination : String)
    (whereClauses havingClauses : List String) (w : World σ) (e : Err)
    (hne : e ≠ Err.ErrNoRows) :
    ((d.Get (r.buildCountQuery (r.composeBody body whereClauses havingClauses)) args
          (r.readState d w)).1 = Except.error e →
      (r.executeFindQuery d body args sortAndPagination whereClauses havingClauses w).1
        = ([], 0, some (Err.other ("Error executing count query with SQL: "
            ++ r.buildCountQuery (r.composeBody body whereClauses havingClauses)
            ++ ", args: " ++ fmtArgs args ++ ", error: " ++ e.Error))) ∧
      (r.executeFindQuery d body args sortAndPagination whereClauses havingClauses w).1.2.2
        ≠ some e) ∧
    ((errOf (d.Get (r.buildCountQuery (r.composeBody body whereClauses havingClauses)) args
          (r.readState d w)).1 = none ∨
        errOf (d.Get (r.buildCountQuery (r.composeBody body whereClauses havingClauses)) args
          (r.readState d w)).1 = some Err.ErrNoRows) →
      (d.Select (r.composeBody body whereClauses havingClauses ++ sortAndPagination) args
          (d.Get (r.buildCountQuery (r.composeBody body whereClauses havingClauses)) args
            (r.readState d w)).2).1 = Except.error e →
      (r.executeFindQuery d body args sortAndPagination whereClauses havingClauses w).1
        = ([], 0, some (Err.other ("Error executing find query with SQL: "
            ++ (r.composeBody body whereClauses havingClauses ++ sortAndPagination)
            ++ ", args: " ++ fmtArgs args ++ ", error: " ++ e.Error))) ∧
      (r.executeFindQuery d body args sortAndPagination whereClauses havingClauses w).1.2.2
        ≠ some e) := by
  constructor
  · intro hget
    have hmain : (r.executeFindQuery d body args sortAndPagination whereClauses
        havingClauses w).1
        = ([], 0, some (Err.other ("Error executing count query with SQL: "
            ++ r.buildCountQuery (r.composeBody body whereClauses havingClauses)
            ++ ", args: " ++ fmtArgs args ++ ", error: " ++ e.Error))) := by
      apply executeFindQuery_of_run_error
      intro tx
      rw [executeFindQueryRun_error]
      have hc := (runCountQuery_inside d { r with tx := some tx } tx rfl
        (r.buildCountQuery (r.composeBody body whereClauses havingClauses)) args
        { db := r.readState d w,
          log := match r.tx with
            | some _ => w.log
            | none => w.log ++ [Call.Begin] }).2
      simp only [hget, errOf, hne, if_false] at hc
      rw [hc]
    refine ⟨hmain, ?_⟩
    rw [hmain]
    simp only [ne_eq, Option.some.injEq]
    refine wrapped_ne _ ?_ e
    rw [String.length_append]
    have hlen : ", error: ".length = 9 := by decide
    omega
  · intro hcount hsel
    have hmain : (r.executeFindQuery d body args sortAndPagination whereClauses
        havingClauses w).1
        = ([], 0, some (Err.other ("Error executing find query with SQL: "
            ++ (r.composeBody body whereClauses havingClauses ++ sortAndPagination)
            ++ ", args: " ++ fmtArgs args ++ ", error: " ++ e.Error))) := by
      apply executeFindQuery_of_run_error
      intro tx
      rw [executeFindQueryRun_error]
      obtain ⟨hdb, hc⟩ := runCountQuery_inside d { r with tx := some tx } tx rfl
        (r.buildCountQuery (r.composeBody body whereClauses havingClauses)) args
        { db := r.readState d w,
          log := match r.tx with
            | some _ => w.log
            | none => w.log ++ [Call.Begin] }
      have hc2 : (repository.runCountQuery d { r with tx := some tx }
          (r.buildCountQuery (r.composeBody body whereClauses havingClauses)) args
          { db := r.readState d w,
            log := match r.tx with
              | some _ => w.log
              | none => w.log ++ [Call.Begin] }).1.2 = none := by
        rw [hc]
        rcases hcount with h0 | h0 <;> simp [h0]
      have hi := runIdsQuery_inside d { r with tx := some tx } tx rfl
        (r.composeBody body whereClauses havingClauses ++ sortAndPagination) args
        (repository.runCountQuery d { r with tx := some tx }
          (r.buildCountQuery (r.composeBody body whereClauses havingClauses)) args
          { db := r.readState d w,
            log := match r.tx with
              | some _ => w.log
              | none => w.log ++ [Call.Begin] }).2
      rw [hdb] at hi
      simp only [hsel, errOf, hne, if_false] at hi
      rw [hc2, hi]
    refine ⟨hmain, ?_⟩
    rw [hmain]
    simp only [ne_eq, Option.some.injEq]
    refine wrapped_ne _ ?_ e
    rw [String.length_append]
    have hlen : ", error: ".length = 9 := by decide
    omega

/-- C11 on `sampleStore` failing its next statement with "disk I/O error": the count query
gets that error from the store, and `executeFindQuery` returns another error, whose message
wraps it. -/
theorem executeFindQuery_error_unchanged_counterexample :
    (tableDb.Get
        "SELECT COUNT(*) as count FROM (SELECT scenes.id FROM scenes GROUP BY scenes.id ) as temp"
        [Arg.int 3] failingWorld.db).1 = Except.error (Err.other "disk I/O error") ∧
    ((sampleStore.repo (some Tx.mk)).executeFindQuery tableDb "SELECT scenes.id FROM scenes"
        [Arg.int 3] "" [] [] failingWorld).1
      = ([], 0, some (Err.other ("Error executing count query with SQL: "
          ++ "SELECT COUNT(*) as count FROM (SELECT scenes.id FROM scenes GROUP BY scenes.id ) "
          ++ "as temp, args: [3], error: disk I/O error"))) ∧
    ((sampleStore.repo (some Tx.mk)).executeFindQuery tableDb "SELECT scenes.id FROM scenes"
        [Arg.int 3] "" [] [] failingWorld).1.2.2 ≠ some (Err.other "disk I/O error") := by
  refine ⟨rfl, by rfl, by decide⟩

/-- C11 as amended, on the same failing store. -/
theorem executeFindQuery_wraps_store_error_witness :
    ((sampleStore.repo (some Tx.mk)).executeFindQuery tableDb "SELECT scenes.id FROM scenes"
        [Arg.int 3] "" [] [] failingWorld).1
      = ([], 0, some (Err.other ("Error executing count query with SQL: "
          ++ "SELECT COUNT(*) as count FROM (SELECT scenes.id FROM scenes GROUP BY scenes.id ) "
          ++ "as temp, args: [3], error: disk I/O error"))) :=
  ((executeFindQuery_wraps_store_error tableDb (sampleStore.repo (some Tx.mk))
    "SELECT scenes.id FROM scenes" [Arg.int 3] "" [] [] failingWorld
    (Err.other "disk I/O error") (by decide)).1 rfl).1.trans (by rfl)

/-- C12, as the code has it: if the store fails the query of `runCountQuery` with an error
`e`, the call returns the count 0 with `e` when `e` is not `sql.ErrNoRows`, and the count 0
with no error when it is; likewise `runIdsQuery` returns the empty id list with `e`, or with
no error when `e` is `sql.ErrNoRows`. The store's state is the one in which the call's
statement runs. -/
theorem runQueries_propagate_all_but_no_rows {σ : Type} (d : Dbi σ) (r : repository)
    (query : String) (args : List Arg) (w : World σ) (e : Err) :
    ((d.Get query args (r.readState d w)).1 = Except.error e →
      (e ≠ Err.ErrNoRows → (r.runCountQuery d query args w).1 = (0, some e)) ∧
      (e = Err.ErrNoRows → (r.runCountQuery d query args w).1 = (0, none))) ∧
    ((d.Select query args (r.readState d w)).1 = Except.error e →
      (e ≠ Err.ErrNoRows → (r.runIdsQuery d query args w).1 = ([], some e)) ∧
      (e = Err.ErrNoRows → (r.runIdsQuery d query args w).1 = ([], none))) := by
  constructor
  · intro h
    have := runCountQuery_error d r query args w e h
    exact ⟨fun hne => by simpa [hne] using this, fun he => by simpa [he] using this⟩
  · intro h
    have := runIdsQuery_error d r query args w e h
    exact ⟨fun hne => by simpa [hne] using this, fun he => by simpa [he] using this⟩

/-- C12 on `sampleStore` answering `sql.ErrNoRows`: both helpers get that error from the
store and return a result with no error. -/
theorem runQueries_swallow_no_rows_counterexample :
    (tableDb.Get "SELECT scenes.id FROM scenes WHERE scenes.rating > ?" [Arg.int 5]
        noRowsWorld.db).1 = Except.error Err.ErrNoRows ∧
    ((sampleStore.repo (some Tx.mk)).runCountQuery tableDb
        "SELECT scenes.id FROM scenes WHERE scenes.rating > ?" [Arg.int 5] noRowsWorld).1
      = (0, none) ∧
    (tableDb.Select "SELECT scenes.id FROM scenes WHERE scenes.rating > ?" [Arg.int 5]
        noRowsWorld.db).1 = Except.error Err.ErrNoRows ∧
    ((sampleStore.repo (some Tx.mk)).runIdsQuery tableDb
        "SELECT scenes.id FROM scenes WHERE scenes.rating > ?" [Arg.int 5] noRowsWorld).1
      = ([], none) := by
  refine ⟨rfl, by decide, rfl, by decide⟩

/-- C12 as amended, on `sampleStore` failing with "disk I/O error": both helpers return
that error. -/
theorem runQueries_propagate_all_but_no_rows_witness :
    ((sampleStore.repo (some Tx.mk)).runCountQuery tableDb
        "SELECT scenes.id FROM scenes WHERE scenes.rating > ?" [Arg.int 5] failingWorld).1
      = (0, some (Err.other "disk I/O error")) ∧
    ((sampleStore.repo (some Tx.mk)).runIdsQuery tableDb
        "SELECT scenes.id FROM scenes WHERE scenes.rating > ?" [Arg.int 5] failingWorld).1
      = ([], some (Err.other "disk I/O error")) :=
  ⟨((runQueries_propagate_all_but_no_rows tableDb (sampleStore.repo (some Tx.mk))
      "SELECT scenes.id FROM scenes WHERE scenes.rating > ?" [Arg.int 5] failingWorld
      (Err.other "disk I/O error")).1 rfl).1 (by decide),
   ((runQueries_propagate_all_but_no_rows tableDb (sampleStore.repo (some Tx.mk))
      "SELECT scenes.id FROM scenes WHERE scenes.rating > ?" [Arg.int 5] failingWorld
      (Err.other "disk I/O error")).2 rfl).1 (by decide)⟩

theorem base64EncodeBytes_nil : GetBase64StringFromData [] = "" := rfl

theorem ToJSON_all_valid (ymd : String → String) (reader : PerformerReader) (p : Performer)
    (b : List Byte) (hvalid : p.allValid = true)
    (himage : reader.GetPerformerImage p.ID = Except.ok b) :
    ToJSON ymd reader (some p) = some (some
      { Name := p.Name.String, Gender := p.Gender.String, URL := p.URL.String,
        Twitter := p.Twitter.String, Instagram := p.Instagram.String,
        Birthdate := ymd p.Birthdate.String, Ethnicity := p.Ethnicity.String,
        Country := p.Country.String, EyeColor := p.EyeColor.String, Height := p.Height.String,
        Measurements := p.Measurements.String, FakeTits := p.FakeTits.String,
        CareerLength := p.CareerLength.String, Tattoos := p.Tattoos.String,
        Piercings := p.Piercings.String, Aliases := p.Aliases.String,
        Favorite := p.Favorite.Bool, Image := GetBase64StringFromData b,
        CreatedAt := { Time := p.CreatedAt.Timestamp },
        UpdatedAt := { Time := p.UpdatedAt.Timestamp }, Details := "" }, none) := by
  simp only [Performer.allValid, Bool.and_eq_true] at hvalid
  obtain ⟨⟨⟨⟨⟨⟨⟨⟨⟨⟨⟨⟨⟨⟨⟨⟨⟨h1, h2⟩, h3⟩, h4⟩, h5⟩, h6⟩, h7⟩, h8⟩, h9⟩, h10⟩, h11⟩, h12⟩, h13⟩,
    h14⟩, h15⟩, h16⟩, h17⟩, _⟩ := hvalid
  cases b with
  | nil =>
    simp [ToJSON, himage, h1, h2, h3, h4, h5, h6, h7, h8, h9, h10, h11, h12, h13, h14, h15, h16,
      h17, JSONPerformer.zero, base64EncodeBytes_nil]
  | cons x xs =>
    simp [ToJSON, himage, h1, h2, h3, h4, h5, h6, h7, h8, h9, h10, h11, h12, h13, h14, h15, h16,
      h17, JSONPerformer.zero]

/-- C13 at the first scenario of `TestToJSON`, the full performer 1 whose image lookup returns
the bytes "imageBytes": `ToJSON` returns, without error, the JSON performer the test expects
but for two fields: the birthdate is what `GetYMDFromDatabaseDate` makes of "2001-01-01", and
Details is empty where the stored value, and the expected JSON, is "details". The image is
"aW1hZ2VCeXRlcw==". -/
theorem ToJSON_full_performer_drops_details (ymd : String → String) (checksum : String) :
    ToJSON ymd mockPerformerReader (some (createFullPerformer 1 "testPerformer" checksum))
      = some (some { createFullJSONPerformer "testPerformer" "aW1hZ2VCeXRlcw==" with
                      Birthdate := ymd "2001-01-01", Details := "" }, none) ∧
    (createFullPerformer 1 "testPerformer" checksum).Details
      = { String := "details", Valid := true } ∧
    (createFullJSONPerformer "testPerformer" "aW1hZ2VCeXRlcw==").Details = "details" ∧
    ∀ j, ToJSON ymd mockPerformerReader (some (createFullPerformer 1 "testPerformer" checksum))
        = some (some j, none) →
      j ≠ createFullJSONPerformer "testPerformer" "aW1hZ2VCeXRlcw==" := by
  have hrun : ToJSON ymd mockPerformerReader
      (some (createFullPerformer 1 "testPerformer" checksum))
      = some (some { createFullJSONPerformer "testPerformer" "aW1hZ2VCeXRlcw==" with
                      Birthdate := ymd "2001-01-01", Details := "" }, none) := by
    rw [ToJSON_all_valid ymd mockPerformerReader
      (createFullPerformer 1 "testPerformer" checksum) imageBytes rfl rfl]
    have himg : GetBase64StringFromData imageBytes = "aW1hZ2VCeXRlcw==" := by decide
    rw [himg]
    rfl
  refine ⟨hrun, rfl, rfl, ?_⟩
  intro j hj
  rw [hrun] at hj
  simp only [Option.some.injEq, Prod.mk.injEq, and_true] at hj
  subst hj
  intro h
  have := congrArg JSONPerformer.Details h
  simp [createFullJSONPerformer] at this

/-- C14: `ToJSON` returns an error exactly when the reader's image lookup for the performer's
id returns one: on a lookup error `e` it returns no JSON object and the error "error getting
performers image: " followed by the message of `e`; on a lookup that succeeds it returns a
JSON object and no error. -/
theorem ToJSON_error_iff_image_error (ymd : String → String) (reader : PerformerReader)
    (p : Performer) :
    (∀ e, reader.GetPerformerImage p.ID = Except.error e →
      ToJSON ymd reader (some p)
        = some (none, some (Err.other ("error getting performers image: " ++ e.Error)))) ∧
    (∀ b, reader.GetPerformerImage p.ID = Except.ok b →
      ∃ j, ToJSON ymd reader (some p) = some (some j, none)) ∧
    ((∃ j e, ToJSON ymd reader (some p) = some (j, some e))
      ↔ ∃ e, reader.GetPerformerImage p.ID = Except.error e) ∧
    (∀ j e, ToJSON ymd reader (some p) = some (j, some e) → j = none) := by
  have herr : ∀ e, reader.GetPerformerImage p.ID = Except.error e →
      ToJSON ymd reader (some p)
        = some (none, some (Err.other ("error getting performers image: " ++ e.Error))) := by
    intro e he
    simp [ToJSON, he]
  have hok : ∀ b, reader.GetPerformerImage p.ID = Except.ok b →
      ∃ j, ToJSON ymd reader (some p) = some (some j, none) := by
    intro b hb
    simp [ToJSON, hb]
  refine ⟨herr, hok, ⟨?_, ?_⟩, ?_⟩
  · rintro ⟨j, e, h⟩
    cases hr : reader.GetPerformerImage p.ID with
    | error e0 => exact ⟨e0, rfl⟩
    | ok b =>
      obtain ⟨j0, h0⟩ := hok b hr
      rw [h0] at h
      simp at h
  · rintro ⟨e, he⟩
    exact ⟨none, _, herr e he⟩
  · intro j e h
    cases hr : reader.GetPerformerImage p.ID with
    | error e0 =>
      rw [herr e0 hr] at h
      simp only [Option.some.injEq, Prod.mk.injEq] at h
      exact h.1.symm
    | ok b =>
      obtain ⟨j0, h0⟩ := hok b hr
      rw [h0] at h
      simp at h

/-- C14 at the third scenario of `TestToJSON`: the lookup for performer 3 fails, and so does
`ToJSON`. -/
theorem ToJSON_error_iff_image_error_witness :
    ToJSON id mockPerformerReader (some (createFullPerformer 3 "testPerformer" ""))
      = some (none, some (Err.other "error getting performers image: error getting image")) :=
  ((ToJSON_error_iff_image_error id mockPerformerReader
    (createFullPerformer 3 "testPerformer" "")).1 (Err.other "error getting image") rfl).trans
    (by decide)

/-- C15: for a performer none of whose nullable fields is valid and whose image lookup returns
no bytes, `ToJSON` returns, without error, the zero JSON performer with CreatedAt and
UpdatedAt set to the performer's timestamps; its Image is the empty string. -/
theorem ToJSON_empty_performer (ymd : String → String) (reader : PerformerReader)
    (p : Performer) (hnone : p.noneValid = true)
    (himage : reader.GetPerformerImage p.ID = Except.ok []) :
    ToJSON ymd reader (some p) = some (some
      { JSONPerformer.zero with
        CreatedAt := { Time := p.CreatedAt.Timestamp },
        UpdatedAt := { Time := p.UpdatedAt.Timestamp } }, none) ∧
    ∀ j, ToJSON ymd reader (some p) = some (some j, none) → j.Image = "" := by
  simp only [Performer.noneValid, Bool.and_eq_true, Bool.not_eq_true'] at hnone
  obtain ⟨⟨⟨⟨⟨⟨⟨⟨⟨⟨⟨⟨⟨⟨⟨⟨⟨h1, h2⟩, h3⟩, h4⟩, h5⟩, h6⟩, h7⟩, h8⟩, h9⟩, h10⟩, h11⟩, h12⟩, h13⟩,
    h14⟩, h15⟩, h16⟩, h17⟩, _⟩ := hnone
  have hrun : ToJSON ymd reader (some p) = some (some
      { JSONPerformer.zero with
        CreatedAt := { Time := p.CreatedAt.Timestamp },
        UpdatedAt := { Time := p.UpdatedAt.Timestamp } }, none) := by
    simp [ToJSON, himage, h1, h2, h3, h4, h5, h6, h7, h8, h9, h10, h11, h12, h13, h14, h15, h16,
      h17]
  refine ⟨hrun, ?_⟩
  intro j hj
  rw [hrun] at hj
  simp only [Option.some.injEq, Prod.mk.injEq, and_true] at hj
  subst hj
  rfl

/-- C15 at the second scenario of `TestToJSON`: the empty performer 2, without an image, gives
the JSON performer that `createEmptyJSONPerformer` builds. -/
theorem ToJSON_empty_performer_witness :
    ToJSON id mockPerformerReader (some (createEmptyPerformer 2))
      = some (some createEmptyJSONPerformer, none) :=
  (ToJSON_empty_performer id mockPerformerReader (createEmptyPerformer 2) rfl rfl).1

theorem base64Index_base64Char : ∀ n, n < 64 → base64Index (base64Char n) = some n := by
  decide

theorem base64Char_plain : ∀ n, n < 64 →
    base64Char n ≠ '=' ∧ base64Char n ≠ ':' ∧ base64Char n ≠ ';' ∧ base64Char n ≠ '\n' ∧
      base64Char n ≠ '\r' := by
  decide

theorem base64_quantum (a b c : Byte) :
    (Fin.ofNat (a.val / 4 * 4 + (a.val % 4 * 16 + b.val / 16) / 16) : Byte) = a ∧
    (Fin.ofNat ((a.val % 4 * 16 + b.val / 16) % 16 * 16 + (b.val % 16 * 4 + c.val / 64) / 4)
      : Byte) = b ∧
    (Fin.ofNat ((b.val % 16 * 4 + c.val / 64) % 4 * 64 + c.val % 64) : Byte) = c := by
  have ha := a.isLt
  have hb := b.isLt
  have hc := c.isLt
  refine ⟨?_, ?_, ?_⟩ <;> apply Fin.ext <;> simp only [Fin.ofNat, Fin.val_mk] <;> omega

theorem base64DecodeQuanta_encode (d : List Byte) :
    base64DecodeQuanta (base64EncodeBytes d) = Except.ok d := by
  induction d using base64EncodeBytes.induct with
  | case1 => rfl
  | case2 a =>
    have ha := a.isLt
    have q := (base64_quantum a 0 0).1
    simp only [Fin.val_zero, Nat.zero_div, Nat.add_zero] at q
    simp only [base64EncodeBytes, base64DecodeQuanta,
      base64Index_base64Char (a.val / 4) (by omega),
      base64Index_base64Char (a.val % 4 * 16) (by omega), q, if_true, and_self]
  | case3 a b =>
    have ha := a.isLt
    have hb := b.isLt
    have q := base64_quantum a b 0
    simp only [Fin.val_zero, Nat.zero_div, Nat.add_zero] at q
    have hne := (base64Char_plain (b.val % 16 * 4) (by omega)).1
    simp only [base64EncodeBytes, base64DecodeQuanta,
      base64Index_base64Char (a.val / 4) (by omega),
      base64Index_base64Char (a.val % 4 * 16 + b.val / 16) (by omega),
      base64Index_base64Char (b.val % 16 * 4) (by omega), hne, q.1, q.2.1, if_true, if_false]
  | case4 a b c rest ih =>
    have ha := a.isLt
    have hb := b.isLt
    have hc := c.isLt
    have q := base64_quantum a b c
    have hne2 := (base64Char_plain (b.val % 16 * 4 + c.val / 64) (by omega)).1
    have hne3 := (base64Char_plain (c.val % 64) (by omega)).1
    simp only [base64EncodeBytes, base64DecodeQuanta,
      base64Index_base64Char (a.val / 4) (by omega),
      base64Index_base64Char (a.val % 4 * 16 + b.val / 16) (by omega),
      base64Index_base64Char (b.val % 16 * 4 + c.val / 64) (by omega),
      base64Index_base64Char (c.val % 64) (by omega), hne2, hne3, q.1, q.2.1, q.2.2, ih,
      if_false]

theorem base64EncodeBytes_plain (d : List Byte) :
    ∀ ch ∈ base64EncodeBytes d, ch ≠ ':' ∧ ch ≠ ';' ∧ ch ≠ '\n' ∧ ch ≠ '\r' := by
  induction d using base64EncodeBytes.induct with
  | case1 => intro ch h; simp [base64EncodeBytes] at h
  | case2 a =>
    have ha := a.isLt
    have p0 := base64Char_plain (a.val / 4) (by omega)
    have p1 := base64Char_plain (a.val % 4 * 16) (by omega)
    intro ch h
    simp only [base64EncodeBytes, List.mem_cons, List.mem_singleton, List.mem_nil_iff,
      or_false] at h
    rcases h with rfl | rfl | rfl | rfl
    · exact ⟨p0.2.1, p0.2.2.1, p0.2.2.2.1, p0.2.2.2.2⟩
    · exact ⟨p1.2.1, p1.2.2.1, p1.2.2.2.1, p1.2.2.2.2⟩
    · decide
    · decide
  | case3 a b =>
    have ha := a.isLt
    have hb := b.isLt
    have p0 := base64Char_plain (a.val / 4) (by omega)
    have p1 := base64Char_plain (a.val % 4 * 16 + b.val / 16) (by omega)
    have p2 := base64Char_plain (b.val % 16 * 4) (by omega)
    intro ch h
    simp only [base64EncodeBytes, List.mem_cons, List.mem_singleton, List.mem_nil_iff,
      or_false] at h
    rcases h with rfl | rfl | rfl | rfl
    · exact ⟨p0.2.1, p0.2.2.1, p0.2.2.2.1, p0.2.2.2.2⟩
    · exact ⟨p1.2.1, p1.2.2.1, p1.2.2.2.1, p1.2.2.2.2⟩
    · exact ⟨p2.2.1, p2.2.2.1, p2.2.2.2.1, p2.2.2.2.2⟩
    · decide
  | case4 a b c rest ih =>
    have ha := a.isLt
    have hb := b.isLt
    have hc := c.isLt
    have p0 := base64Char_plain (a.val / 4) (by omega)
    have p1 := base64Char_plain (a.val % 4 * 16 + b.val / 16) (by omega)
    have p2 := base64Char_plain (b.val % 16 * 4 + c.val / 64) (by omega)
    have p3 := base64Char_plain (c.val % 64) (by omega)
    intro ch h
    simp only [base64EncodeBytes, List.mem_cons] at h
    rcases h with rfl | rfl | rfl | rfl | h
    · exact ⟨p0.2.1, p0.2.2.1, p0.2.2.2.1, p0.2.2.2.2⟩
    · exact ⟨p1.2.1, p1.2.2.1, p1.2.2.2.1, p1.2.2.2.2⟩
    · exact ⟨p2.2.1, p2.2.2.1, p2.2.2.2.1, p2.2.2.2.2⟩
    · exact ⟨p3.2.1, p3.2.2.1, p3.2.2.2.1, p3.2.2.2.2⟩
    · exact ih ch h

theorem GetDataFromBase64String_roundtrip (d : List Byte) :
    GetDataFromBase64String (GetBase64StringFromData d) = Except.ok d := by
  have hfilter : (base64EncodeBytes d).filter (fun c => c != '\r' && c != '\n')
      = base64EncodeBytes d := by
    rw [List.filter_eq_self]
    intro ch hch
    obtain ⟨_, _, h3, h4⟩ := base64EncodeBytes_plain d ch hch
    simp [h3, h4]
  simp only [GetDataFromBase64String, GetBase64StringFromData, StdEncoding.DecodeString,
    StdEncoding.EncodeToString, hfilter]
  exact base64DecodeQuanta_encode d

theorem lastSplit_none_of_not_mem (c0 : Char) (p : List Char) (l : List Char)
    (h : c0 ∉ l) : lastSplit (c0 :: p) l = none := by
  induction l with
  | nil => rfl
  | cons c cs ih =>
    have hc : c0 ≠ c := fun hc => h (hc ▸ List.mem_cons_self _ _)
    have hcs : c0 ∉ cs := fun hcs => h (List.mem_cons_of_mem _ hcs)
    simp [lastSplit, ih hcs, List.isPrefixOf, hc]

theorem lastSplit_append (c0 : Char) (p before after : List Char)
    (h : c0 ∉ p ++ after) :
    lastSplit (c0 :: p) (before ++ (c0 :: p) ++ after) = some (before, after) := by
  induction before with
  | nil =>
    have hnone := lastSplit_none_of_not_mem c0 p (p ++ after) h
    have hpre : (c0 :: p).isPrefixOf (c0 :: (p ++ after)) = true := by
      rw [List.isPrefixOf_iff_prefix]
      exact ⟨after, by simp⟩
    simp [lastSplit, hnone, hpre]
  | cons b bs ih =>
    simp only [List.cons_append, List.append_assoc] at ih ⊢
    simp only [lastSplit, ih]

theorem lastSplit_slash_of_mem (l : List Char) (h : '/' ∈ l) :
    ∃ x y, lastSplit ['/'] l = some (x, y) := by
  induction l with
  | nil => simp at h
  | cons c cs ih =>
    cases hcs : lastSplit ['/'] cs with
    | some xy => exact ⟨c :: xy.1, xy.2, by simp [lastSplit, hcs]⟩
    | none =>
      have hc : c = '/' := by
        rcases List.mem_cons.1 h with h1 | h1
        · exact h1.symm
        · obtain ⟨x, y, hxy⟩ := ih h1
          rw [hxy] at hcs
          cases hcs
      subst hc
      exact ⟨[], cs, by simp [lastSplit, hcs, List.isPrefixOf]⟩

theorem FindStringSubmatch_dataURL (h0 : Char) (t s' : List Char) (sl : Char)
    (enc : List Char) (h0_nl : h0 ≠ '\n') (t_nl : '\n' ∉ t) (s_nl : '\n' ∉ s') (sl_nl : sl ≠ '\n')
    (henc : ∀ ch ∈ enc, ch ≠ ':' ∧ ch ≠ ';' ∧ ch ≠ '\n' ∧ ch ≠ '\r') :
    ∃ group1, base64RE.FindStringSubmatch
        (String.mk ("data:".data ++ (h0 :: t ++ '/' :: (s' ++ [sl])) ++ ";base64,".data ++ enc))
      = [String.mk ("data:".data ++ (h0 :: t ++ '/' :: (s' ++ [sl])) ++ ";base64,".data ++ enc),
          group1, String.mk enc] := by
  have enc_nl : '\n' ∉ enc := fun h => (henc _ h).2.2.1 rfl
  have hsplit : lastSplit [';', 'b', 'a', 's', 'e', '6', '4', ',']
      (h0 :: (t ++ '/' :: (s' ++ sl :: ';' :: 'b' :: 'a' :: 's' :: 'e' :: '6' :: '4' :: ','
        :: enc)))
      = some (h0 :: (t ++ '/' :: (s' ++ [sl])), enc) := by
    have h := lastSplit_append ';' ['b', 'a', 's', 'e', '6', '4', ',']
      (h0 :: (t ++ '/' :: (s' ++ [sl]))) enc (by
        intro hmem
        rcases List.mem_append.1 hmem with h | h
        · revert h
          decide
        · exact (henc ';' h).2.1 rfl)
    simpa using h
  obtain ⟨x, y, hxy⟩ := lastSplit_slash_of_mem (t ++ '/' :: s') (by simp)
  have htail : (t ++ '/' :: (s' ++ [sl])).dropLast = t ++ '/' :: s' := by
    have : t ++ '/' :: (s' ++ [sl]) = (t ++ '/' :: s') ++ [sl] := by simp
    rw [this, List.dropLast_concat]
  have hlast : (t ++ '/' :: (s' ++ [sl])).getLast? = some sl := by
    have : t ++ '/' :: (s' ++ [sl]) = (t ++ '/' :: s') ++ [sl] := by simp
    rw [this, List.getLast?_append]
    simp
  have hdata : ("data:" : String).data = ['d', 'a', 't', 'a', ':'] := rfl
  have hpat : (";base64," : String).data = [';', 'b', 'a', 's', 'e', '6', '4', ','] := rfl
  refine ⟨String.mk (y ++ [sl]), ?_⟩
  simp only [base64RE.FindStringSubmatch, hdata, hpat, List.cons_append, List.nil_append,
    List.append_assoc, List.isPrefixOf, beq_self_eq_true, Bool.and_self, Bool.true_and,
    if_true, List.drop_succ_cons, List.drop_zero, List.any_cons, List.any_append]
  rw [hsplit]
  simp only [htail, hlast, hxy]
  have ht : (t.any fun c => c == '\n') = false := by
    rw [List.any_eq_false]
    intro ch hch h
    exact t_nl ((eq_of_beq h) ▸ hch)
  have hs : (s'.any fun c => c == '\n') = false := by
    rw [List.any_eq_false]
    intro ch hch h
    exact s_nl ((eq_of_beq h) ▸ hch)
  have he : (enc.any fun c => c == '\n') = false := by
    rw [List.any_eq_false]
    intro ch hch h
    exact enc_nl ((eq_of_beq h) ▸ hch)
  have h1 : (h0 == '\n') = false := by simpa using h0_nl
  have h2 : (sl == '\n') = false := by simpa using sl_nl
  simp [ht, hs, he, h1, h2]

theorem base64EncodeBytes_ne_nil (d : List Byte) (hd : d ≠ []) : base64EncodeBytes d ≠ [] := by
  match d, hd with
  | [_], _ => simp [base64EncodeBytes]
  | [_, _], _ => simp [base64EncodeBytes]
  | _ :: _ :: _ :: _, _ => simp [base64EncodeBytes]

theorem FindStringSubmatch_plain (d : List Byte) :
    base64RE.FindStringSubmatch (GetBase64StringFromData d) = [] := by
  have hpre : ("data:" : String).data.isPrefixOf (base64EncodeBytes d) = false := by
    rw [Bool.eq_false_iff]
    intro h
    rw [List.isPrefixOf_iff_prefix] at h
    have hmem : ':' ∈ base64EncodeBytes d := h.subset (by decide)
    exact (base64EncodeBytes_plain d ':' hmem).1 rfl
  simp [base64RE.FindStringSubmatch, GetBase64StringFromData, StdEncoding.EncodeToString, hpre]

/-- C16: (1) for a non-empty byte sequence `d`, `ProcessBase64Image` applied to
`GetBase64StringFromData(d)` returns the MD5 hash of `d`, the bytes `d` and no error; (2) so
it does, for every `d`, when that encoding comes after a data-URL header
`data:<type>/<subtype>;base64,` whose type and subtype are not empty and hold no line feed;
(3) applied to the empty string it returns an error. The hash function is any `md5`. -/
theorem ProcessBase64Image_roundtrip (md5 : List Byte → String) (d : List Byte) :
    (d ≠ [] → ProcessBase64Image md5 (GetBase64StringFromData d) = (md5 d, d, none)) ∧
    (∀ ty sub : String, ty ≠ "" → sub ≠ "" → '\n' ∉ ty.data → '\n' ∉ sub.data →
      ProcessBase64Image md5
          ("data:" ++ ty ++ "/" ++ sub ++ ";base64," ++ GetBase64StringFromData d)
        = (md5 d, d, none)) ∧
    ProcessBase64Image md5 "" = ("", [], some (Err.other "empty image string")) := by
  refine ⟨?_, ?_, by simp [ProcessBase64Image]⟩
  · intro hd
    have hne : GetBase64StringFromData d ≠ "" := by
      intro h
      have := congrArg String.data h
      exact base64EncodeBytes_ne_nil d hd this
    simp [ProcessBase64Image, hne, FindStringSubmatch_plain, GetDataFromBase64String_roundtrip]
  · intro ty sub hty hsub hty_nl hsub_nl
    obtain ⟨h0, t, hty_data⟩ : ∃ h0 t, ty.data = h0 :: t := by
      cases hdata : ty.data with
      | nil => exact absurd (String.ext hdata) hty
      | cons h0 t => exact ⟨h0, t, rfl⟩
    obtain ⟨s', sl, hsub_data⟩ : ∃ s' sl, sub.data = s' ++ [sl] := by
      rcases List.eq_nil_or_concat sub.data with h | ⟨s', sl, h⟩
      · exact absurd (String.ext h) hsub
      · exact ⟨s', sl, by simpa using h⟩
    rw [hty_data] at hty_nl
    rw [hsub_data] at hsub_nl
    have hs : "data:" ++ ty ++ "/" ++ sub ++ ";base64," ++ GetBase64StringFromData d
        = String.mk ("data:".data ++ (h0 :: t ++ '/' :: (s' ++ [sl])) ++ ";base64,".data
            ++ base64EncodeBytes d) := by
      apply String.ext
      have hslash : ("/" : String).data = ['/'] := rfl
      simp [String.data_append, hty_data, hsub_data, hslash, GetBase64StringFromData,
        StdEncoding.EncodeToString]
    obtain ⟨g1, hfound⟩ := FindStringSubmatch_dataURL h0 t s' sl (base64EncodeBytes d)
      (fun h => hty_nl (h ▸ List.mem_cons_self _ _))
      (fun h => hty_nl (List.mem_cons_of_mem _ h))
      (fun h => hsub_nl (List.mem_append_left _ h))
      (fun h => hsub_nl (by rw [h]; simp))
      (base64EncodeBytes_plain d)
    have hne : String.mk ("data:".data ++ (h0 :: t ++ '/' :: (s' ++ [sl])) ++ ";base64,".data
        ++ base64EncodeBytes d) ≠ "" := by
      intro h
      have := congrArg String.data h
      simp at this
    have hdec := GetDataFromBase64String_roundtrip d
    simp only [GetBase64StringFromData, StdEncoding.EncodeToString] at hdec
    rw [hs]
    generalize String.mk ("data:".data ++ (h0 :: t ++ '/' :: (s' ++ [sl])) ++ ";base64,".data
        ++ base64EncodeBytes d) = whole at hfound hne
    unfold ProcessBase64Image
    rw [if_neg hne]
    simp [hfound, hdec]

/-- C16 on the bytes "imageBytes", bare and behind the header `data:image/png;base64,`. -/
theorem ProcessBase64Image_roundtrip_witness :
    ProcessBase64Image (fun b => toString b.length) "aW1hZ2VCeXRlcw=="
      = ("10", imageBytes, none) ∧
    ProcessBase64Image (fun b => toString b.length) "data:image/png;base64,aW1hZ2VCeXRlcw=="
      = ("10", imageBytes, none) := by
  have h := ProcessBase64Image_roundtrip (fun b => toString b.length) imageBytes
  have henc : GetBase64StringFromData imageBytes = "aW1hZ2VCeXRlcw==" := by decide
  have h1 := h.1 (by decide)
  have h2 := h.2.1 "image" "png" (by decide) (by decide) (by decide) (by decide)
  rw [henc] at h1 h2
  exact ⟨h1, h2⟩

theorem sceneIsMissing_galleries (k : ForeignKeyColumns) (qb : repository)
    (f : filterBuilder) :
    sceneIsMissingCriterionHandler k qb (some "galleries") f
      = ((sceneQueryBuilder.galleriesRepository k qb).repository.join f "galleries_join"
          "scenes.id").addWhere "galleries_join.scene_id IS NULL" [] := rfl

theorem sceneIsMissing_movie (k : ForeignKeyColumns) (qb : repository) (f : filterBuilder) :
    sceneIsMissingCriterionHandler k qb (some "movie") f
      = ((sceneQueryBuilder.moviesRepository qb).join f "movies_join"
          "scenes.id").addWhere "movies_join.scene_id IS NULL" [] := rfl

theorem sceneIsMissing_performers (k : ForeignKeyColumns) (qb : repository)
    (f : filterBuilder) :
    sceneIsMissingCriterionHandler k qb (some "performers") f
      = ((sceneQueryBuilder.performersRepository k qb).repository.join f "performers_join"
          "scenes.id").addWhere "performers_join.scene_id IS NULL" [] := rfl

theorem sceneIsMissing_tags (k : ForeignKeyColumns) (qb : repository) (f : filterBuilder) :
    sceneIsMissingCriterionHandler k qb (some "tags") f
      = ((sceneQueryBuilder.tagsRepository k qb).repository.join f "tags_join"
          "scenes.id").addWhere "tags_join.scene_id IS NULL" [] := rfl

theorem sceneIsMissing_stash_id (k : ForeignKeyColumns) (qb : repository)
    (f : filterBuilder) :
    sceneIsMissingCriterionHandler k qb (some "stash_id") f
      = ((sceneQueryBuilder.stashIDRepository qb).join f "scene_stash_ids"
          "scenes.id").addWhere "scene_stash_ids.scene_id IS NULL" [] := rfl

theorem join_addWhere (r : repository) (f : filterBuilder) (A sql : String) (hA : A ≠ "")
    (hsql : sql ≠ "") :
    (r.join f A "scenes.id").addWhere sql []
      = { joins := if f.joins.any (fun j => j.alias == A) then f.joins
            else f.joins ++ [{ table := r.tableName, as := A,
                               onClause := A ++ "." ++ r.idColumn ++ " = " ++ "scenes.id" }],
          whereClauses := f.whereClauses ++ [{ sql := sql, args := [] }],
          havingClauses := f.havingClauses } := by
  have hal : ∀ t o : String, ({ table := t, as := A, onClause := o } : join).alias = A := by
    intro t o
    simp [join.alias, hA]
  cases hreg : (f.joins.any fun j => j.alias == A)
  · simp only [repository.join, filterBuilder.addJoin, filterBuilder.addWhere, hal,
      if_pos hA, if_neg hsql, hreg, Bool.false_eq_true, if_false]
  · simp only [repository.join, filterBuilder.addJoin, filterBuilder.addWhere, hal,
      if_pos hA, if_neg hsql, hreg, if_true]

/-- C18: for each relationship kind (galleries, movie, performers, tags, stash_id) with its
association table and alias `A`, `sceneIsMissingCriterionHandler` given that kind registers
the join of the table under `A` on `A.scene_id = scenes.id` (unless a join is registered
under `A` already), adds the one where-clause `A.scene_id IS NULL` with no bound arguments,
and adds no having-clause; on a builder that holds nothing these are the only join and the
only clause. Given nil or the empty string it returns the builder as it was. -/
theorem sceneIsMissing_relationship (k : ForeignKeyColumns) (qb : repository)
    (f : filterBuilder) :
    (∀ kind table A, (kind, table, A) ∈ missingRelationships →
      sceneIsMissingCriterionHandler k qb (some kind) f
        = { joins := if f.joins.any (fun j => j.alias == A) then f.joins
              else f.joins ++ [{ table := table, as := A,
                                 onClause := A ++ ".scene_id = scenes.id" }],
            whereClauses := f.whereClauses ++ [{ sql := A ++ ".scene_id IS NULL", args := [] }],
            havingClauses := f.havingClauses } ∧
      sceneIsMissingCriterionHandler k qb (some kind) emptyFilter
        = { joins := [{ table := table, as := A, onClause := A ++ ".scene_id = scenes.id" }],
            whereClauses := [{ sql := A ++ ".scene_id IS NULL", args := [] }],
            havingClauses := [] }) ∧
    sceneIsMissingCriterionHandler k qb none f = f ∧
    sceneIsMissingCriterionHandler k qb (some "") f = f := by
  refine ⟨?_, rfl, rfl⟩
  intro kind table A hmem
  simp only [missingRelationships, List.mem_cons, Prod.mk.injEq, List.mem_nil_iff,
    or_false] at hmem
  rcases hmem with ⟨rfl, rfl, rfl⟩ | ⟨rfl, rfl, rfl⟩ | ⟨rfl, rfl, rfl⟩ | ⟨rfl, rfl, rfl⟩ |
    ⟨rfl, rfl, rfl⟩
  · exact ⟨(sceneIsMissing_galleries k qb f).trans
      (join_addWhere _ f "galleries_join" "galleries_join.scene_id IS NULL" (by decide)
        (by decide)), rfl⟩
  · exact ⟨(sceneIsMissing_movie k qb f).trans
      (join_addWhere _ f "movies_join" "movies_join.scene_id IS NULL" (by decide)
        (by decide)), rfl⟩
  · exact ⟨(sceneIsMissing_performers k qb f).trans
      (join_addWhere _ f "performers_join" "performers_join.scene_id IS NULL" (by decide)
        (by decide)), rfl⟩
  · exact ⟨(sceneIsMissing_tags k qb f).trans
      (join_addWhere _ f "tags_join" "tags_join.scene_id IS NULL" (by decide)
        (by decide)), rfl⟩
  · exact ⟨(sceneIsMissing_stash_id k qb f).trans
      (join_addWhere _ f "scene_stash_ids" "scene_stash_ids.scene_id IS NULL" (by decide)
        (by decide)), rfl⟩


/-- C18 at the kind `tags` on an empty filter builder: the table `scenes_tags` is joined as
`tags_join` on `scenes.id`, and the one where-clause is `tags_join.scene_id IS NULL`. -/
theorem sceneIsMissing_relationship_witness :
    ("tags", "scenes_tags", "tags_join") ∈ missingRelationships ∧
    sceneIsMissingCriterionHandler sampleForeignKeys (sampleStore.repo none) (some "tags")
        emptyFilter
      = { joins := [{ table := "scenes_tags", as := "tags_join",
                      onClause := "tags_join.scene_id = scenes.id" }],
          whereClauses := [{ sql := "tags_join.scene_id IS NULL", args := [] }],
          havingClauses := [] } :=
  ⟨by decide,
   ((sceneIsMissing_relationship sampleForeignKeys (sampleStore.repo none) emptyFilter).1
      "tags" "scenes_tags" "tags_join" (by decide)).2⟩

theorem missingClause_ne_empty (s : String) :
    "(scenes." ++ s ++ " IS NULL OR TRIM(scenes." ++ s ++ ") = '')" ≠ "" := by
  intro h
  have hl := congrArg String.length h
  simp only [String.length_append] at hl
  have h1 : "(scenes.".length = 8 := by decide
  have h2 : "".length = 0 := by decide
  omega

theorem missingClause_injective (s s2 : String)
    (h : "(scenes." ++ s ++ " IS NULL OR TRIM(scenes." ++ s ++ ") = '')"
      = "(scenes." ++ s2 ++ " IS NULL OR TRIM(scenes." ++ s2 ++ ") = '')") : s = s2 := by
  have hd := congrArg String.data h
  simp only [String.data_append, List.append_assoc] at hd
  have hl := congrArg List.length hd
  simp only [List.length_append] at hl
  have hlen : s.data.length = s2.data.length := by omega
  have h1 := List.append_cancel_left hd
  exact String.ext (List.append_inj h1 hlen).1

theorem sceneIsMissing_default (k : ForeignKeyColumns) (qb : repository) (f : filterBuilder)
    (s : String) (hne : s ≠ "") (hs : s ∉ recognisedMissing) :
    sceneIsMissingCriterionHandler k qb (some s) f
      = { f with whereClauses := f.whereClauses ++
            [{ sql := "(scenes." ++ s ++ " IS NULL OR TRIM(scenes." ++ s ++ ") = '')",
               args := [] }] } := by
  simp only [recognisedMissing, List.mem_cons, List.mem_nil_iff, or_false, not_or] at hs
  obtain ⟨h1, h2, h3, h4, h5, h6, h7⟩ := hs
  simp only [sceneIsMissingCriterionHandler]
  rw [if_pos hne, if_neg h1, if_neg h2, if_neg h3, if_neg h4, if_neg h5, if_neg h6, if_neg h7]
  simp only [filterBuilder.addWhere]
  rw [if_neg (missingClause_ne_empty s)]


/-- C17, as claimed, fails: `rating` and `title` are both unrecognised, yet the handler
contributes a different SQL text for each, and each text contains the string it was given;
a string that closes the parenthesis is spliced in as it is. -/
theorem sceneIsMissing_same_sql_counterexample :
    "rating" ∉ recognisedMissing ∧ "title" ∉ recognisedMissing ∧
    (sceneIsMissingCriterionHandler sampleForeignKeys (sampleStore.repo none) (some "rating")
        emptyFilter).whereClauses
      = [{ sql := "(scenes.rating IS NULL OR TRIM(scenes.rating) = '')", args := [] }] ∧
    (sceneIsMissingCriterionHandler sampleForeignKeys (sampleStore.repo none) (some "title")
        emptyFilter).whereClauses
      = [{ sql := "(scenes.title IS NULL OR TRIM(scenes.title) = '')", args := [] }] ∧
    (sceneIsMissingCriterionHandler sampleForeignKeys (sampleStore.repo none) (some "rating")
        emptyFilter).whereClauses
      ≠ (sceneIsMissingCriterionHandler sampleForeignKeys (sampleStore.repo none)
          (some "title") emptyFilter).whereClauses ∧
    (sceneIsMissingCriterionHandler sampleForeignKeys (sampleStore.repo none)
        (some "id IS NULL OR 1=1) --") emptyFilter).whereClauses
      = [{ sql := "(scenes.id IS NULL OR 1=1) -- IS NULL OR TRIM(scenes.id IS NULL OR 1=1) --) = '')",
           args := [] }] := by
  refine ⟨by decide, by decide, rfl, rfl, ?_, rfl⟩
  intro h
  have h2 : (sceneIsMissingCriterionHandler sampleForeignKeys (sampleStore.repo none)
      (some "rating") emptyFilter).whereClauses
      = [{ sql := "(scenes.rating IS NULL OR TRIM(scenes.rating) = '')", args := [] }] := rfl
  have h3 : (sceneIsMissingCriterionHandler sampleForeignKeys (sampleStore.repo none)
      (some "title") emptyFilter).whereClauses
      = [{ sql := "(scenes.title IS NULL OR TRIM(scenes.title) = '')", args := [] }] := rfl
  rw [h2, h3] at h
  revert h
  decide

/-- C17, amended: the SQL text that `sceneIsMissingCriterionHandler` contributes is a fixed
text only for the recognised names. For every other string `s` that is not empty the handler
registers no join and no having-clause and adds the one where-clause
`(scenes.<s> IS NULL OR TRIM(scenes.<s>) = '')`, in which the string it was given stands
twice as it is, with no bound argument; so two unrecognised values contribute the same SQL
text only when they are the same string. -/
theorem sceneIsMissing_unrecognised_splices_input (k : ForeignKeyColumns) (qb : repository)
    (f : filterBuilder) (s s2 : String) (hne : s ≠ "") (hs : s ∉ recognisedMissing)
    (hne2 : s2 ≠ "") (hs2 : s2 ∉ recognisedMissing) :
    sceneIsMissingCriterionHandler k qb (some s) f
      = { joins := f.joins,
          whereClauses := f.whereClauses ++
            [{ sql := "(scenes." ++ s ++ " IS NULL OR TRIM(scenes." ++ s ++ ") = '')",
               args := [] }],
          havingClauses := f.havingClauses } ∧
    (sceneIsMissingCriterionHandler k qb (some s) f
      = sceneIsMissingCriterionHandler k qb (some s2) f ↔ s = s2) := by
  refine ⟨sceneIsMissing_default k qb f s hne hs, ?_⟩
  constructor
  · intro h
    rw [sceneIsMissing_default k qb f s hne hs, sceneIsMissing_default k qb f s2 hne2 hs2] at h
    have hw := congrArg filterBuilder.whereClauses h
    simp only [List.append_cancel_left_eq, List.cons.injEq, sqlClause.mk.injEq, and_true] at hw
    exact missingClause_injective s s2 hw
  · intro h
    rw [h]

/-- C17 (amended) at `rating` and `title` on an empty filter builder. -/
theorem sceneIsMissing_unrecognised_splices_input_witness :
    "rating" ≠ "" ∧ "rating" ∉ recognisedMissing ∧ "title" ≠ "" ∧
    "title" ∉ recognisedMissing ∧
    sceneIsMissingCriterionHandler sampleForeignKeys (sampleStore.repo none) (some "rating")
        emptyFilter
      = { joins := [],
          whereClauses := [{ sql := "(scenes.rating IS NULL OR TRIM(scenes.rating) = '')",
                             args := [] }],
          havingClauses := [] } ∧
    (sceneIsMissingCriterionHandler sampleForeignKeys (sampleStore.repo none) (some "rating")
        emptyFilter
      = sceneIsMissingCriterionHandler sampleForeignKeys (sampleStore.repo none)
          (some "title") emptyFilter ↔ "rating" = "title") :=
  ⟨by decide, by decide, by decide, by decide,
   sceneIsMissing_unrecognised_splices_input sampleForeignKeys (sampleStore.repo none)
     emptyFilter "rating" "title" (by decide) (by decide) (by decide) (by decide)⟩


theorem rowOfStruct_fields (m : MoviesScenes) : rowOfStruct m.fields = m.row := by
  have h1 : tagKey "movie_id" = "movie_id" := by decide
  have h2 : tagKey "scene_id" = "scene_id" := by decide
  have h3 : tagKey "scene_index" = "scene_index" := by decide
  have n1 : "movie_id" ≠ "id" := by decide
  have n2 : "scene_id" ≠ "id" := by decide
  have n3 : "scene_index" ≠ "id" := by decide
  simp [rowOfStruct, MoviesScenes.fields, MoviesScenes.row, List.filter, h1, h2, h3, n1, n2, n3,
    FieldValue.bound]

theorem rowHasId_row (m : MoviesScenes) (id : Int) :
    rowHasId sceneIDColumn id m.row = decide (m.SceneID = id) := by
  have n : ("scene_id" == "movie_id") = false := by decide
  have e : ("scene_id" == "scene_id") = true := by decide
  simp only [rowHasId, MoviesScenes.row, sceneIDColumn, List.lookup, n, e]
  by_cases h : m.SceneID = id
  · simp [h]
  · simp [h]

theorem txExec_assocDb_delete (st : TableStore) (log : List Call) (id : Int)
    (hnf : st.noFaults) :
    txExec assocDb Tx.mk ("DELETE FROM " ++ st.tableName ++ " WHERE " ++ st.idColumn ++ " = ?")
        [Arg.int id] { db := st, log := log } =
      (Except.ok { lastInsertId := Except.ok 0 },
        { db := { st.step with rows := st.rows.filter (fun row => !st.hasId id row) },
          log := log ++ [Call.Exec
            ("DELETE FROM " ++ st.tableName ++ " WHERE " ++ st.idColumn ++ " = ?")
            [Arg.int id]] }) := by
  simp [txExec, assocDb, tableDb, TableStore.Exec, st.nextFault_of_noFaults hnf]

theorem insert_assocDb (st : TableStore) (log : List Call) (obj : List StructField)
    (hnf : st.noFaults) :
    ∃ res log1, (st.repo (some Tx.mk)).insert assocDb obj { db := st, log := log }
      = some (Except.ok res,
          { db := { st.step with rows := st.rows ++ [rowOfStruct obj] }, log := log1 }) := by
  refine ⟨{ lastInsertId := Except.ok ((st.rows.length : Int) + 1) },
    log ++ [Call.NamedExec ("INSERT INTO " ++ st.tableName ++ " (" ++ listKeys obj false
      ++ ") VALUES (" ++ listKeys obj true ++ ")") (NamedArg.struct obj)], ?_⟩
  simp only [repository.insert, TableStore.repo, txNamedExec, assocDb, TableStore.Insert,
    st.nextFault_of_noFaults hnf, if_true]

theorem UpdateMoviesLoop_ok (sceneID : Int) (movies : List MoviesScenes) :
    ∀ (st : TableStore) (log : List Call), st.noFaults →
      ∃ st1 log1, sceneQueryBuilder.UpdateMoviesLoop assocDb (st.repo (some Tx.mk)) sceneID
          movies { db := st, log := log } = some (none, { db := st1, log := log1 }) ∧
        st1.rows = st.rows ++ movies.map (fun m => ({ m with SceneID := sceneID }).row) := by
  induction movies with
  | nil =>
    intro st log _
    exact ⟨st, log, rfl, by simp⟩
  | cons m rest ih =>
    intro st log hnf
    obtain ⟨res, log1, hins⟩ := insert_assocDb st log
      ({ m with SceneID := sceneID } : MoviesScenes).fields hnf
    obtain ⟨st2, log2, e1, e2⟩ := ih
      { st.step with rows := st.rows ++
          [rowOfStruct ({ m with SceneID := sceneID } : MoviesScenes).fields] }
      log1 (st.noFaults_step hnf)
    refine ⟨st2, log2, ?_, ?_⟩
    · unfold sceneQueryBuilder.UpdateMoviesLoop
      simp only [hins]
      exact e1
    · rw [e2, rowOfStruct_fields]
      simp [TableStore.step]


theorem ownedBy_append (id : Int) (a b : List Row) :
    ownedBy id (a ++ b) = ownedBy id a ++ ownedBy id b := by
  simp [ownedBy]

theorem ownedBy_new (id sceneID : Int) (movies : List MoviesScenes) :
    ownedBy id (movies.map (fun m => ({ m with SceneID := sceneID } : MoviesScenes).row))
      = if sceneID = id then
          movies.map (fun m => ({ m with SceneID := sceneID } : MoviesScenes).row)
        else [] := by
  induction movies with
  | nil => simp [ownedBy]
  | cons m rest ih =>
    simp only [ownedBy] at ih
    by_cases h : sceneID = id
    · simp only [h, if_true] at ih ⊢
      simp only [ownedBy, List.map_cons, List.filter_cons, rowHasId_row, decide_True, if_true, ih]
    · simp only [h, if_false] at ih ⊢
      simp only [ownedBy, List.map_cons, List.filter_cons, rowHasId_row, h, decide_False, ih]
      simp

theorem ownedBy_rest (id sceneID : Int) (rows : List Row) :
    ownedBy id (rows.filter (fun row => !rowHasId sceneIDColumn sceneID row))
      = if sceneID = id then [] else ownedBy id rows := by
  by_cases h : sceneID = id
  · subst h
    simp [ownedBy, List.filter_filter]
  · simp only [h, if_false, ownedBy, List.filter_filter]
    apply List.filter_congr
    intro row _
    by_cases hr : rowHasId sceneIDColumn id row = true
    · have hne : rowHasId sceneIDColumn sceneID row = false := by
        simp only [rowHasId, beq_iff_eq] at hr
        simp only [rowHasId, hr, beq_eq_false_iff_ne, ne_eq, Option.some.injEq, Arg.int.injEq]
        exact fun e => h e.symm
      simp [hr, hne]
    · simp [hr]

theorem UpdateMovies_ok (st : TableStore) (qb : repository) (sceneID : Int)
    (movies : List MoviesScenes) (log : List Call)
    (htab : st.tableName = moviesScenesTable) (hid : st.idColumn = sceneIDColumn)
    (hnf : st.noFaults) (htx : qb.tx ≠ none) :
    ∃ st1 log1, sceneQueryBuilder.UpdateMovies assocDb qb sceneID movies { db := st, log := log }
        = some (none, { db := st1, log := log1 }) ∧
      st1.rows = st.rows.filter (fun row => !rowHasId sceneIDColumn sceneID row)
        ++ movies.map (fun m => ({ m with SceneID := sceneID } : MoviesScenes).row) := by
  have hrepo : sceneQueryBuilder.moviesRepository qb = st.repo (some Tx.mk) := by
    cases hq : qb.tx with
    | none => exact absurd hq htx
    | some tx => simp [sceneQueryBuilder.moviesRepository, TableStore.repo, htab, hid, hq]
  obtain ⟨st1, log1, e1, e2⟩ := UpdateMoviesLoop_ok sceneID movies
    { st.step with rows := st.rows.filter (fun row => !st.hasId sceneID row) }
    (log ++ [Call.Exec ("DELETE FROM " ++ st.tableName ++ " WHERE " ++ st.idColumn ++ " = ?")
      [Arg.int sceneID]]) (st.noFaults_step hnf)
  refine ⟨st1, log1, ?_, ?_⟩
  · unfold sceneQueryBuilder.UpdateMovies
    simp only [hrepo]
    unfold repository.destroy
    simp only [TableStore.repo]
    rw [txExec_assocDb_delete st log sceneID hnf]
    simp only [repository.destroy]
    simp only [TableStore.repo, TableStore.step] at e1
    simp only [TableStore.step]
    exact e1
  · rw [e2]
    simp [TableStore.step, TableStore.hasId, hid]


/-- C19: over the reference store holding the table `movies_scenes`, inside a transaction and
with no statement failing, `UpdateMovies(sceneID, movies)` returns no error, and afterwards
the rows owned by `sceneID` are exactly the rows of the input movies, one per input element
and in input order (so duplicates are kept and an empty input leaves none), each with its
`SceneID` overwritten to `sceneID`; the rows owned by every other scene are those from before
the call. -/
theorem UpdateMovies_replaces_owned_rows (st : TableStore) (qb : repository) (sceneID : Int)
    (movies : List MoviesScenes) (log : List Call)
    (htab : st.tableName = moviesScenesTable) (hid : st.idColumn = sceneIDColumn)
    (hnf : st.noFaults) (htx : qb.tx ≠ none) :
    ∃ w1, sceneQueryBuilder.UpdateMovies assocDb qb sceneID movies { db := st, log := log }
        = some (none, w1) ∧
      ownedBy sceneID w1.db.rows
        = movies.map (fun m => ({ m with SceneID := sceneID } : MoviesScenes).row) ∧
      (ownedBy sceneID w1.db.rows).length = movies.length ∧
      (movies = [] → ownedBy sceneID w1.db.rows = []) ∧
      (∀ other : Int, other ≠ sceneID → ownedBy other w1.db.rows = ownedBy other st.rows) := by
  obtain ⟨st1, log1, e1, e2⟩ := UpdateMovies_ok st qb sceneID movies log htab hid hnf htx
  have hown : ownedBy sceneID st1.rows
      = movies.map (fun m => ({ m with SceneID := sceneID } : MoviesScenes).row) := by
    rw [e2, ownedBy_append, ownedBy_rest, ownedBy_new]
    simp
  refine ⟨{ db := st1, log := log1 }, e1, hown, ?_, ?_, ?_⟩
  · simp only [hown, List.length_map]
  · intro hnil
    simp only [hown, hnil, List.map_nil]
  · intro other hne
    simp only [e2, ownedBy_append, ownedBy_rest, ownedBy_new, if_neg (Ne.symm hne),
      List.append_nil]

/-- C19 at `sampleMovies`: replacing the movies of scene 1 by `sampleNewMovies` leaves the
row of scene 2 where it was and stores the three new rows, the duplicate included, under
scene 1. -/
theorem UpdateMovies_replaces_owned_rows_witness :
    sampleMovies.tableName = moviesScenesTable ∧ sampleMovies.idColumn = sceneIDColumn ∧
    sampleMovies.noFaults ∧ (sampleMovies.repo (some Tx.mk)).tx ≠ none ∧
    ∃ w1, sceneQueryBuilder.UpdateMovies assocDb (sampleMovies.repo (some Tx.mk)) 1
        sampleNewMovies { db := sampleMovies, log := [] } = some (none, w1) ∧
      ownedBy 1 w1.db.rows
        = [[("movie_id", Arg.int 12), ("scene_id", Arg.int 1), ("scene_index", Arg.int 3)],
           [("movie_id", Arg.int 12), ("scene_id", Arg.int 1), ("scene_index", Arg.int 3)],
           [("movie_id", Arg.int 10), ("scene_id", Arg.int 1), ("scene_index", Arg.null)]] ∧
      ownedBy 2 w1.db.rows
        = [[("movie_id", Arg.int 10), ("scene_id", Arg.int 2), ("scene_index", Arg.null)]] := by
  have hnf : sampleMovies.noFaults := by
    intro f hf
    simp [sampleMovies] at hf
  obtain ⟨w1, h1, h2, _, _, h5⟩ := UpdateMovies_replaces_owned_rows sampleMovies
    (sampleMovies.repo (some Tx.mk)) 1 sampleNewMovies [] rfl rfl hnf (by decide)
  refine ⟨rfl, rfl, hnf, by decide, w1, h1, ?_, ?_⟩
  · rw [h2]
    rfl
  · rw [h5 2 (by decide)]
    rfl


theorem rollbackAndReturn_log {σ : Type} (env : StudioDeps σ) (err : Err) (s : σ)
    (log : List Call) (res : Option Studio × Option Err) (w1 : World σ)
    (h : rollbackAndReturn env err s log = some (res, w1)) :
    w1.log = log ++ [Call.Rollback] ∧ res = (none, some err) := by
  simp only [rollbackAndReturn, Option.some.injEq, Prod.mk.injEq] at h
  obtain ⟨h1, h2⟩ := h
  subst h2
  exact ⟨rfl, h1.symm⟩

theorem saveStashIDsAndCommit_log {σ : Type} (env : StudioDeps σ) (id : Int)
    (stashIds : Option (List StashIDInput)) (studio : Studio) (s : σ) (log : List Call)
    (res : Option Studio × Option Err) (w1 : World σ)
    (h : saveStashIDsAndCommit env id stashIds studio s log = some (res, w1)) :
    w1.log = log ++ [Call.Commit] ∨
      (w1.log = log ∧ ∃ ids e, stashIds = some ids ∧
        env.UpdateStudioStashIDs id (stashIDJoins ids) s = (some e, w1.db) ∧
        res = (none, some e)) := by
  unfold saveStashIDsAndCommit at h
  cases stashIds with
  | none =>
    simp only at h
    cases hc : env.Commit s with
    | mk ce s2 =>
      rw [hc] at h
      cases ce with
      | none =>
        simp only [Option.some.injEq, Prod.mk.injEq] at h
        exact Or.inl (by rw [← h.2])
      | some err =>
        simp only [Option.some.injEq, Prod.mk.injEq] at h
        exact Or.inl (by rw [← h.2])
  | some ids =>
    simp only at h
    cases hu : env.UpdateStudioStashIDs id (stashIDJoins ids) s with
    | mk ue s1 =>
      rw [hu] at h
      cases ue with
      | some e =>
        simp only [Option.some.injEq, Prod.mk.injEq] at h
        exact Or.inr ⟨by rw [← h.2], ids, e, rfl, by rw [← h.2]; exact hu, h.1.symm⟩
      | none =>
        simp only at h
        cases hc : env.Commit s1 with
        | mk ce s2 =>
          rw [hc] at h
          cases ce with
          | none =>
            simp only [Option.some.injEq, Prod.mk.injEq] at h
            exact Or.inl (by rw [← h.2])
          | some err =>
            simp only [Option.some.injEq, Prod.mk.injEq] at h
            exact Or.inl (by rw [← h.2])


theorem StudioCreate_paths {σ : Type} (env : StudioDeps σ) (input : StudioCreateInput)
    (w : World σ) (res : Option Studio × Option Err) (w1 : World σ)
    (h : mutationResolver.StudioCreate env input w = some (res, w1)) :
    (w1 = w ∧ ∃ e, res = (none, some e)) ∨
    w1.log = w.log ++ [Call.Begin, Call.Commit] ∨
    (w1.log = w.log ++ [Call.Begin, Call.Rollback] ∧ ∃ e, res = (none, some e)) ∨
    (w1.log = w.log ++ [Call.Begin] ∧ ∃ id ids s e, input.StashIds = some ids ∧
      env.UpdateStudioStashIDs id (stashIDJoins ids) s = (some e, w1.db) ∧
      res = (none, some e)) := by
  simp only [mutationResolver.StudioCreate] at h
  split at h
  · simp only [Option.some.injEq, Prod.mk.injEq] at h
    exact Or.inl ⟨h.2.symm, _, h.1.symm⟩
  · split at h
    · exact absurd h (by simp)
    · split at h
      · obtain ⟨h1, h2⟩ := rollbackAndReturn_log env _ _ _ res w1 h
        exact Or.inr (Or.inr (Or.inl ⟨by simp [h1], _, h2⟩))
      · split at h
        · obtain ⟨h1, h2⟩ := rollbackAndReturn_log env _ _ _ res w1 h
          exact Or.inr (Or.inr (Or.inl ⟨by simp [h1], _, h2⟩))
        · rcases saveStashIDsAndCommit_log env _ _ _ _ _ res w1 h with h1 |
            ⟨h1, ids, e, h2, h3, h4⟩
          · exact Or.inr (Or.inl (by simp [h1]))
          · exact Or.inr (Or.inr (Or.inr ⟨h1, _, ids, _, e, h2, h3, h4⟩))


theorem StudioUpdate_paths {σ : Type} (env : StudioDeps σ) (input : StudioUpdateInput)
    (w : World σ) (res : Option Studio × Option Err) (w1 : World σ)
    (h : mutationResolver.StudioUpdate env input w = some (res, w1)) :
    (w1 = w ∧ ∃ e, res = (none, some e)) ∨
    w1.log = w.log ++ [Call.Begin, Call.Commit] ∨
    (w1.log = w.log ++ [Call.Begin, Call.Rollback] ∧ ∃ e, res = (none, some e)) ∨
    (w1.log = w.log ++ [Call.Begin] ∧ ∃ id ids s e, input.StashIds = some ids ∧
      env.UpdateStudioStashIDs id (stashIDJoins ids) s = (some e, w1.db) ∧
      res = (none, some e)) := by
  simp only [mutationResolver.StudioUpdate] at h
  split at h
  · simp only [Option.some.injEq, Prod.mk.injEq] at h
    exact Or.inl ⟨h.2.symm, _, h.1.symm⟩
  · split at h
    · exact absurd h (by simp)
    · split at h
      · obtain ⟨h1, h2⟩ := rollbackAndReturn_log env _ _ _ res w1 h
        exact Or.inr (Or.inr (Or.inl ⟨by simp [h1], _, h2⟩))
      · split at h
        · obtain ⟨h1, h2⟩ := rollbackAndReturn_log env _ _ _ res w1 h
          exact Or.inr (Or.inr (Or.inl ⟨by simp [h1], _, h2⟩))
        · split at h
          · obtain ⟨h1, h2⟩ := rollbackAndReturn_log env _ _ _ res w1 h
            exact Or.inr (Or.inr (Or.inl ⟨by simp [h1], _, h2⟩))
          · rcases saveStashIDsAndCommit_log env _ _ _ _ _ res w1 h with h1 |
              ⟨h1, ids, e, h2, h3, h4⟩
            · exact Or.inr (Or.inl (by simp [h1]))
            · exact Or.inr (Or.inr (Or.inr ⟨h1, _, ids, _, e, h2, h3, h4⟩))

theorem saveStashIDsAndCommit_returns {σ : Type} (env : StudioDeps σ) (id : Int)
    (stashIds : Option (List StashIDInput)) (studio : Studio) (s : σ) (log : List Call) :
    (saveStashIDsAndCommit env id stashIds studio s log).isSome = true := by
  have hc : ∀ s1 : σ, (match env.Commit s1 with
      | (some err, s2) =>
        some (((none : Option Studio), some err), ({ db := s2, log := log ++ [Call.Commit] } : World σ))
      | (none, s2) =>
        some ((some studio, none), { db := s2, log := log ++ [Call.Commit] })).isSome = true := by
    intro s1
    split <;> rfl
  unfold saveStashIDsAndCommit
  cases stashIds with
  | none => exact hc s
  | some ids =>
    simp only
    split
    · rfl
    · exact hc _

theorem StudioCreate_returns {σ : Type} (env : StudioDeps σ) (input : StudioCreateInput)
    (w : World σ) (hb : (env.MustBeginTx w.db).isSome = true) :
    (mutationResolver.StudioCreate env input w).isSome = true := by
  simp only [mutationResolver.StudioCreate]
  split
  · rfl
  · split
    · rename_i hnone
      rw [hnone] at hb
      exact absurd hb (by simp)
    · split
      · rfl
      · split
        · rfl
        · exact saveStashIDsAndCommit_returns _ _ _ _ _ _

theorem StudioUpdate_returns {σ : Type} (env : StudioDeps σ) (input : StudioUpdateInput)
    (w : World σ) (hb : (env.MustBeginTx w.db).isSome = true) :
    (mutationResolver.StudioUpdate env input w).isSome = true := by
  simp only [mutationResolver.StudioUpdate]
  split
  · rfl
  · split
    · rename_i hnone
      rw [hnone] at hb
      exact absurd hb (by simp)
    · split
      · rfl
      · split
        · rfl
        · split
          · rfl
          · exact saveStashIDsAndCommit_returns _ _ _ _ _ _


/-- C20: the claim fails on the code. Whenever `MustBeginTx` does not panic `StudioCreate` and
`StudioUpdate` return, and every return is of one of four kinds: (1) an error before the
transaction is begun, the world untouched; (2) `Begin` then one `Commit`; (3) `Begin` then one
`Rollback`, with an error; (4) `Begin` and neither `Commit` nor `Rollback`: this is the
return taken when `UpdateStudioStashIDs` fails, where the input has stash ids and the error
returned is the one of `UpdateStudioStashIDs`. So on every path but the failure of the stash
ids exactly one of `Commit` and `Rollback` has been called, and on that path none. -/
theorem Studio_mutations_end_transaction_but_stash_ids {σ : Type} (env : StudioDeps σ)
    (w : World σ) :
    (∀ input : StudioCreateInput, (env.MustBeginTx w.db).isSome = true →
      (mutationResolver.StudioCreate env input w).isSome = true) ∧
    (∀ input : StudioUpdateInput, (env.MustBeginTx w.db).isSome = true →
      (mutationResolver.StudioUpdate env input w).isSome = true) ∧
    (∀ (input : StudioCreateInput) (res : Option Studio × Option Err) (w1 : World σ),
      mutationResolver.StudioCreate env input w = some (res, w1) →
        (w1 = w ∧ ∃ e, res = (none, some e)) ∨
        w1.log = w.log ++ [Call.Begin, Call.Commit] ∨
        (w1.log = w.log ++ [Call.Begin, Call.Rollback] ∧ ∃ e, res = (none, some e)) ∨
        (w1.log = w.log ++ [Call.Begin] ∧ ∃ id ids s e, input.StashIds = some ids ∧
          env.UpdateStudioStashIDs id (stashIDJoins ids) s = (some e, w1.db) ∧
          res = (none, some e))) ∧
    (∀ (input : StudioUpdateInput) (res : Option Studio × Option Err) (w1 : World σ),
      mutationResolver.StudioUpdate env input w = some (res, w1) →
        (w1 = w ∧ ∃ e, res = (none, some e)) ∨
        w1.log = w.log ++ [Call.Begin, Call.Commit] ∨
        (w1.log = w.log ++ [Call.Begin, Call.Rollback] ∧ ∃ e, res = (none, some e)) ∨
        (w1.log = w.log ++ [Call.Begin] ∧ ∃ id ids s e, input.StashIds = some ids ∧
          env.UpdateStudioStashIDs id (stashIDJoins ids) s = (some e, w1.db) ∧
          res = (none, some e))) :=
  ⟨fun input hb => StudioCreate_returns env input w hb,
   fun input hb => StudioUpdate_returns env input w hb,
   fun input res w1 h => StudioCreate_paths env input w res w1 h,
   fun input res w1 h => StudioUpdate_paths env input w res w1 h⟩

/-- C20 at the failing inputs: with stash ids in the input and `UpdateStudioStashIDs`
failing, `StudioCreate` and `StudioUpdate` return the error while the log holds the `Begin`
alone: the transaction, with the writes made in it, is neither committed nor rolled back. -/
theorem Studio_mutations_end_transaction_but_stash_ids_witness :
    mutationResolver.StudioCreate sampleStudioDeps failingCreateInput studioWorld
      = some ((none, some (Err.other "stash ids not saved")),
          { db := ["create", "stash ids"], log := [Call.Begin] }) ∧
    mutationResolver.StudioUpdate sampleStudioDeps failingUpdateInput studioWorld
      = some ((none, some (Err.other "stash ids not saved")),
          { db := ["update", "stash ids"], log := [Call.Begin] }) ∧
    transactionEnds [Call.Begin] = 0 ∧
    ((({ db := ["create", "stash ids"], log := [Call.Begin] } : World (List String))
          = studioWorld ∧
        ∃ e, ((none : Option Studio), some (Err.other "stash ids not saved")) = (none, some e)) ∨
      [Call.Begin] = studioWorld.log ++ [Call.Begin, Call.Commit] ∨
      ([Call.Begin] = studioWorld.log ++ [Call.Begin, Call.Rollback] ∧
        ∃ e, ((none : Option Studio), some (Err.other "stash ids not saved")) = (none, some e)) ∨
      ([Call.Begin] = studioWorld.log ++ [Call.Begin] ∧ ∃ id ids s e,
        failingCreateInput.StashIds = some ids ∧
        sampleStudioDeps.UpdateStudioStashIDs id (stashIDJoins ids) s
          = (some e, ["create", "stash ids"]) ∧
        ((none : Option Studio), some (Err.other "stash ids not saved")) = (none, some e))) :=
  ⟨rfl, rfl, rfl,
   (Studio_mutations_end_transaction_but_stash_ids sampleStudioDeps studioWorld).2.2.1
     failingCreateInput _ _ rfl⟩


theorem listKeysLoop_eq (addPrefix : Bool) (obj : List StructField) (acc : List String) :
    listKeysLoop addPrefix obj acc
      = acc ++ ((obj.map (fun f => tagKey f.tag)).filter (fun key => decide (key ≠ "id"))).map
          (fun key => if addPrefix then ":" ++ key else key) := by
  induction obj generalizing acc with
  | nil => simp [listKeysLoop]
  | cons f rest ih =>
    by_cases hk : tagKey f.tag = "id"
    · simp only [listKeysLoop, hk, if_true, ih]
      simp [hk]
    · simp only [listKeysLoop, hk, if_false, ih]
      simp [hk]

theorem tagKey_isTextBeforeFirstComma (tag : String) :
    isTextBeforeFirstComma (tagKey tag) tag := by
  constructor
  · intro hmem
    have := List.mem_takeWhile_imp hmem
    simp at this
  · have hsplit := List.takeWhile_append_dropWhile (fun ch => ch != ',') tag.data
    cases hd : tag.data.dropWhile (fun ch => ch != ',') with
    | nil =>
      left
      apply String.ext
      rw [hd, List.append_nil] at hsplit
      exact hsplit.symm
    | cons c rest =>
      right
      have hc : c = ',' := by
        have hh := List.head_dropWhile_not (fun ch => ch != ',') tag.data
          (by rw [hd]; simp)
        simp only [hd, List.head_cons] at hh
        simpa using hh
      refine ⟨String.mk rest, ?_⟩
      apply String.ext
      rw [hd, hc] at hsplit
      simp only [String.data_append, tagKey]
      rw [List.append_assoc]
      exact hsplit.symm

theorem append_comma_cancel (l1 l2 r1 r2 : List Char) (h1 : ',' ∉ l1) (h2 : ',' ∉ l2)
    (h : l1 ++ ',' :: r1 = l2 ++ ',' :: r2) : l1 = l2 := by
  induction l1 generalizing l2 with
  | nil =>
    cases l2 with
    | nil => rfl
    | cons b l2 =>
      simp only [List.nil_append, List.cons_append, List.cons.injEq] at h
      exact absurd (h.1 ▸ List.mem_cons_self _ _) h2
  | cons a l1 ih =>
    cases l2 with
    | nil =>
      simp only [List.nil_append, List.cons_append, List.cons.injEq] at h
      exact absurd (h.1 ▸ List.mem_cons_self _ _) h1
    | cons b l2 =>
      simp only [List.cons_append, List.cons.injEq] at h
      rw [h.1, ih l2 (fun hm => h1 (List.mem_cons_of_mem _ hm))
        (fun hm => h2 (List.mem_cons_of_mem _ hm)) h.2]

theorem isTextBeforeFirstComma_unique (name name2 tag : String)
    (h1 : isTextBeforeFirstComma name tag) (h2 : isTextBeforeFirstComma name2 tag) :
    name = name2 := by
  obtain ⟨hn1, ht1⟩ := h1
  obtain ⟨hn2, ht2⟩ := h2
  rcases ht1 with e1 | ⟨r1, e1⟩
  · rcases ht2 with e2 | ⟨r2, e2⟩
    · exact e1.symm.trans e2
    · exfalso
      apply hn1
      rw [← e1, e2]
      simp [String.data_append]
  · rcases ht2 with e2 | ⟨r2, e2⟩
    · exfalso
      apply hn2
      rw [← e2, e1]
      simp [String.data_append]
    · apply String.ext
      have hd := congrArg String.data (e1.symm.trans e2)
      simp only [String.data_append, List.append_assoc] at hd
      exact append_comma_cancel _ _ r1.data r2.data hn1 hn2 hd

theorem isColumnNames_tagKey (obj : List StructField) :
    isColumnNames obj
      ((obj.map (fun f => tagKey f.tag)).filter (fun key => decide (key ≠ "id"))) := by
  refine ⟨obj.map (fun f => tagKey f.tag), ?_, rfl⟩
  induction obj with
  | nil => exact List.Forall₂.nil
  | cons f rest ih => exact List.Forall₂.cons (tagKey_isTextBeforeFirstComma f.tag) ih

theorem isColumnNames_unique (obj : List StructField) (columns columns2 : List String)
    (h1 : isColumnNames obj columns) (h2 : isColumnNames obj columns2) :
    columns = columns2 := by
  obtain ⟨names, hf1, rfl⟩ := h1
  obtain ⟨names2, hf2, rfl⟩ := h2
  have hnames : names = names2 := by
    clear * - hf1 hf2
    induction hf1 generalizing names2 with
    | nil =>
      cases hf2
      rfl
    | cons hab _ ih =>
      cases hf2 with
      | cons hab2 hrest =>
        rw [isTextBeforeFirstComma_unique _ _ _ hab hab2, ih _ hrest]
  rw [hnames]

/-- C21: for every record there is exactly one list `columns` of the db-tag names of the
fields (for each field the text before the first comma of its tag), in declaration order,
those named `id` left out; `listKeys(obj, false)` is the `", "`-joined `columns` and
`listKeys(obj, true)` is the joined list of the same names, each prefixed by `:`. The two
lists that are joined have the same length and the entry at each position of the second is
`:` followed by the entry at that position of the first; the statement that `insert` sends is
`INSERT INTO <table> (<first list>) VALUES (<second list>)`. -/
theorem listKeys_columns_and_placeholders (obj : List StructField) :
    ∃ columns : List String,
      isColumnNames obj columns ∧
      (∀ other, isColumnNames obj other → other = columns) ∧
      listKeysLoop false obj [] = columns ∧
      listKeysLoop true obj [] = columns.map (fun key => ":" ++ key) ∧
      listKeys obj false = String.intercalate ", " columns ∧
      listKeys obj true = String.intercalate ", " (columns.map (fun key => ":" ++ key)) ∧
      (listKeysLoop true obj []).length = (listKeysLoop false obj []).length ∧
      (∀ i : Nat, (listKeysLoop true obj [])[i]?
        = ((listKeysLoop false obj [])[i]?).map (fun key => ":" ++ key)) ∧
      (∀ (σ : Type) (d : Dbi σ) (tx : Tx) (table idColumn : String) (w : World σ),
        repository.insert d { tx := some tx, tableName := table, idColumn := idColumn } obj w
          = some (txNamedExec d tx
              ("INSERT INTO " ++ table ++ " (" ++ String.intercalate ", " columns
                ++ ") VALUES ("
                ++ String.intercalate ", " (columns.map (fun key => ":" ++ key)) ++ ")")
              (NamedArg.struct obj) w)) := by
  have h1 : listKeysLoop false obj []
      = (obj.map (fun f => tagKey f.tag)).filter (fun key => decide (key ≠ "id")) := by
    rw [listKeysLoop_eq]
    simp
  have h2 : listKeysLoop true obj []
      = ((obj.map (fun f => tagKey f.tag)).filter (fun key => decide (key ≠ "id"))).map
          (fun key => ":" ++ key) := by
    rw [listKeysLoop_eq]
    simp
  refine ⟨_, isColumnNames_tagKey obj,
    fun other ho => isColumnNames_unique obj _ _ ho (isColumnNames_tagKey obj),
    h1, h2, by rw [listKeys, h1], by rw [listKeys, h2], ?_, ?_, ?_⟩
  · rw [h1, h2, List.length_map]
  · intro i
    rw [h1, h2, List.getElem?_map]
  · intro σ d tx table idColumn w
    simp only [repository.insert, listKeys, h1, h2]

/-- C21 at `sampleSceneRecord`: the field tagged `rating,omitempty` is listed as `rating`
(the whole tag is not the text before its first comma), the field tagged `id` is left out,
and the names keep the order of the fields. -/
theorem listKeys_columns_and_placeholders_witness :
    isTextBeforeFirstComma "rating" "rating,omitempty" ∧
    ¬ isTextBeforeFirstComma "rating,omitempty" "rating,omitempty" ∧
    isColumnNames sampleSceneRecord ["title", "rating", "url"] ∧
    listKeysLoop false sampleSceneRecord [] = ["title", "rating", "url"] ∧
    listKeysLoop true sampleSceneRecord [] = [":title", ":rating", ":url"] ∧
    listKeys sampleSceneRecord false = "title, rating, url" ∧
    listKeys sampleSceneRecord true = ":title, :rating, :url" := by
  have hcol : isColumnNames sampleSceneRecord ["title", "rating", "url"] :=
    ⟨["id", "title", "rating", "url"],
      List.Forall₂.cons ⟨by decide, Or.inl rfl⟩
        (List.Forall₂.cons ⟨by decide, Or.inl rfl⟩
          (List.Forall₂.cons ⟨by decide, Or.inr ⟨"omitempty", rfl⟩⟩
            (List.Forall₂.cons ⟨by decide, Or.inl rfl⟩ List.Forall₂.nil))),
      by decide⟩
  obtain ⟨columns, _, huniq, h3, h4, h5, h6, _⟩ :=
    listKeys_columns_and_placeholders sampleSceneRecord
  have hc : ["title", "rating", "url"] = columns := huniq _ hcol
  subst hc
  refine ⟨⟨by decide, Or.inr ⟨"omitempty", rfl⟩⟩, fun h => h.1 (by decide), hcol, h3, h4,
    h5.trans (by decide), h6.trans (by decide)⟩


theorem listKeys_sampleSceneRecord :
    listKeys sampleSceneRecord false = "title, rating, url" ∧
    listKeys sampleSceneRecord true = ":title, :rating, :url" := by
  decide


theorem placeholders_append (a b : String) :
    placeholders (a ++ b) = placeholders a + placeholders b := by
  simp [placeholders, String.data_append, List.count_append]

theorem placeholders_intercalate_go (s c : String) (n : Nat) (acc : String) :
    placeholders (String.intercalate.go acc s (List.replicate n c))
      = placeholders acc + n * (placeholders s + placeholders c) := by
  induction n generalizing acc with
  | zero => simp [String.intercalate.go]
  | succ n ih =>
    simp only [List.replicate_succ, String.intercalate.go, ih, placeholders_append]
    ring

theorem placeholders_intercalate_replicate (s c : String) (n : Nat) :
    placeholders (String.intercalate s (List.replicate (n + 1) c))
      = placeholders c + n * (placeholders s + placeholders c) := by
  simp only [List.replicate_succ, String.intercalate, placeholders_intercalate_go]

theorem autoTagLoop_eq (sep : Char) (P : List String) (acc : List String × List Arg) :
    autoTagLoop sep P acc
      = (acc.1 ++ List.replicate P.length "scenes.path like ?",
         acc.2 ++ P.map (fun p => Arg.str (withSeparator sep p ++ "%"))) := by
  induction P generalizing acc with
  | nil => simp [autoTagLoop]
  | cons p rest ih =>
    obtain ⟨pathClauses, args⟩ := acc
    simp only [autoTagLoop, ih, withSeparator, List.length_cons, List.replicate_succ,
      List.map_cons, List.append_assoc, List.singleton_append]
    by_cases h : HasSuffix p (String.singleton sep) = true
    · simp [h]
    · simp [h]


theorem Find_log_inside {σ : Type} (d : Dbi σ) (qb : repository) (tx : Tx)
    (htx : qb.tx = some tx) (id : Int) (w : World σ) :
    ∃ tail, (sceneQueryBuilder.Find d qb id w).2.log = w.log ++ tail := by
  rcases hg : d.Get ("SELECT * FROM " ++ qb.tableName ++ " WHERE " ++ qb.idColumn
    ++ " = ? LIMIT 1") [Arg.int id] w.db with ⟨res, s1⟩
  refine ⟨[Call.Get ("SELECT * FROM " ++ qb.tableName ++ " WHERE " ++ qb.idColumn
    ++ " = ? LIMIT 1") [Arg.int id]], ?_⟩
  cases res with
  | ok row =>
    simp [sceneQueryBuilder.Find, sceneQueryBuilder.find, repository.get,
      repository.wrapReadOnly, htx, txGet, hg]
  | error e =>
    simp only [sceneQueryBuilder.Find, sceneQueryBuilder.find, repository.get,
      repository.wrapReadOnly, htx, txGet, hg]
    split_ifs <;> rfl

theorem QueryForAutoTagFind_log {σ : Type} (d : Dbi σ) (qb : repository) (tx : Tx)
    (htx : qb.tx = some tx) (ids : List Int) :
    ∀ (scenes : List (Option Row)) (w : World σ),
      ∃ tail, (sceneQueryBuilder.QueryForAutoTagFind d qb ids scenes w).2.log
        = w.log ++ tail := by
  induction ids with
  | nil =>
    intro scenes w
    exact ⟨[], by simp [sceneQueryBuilder.QueryForAutoTagFind]⟩
  | cons id rest ih =>
    intro scenes w
    obtain ⟨t1, h1⟩ := Find_log_inside d qb tx htx id w
    rcases hf : sceneQueryBuilder.Find d qb id w with ⟨⟨scene, err⟩, w1⟩
    rw [hf] at h1
    cases err with
    | some e =>
      exact ⟨t1, by simp only [sceneQueryBuilder.QueryForAutoTagFind, hf]; exact h1⟩
    | none =>
      obtain ⟨t2, h2⟩ := ih (scenes ++ [scene]) w1
      refine ⟨t1 ++ t2, ?_⟩
      simp only [sceneQueryBuilder.QueryForAutoTagFind, hf, h2]
      simp only at h1
      rw [h1, List.append_assoc]

theorem QueryForAutoTag_log {σ : Type} (d : Dbi σ) (sel : String → String) (sep : Char)
    (qb : repository) (tx : Tx) (htx : qb.tx = some tx) (regex : String) (P : List String)
    (w : World σ) :
    ∃ tail, (sceneQueryBuilder.QueryForAutoTag d sel sep qb regex P w).2.log
      = w.log ++ Call.Select (sceneQueryBuilder.QueryForAutoTagQuery sel sep regex P).1
          (sceneQueryBuilder.QueryForAutoTagQuery sel sep regex P).2 :: tail := by
  have hlog := runIdsQuery_log d qb tx htx
    (sceneQueryBuilder.QueryForAutoTagQuery sel sep regex P).1
    (sceneQueryBuilder.QueryForAutoTagQuery sel sep regex P).2 w
  rcases hr : qb.runIdsQuery d (sceneQueryBuilder.QueryForAutoTagQuery sel sep regex P).1
    (sceneQueryBuilder.QueryForAutoTagQuery sel sep regex P).2 w with ⟨⟨ids, err⟩, w1⟩
  rw [hr] at hlog
  simp only at hlog
  cases err with
  | some e =>
    exact ⟨[], by simp only [sceneQueryBuilder.QueryForAutoTag, hr]; exact hlog⟩
  | none =>
    obtain ⟨t2, h2⟩ := QueryForAutoTagFind_log d qb tx htx ids [] w1
    refine ⟨t2, ?_⟩
    simp only [sceneQueryBuilder.QueryForAutoTag, hr, h2, hlog]
    simp


theorem HasSuffix_append (p s : String) : HasSuffix (p ++ s) s = true := by
  simp [HasSuffix, String.data_append]

theorem HasSuffix_withSeparator (sep : Char) (p : String) :
    HasSuffix (withSeparator sep p) (String.singleton sep) = true := by
  unfold withSeparator
  by_cases h : HasSuffix p (String.singleton sep) = true
  · simp [h]
  · simp only [h]
    exact HasSuffix_append p _

/-- C22: for every regex `r` and list `P` of path prefixes, the query that `QueryForAutoTag`
builds and runs (inside a transaction, the first call it makes on the database is the
`Select` of that query) has the bound arguments `"(?i)" ++ r` followed, for each prefix `p` of
`P` in order, by `p1 ++ "%"`, where `p1` is `p` when `p` ends with the path separator and
`p ++ separator` otherwise, so that `p1` always ends with the separator. The SQL text is the
select of the scene ids with the conditions `scenes.path regexp ?` and
`scenes.organized = 0`, followed, if and only if `P` is not empty, by ` AND (` and the
` OR `-joined list of one `scenes.path like ?` per prefix and `)`. Apart from what
`selectDistinctIDs` writes, the text has `1 + len(P)` placeholders. -/
theorem QueryForAutoTag_builds_query {σ : Type} (d : Dbi σ) (sel : String → String)
    (sep : Char) (qb : repository) (tx : Tx) (regex : String) (P : List String) (w : World σ)
    (htx : qb.tx = some tx) (hsel : placeholders (sel "scenes") = 0) :
    (∃ tail, (sceneQueryBuilder.QueryForAutoTag d sel sep qb regex P w).2.log
      = w.log ++ Call.Select (sceneQueryBuilder.QueryForAutoTagQuery sel sep regex P).1
          (sceneQueryBuilder.QueryForAutoTagQuery sel sep regex P).2 :: tail) ∧
    (sceneQueryBuilder.QueryForAutoTagQuery sel sep regex P).2
      = Arg.str ("(?i)" ++ regex) :: P.map (fun p => Arg.str (withSeparator sep p ++ "%")) ∧
    (∀ p ∈ P, HasSuffix (withSeparator sep p) (String.singleton sep) = true ∧
      (HasSuffix p (String.singleton sep) = true → withSeparator sep p = p) ∧
      (HasSuffix p (String.singleton sep) = false →
        withSeparator sep p = p ++ String.singleton sep)) ∧
    (sceneQueryBuilder.QueryForAutoTagQuery sel sep regex P).1
      = sel "scenes" ++ " WHERE \n\tscenes.path regexp ? AND \n\tscenes.organized = 0"
        ++ (if P = [] then ""
            else " AND (" ++ String.intercalate " OR "
              (List.replicate P.length "scenes.path like ?") ++ ")") ∧
    placeholders (sceneQueryBuilder.QueryForAutoTagQuery sel sep regex P).1 = 1 + P.length := by
  have hargs : (sceneQueryBuilder.QueryForAutoTagQuery sel sep regex P).2
      = Arg.str ("(?i)" ++ regex) :: P.map (fun p => Arg.str (withSeparator sep p ++ "%")) := by
    simp [sceneQueryBuilder.QueryForAutoTagQuery, autoTagLoop_eq]
  have hbody : (sceneQueryBuilder.QueryForAutoTagQuery sel sep regex P).1
      = sel "scenes" ++ " WHERE \n\tscenes.path regexp ? AND \n\tscenes.organized = 0"
        ++ (if P = [] then ""
            else " AND (" ++ String.intercalate " OR "
              (List.replicate P.length "scenes.path like ?") ++ ")") := by
    cases P with
    | nil => simp [sceneQueryBuilder.QueryForAutoTagQuery, autoTagLoop_eq]
    | cons p rest =>
      simp only [sceneQueryBuilder.QueryForAutoTagQuery, autoTagLoop_eq, List.nil_append,
        List.length_replicate, List.length_cons, Nat.succ_pos, gt_iff_lt, if_true,
        Nat.zero_lt_succ]
      simp
  refine ⟨QueryForAutoTag_log d sel sep qb tx htx regex P w, hargs, ?_, hbody, ?_⟩
  · intro p _
    refine ⟨HasSuffix_withSeparator sep p, ?_, ?_⟩
    · intro h
      simp [withSeparator, h]
    · intro h
      simp [withSeparator, h]
  · rw [hbody]
    have h1 : placeholders " WHERE \n\tscenes.path regexp ? AND \n\tscenes.organized = 0" = 1 := by
      decide
    have h2 : placeholders " AND (" = 0 := by decide
    have h3 : placeholders ")" = 0 := by decide
    have h4 : placeholders " OR " = 0 := by decide
    have h5 : placeholders "scenes.path like ?" = 1 := by decide
    have h6 : placeholders "" = 0 := by decide
    cases P with
    | nil => simp [placeholders_append, hsel, h1, h6]
    | cons p rest =>
      simp only [placeholders_append, hsel, h1, List.length_cons, reduceCtorEq, if_false,
        placeholders_intercalate_replicate, h2, h3, h4, h5]
      omega


/-- C22 at the regex `beach` and the prefixes `/media` and `/films/`, with `/` as the
separator: the separator is appended to the first prefix only. -/
theorem QueryForAutoTag_builds_query_witness :
    (sampleStore.repo (some Tx.mk)).tx = some Tx.mk ∧
    placeholders (sampleSelectDistinctIDs "scenes") = 0 ∧
    (sceneQueryBuilder.QueryForAutoTagQuery sampleSelectDistinctIDs '/' "beach"
        ["/media", "/films/"]).2
      = [Arg.str "(?i)beach", Arg.str "/media/%", Arg.str "/films/%"] ∧
    (sceneQueryBuilder.QueryForAutoTagQuery sampleSelectDistinctIDs '/' "beach"
        ["/media", "/films/"]).1
      = "SELECT DISTINCT scenes.id FROM scenes WHERE \n\tscenes.path regexp ? AND \n\tscenes.organized = 0 AND (scenes.path like ? OR scenes.path like ?)" ∧
    placeholders (sceneQueryBuilder.QueryForAutoTagQuery sampleSelectDistinctIDs '/' "beach"
        ["/media", "/films/"]).1 = 1 + 2 := by
  obtain ⟨_, h2, _, h4, h5⟩ := QueryForAutoTag_builds_query tableDb sampleSelectDistinctIDs
    '/' (sampleStore.repo (some Tx.mk)) Tx.mk "beach" ["/media", "/films/"] sampleWorld rfl
    (by decide)
  refine ⟨rfl, by decide, ?_, ?_, h5⟩
  · rw [h2]
    decide
  · rw [h4]
    rfl


theorem updatesOf_append (a b : List TaskEvent) :
    updatesOf (a ++ b) = updatesOf a ++ updatesOf b := by
  simp [updatesOf, List.filterMap_append]

theorem endTxn_updates {σ : Type} (env : StashBoxDeps σ) (err : Option Err) (w : TaskWorld σ) :
    updatesOf (endTxn env err w).2.events = updatesOf w.events := by
  cases err with
  | none => simp [endTxn, updatesOf_append, updatesOf]
  | some e => simp [endTxn, updatesOf_append, updatesOf]

theorem fetch_updates {σ : Type} (env : StashBoxDeps σ) (t : StashBoxPerformerTagTask)
    (box : StashBox) (w w1 : TaskWorld σ) (res : Option ScrapedScenePerformer × Option Err)
    (h : StashBoxPerformerTagTask.fetch env t box w = some (res, w1)) :
    updatesOf w1.events = updatesOf w.events ∧
    (∀ performer, res.1 = some performer → ∃ query s,
      (env.FindStashBoxPerformerByID query s).1 = res ∨
      (env.FindStashBoxPerformerByName query s).1 = res) := by
  unfold StashBoxPerformerTagTask.fetch at h
  split at h
  · split at h
    · exact absurd h (by simp)
    · simp only at h
      split at h
      · simp only [Option.some.injEq, Prod.mk.injEq] at h
        obtain ⟨h1, h2⟩ := h
        subst h2
        refine ⟨?_, fun _ _ => ⟨_, _, Or.inl h1⟩⟩
        simp [endTxn, updatesOf_append, updatesOf]
      · simp only [Option.some.injEq, Prod.mk.injEq] at h
        obtain ⟨h1, h2⟩ := h
        subst h2
        refine ⟨?_, ?_⟩
        · simp [endTxn, updatesOf_append, updatesOf]
        · intro performer hp
          rw [← h1] at hp
          exact absurd hp (by simp)
  · split at h
    · simp only [Option.some.injEq, Prod.mk.injEq] at h
      obtain ⟨h1, h2⟩ := h
      subst h2
      exact ⟨rfl, fun _ _ => ⟨_, _, Or.inr h1⟩⟩
    · split at h
      · exact absurd h (by simp)
      · simp only [Option.some.injEq, Prod.mk.injEq] at h
        obtain ⟨h1, h2⟩ := h
        subst h2
        exact ⟨rfl, fun _ _ => ⟨_, _, Or.inr h1⟩⟩


theorem updatesOf_snoc (events : List TaskEvent) (ev : TaskEvent) :
    updatesOf (events ++ [ev])
      = updatesOf events ++ (match ev with
          | TaskEvent.Update updated => [updated]
          | _ => []) := by
  rw [updatesOf_append]
  cases ev <;> simp [updatesOf]

theorem updateTxn_updates {σ : Type} (env : StashBoxDeps σ) (t : StashBoxPerformerTagTask)
    (box : StashBox) (tp : Performer) (performer : ScrapedScenePerformer)
    (updated : PerformerPartial) (w w1 : TaskWorld σ) (err : Option Err)
    (h : StashBoxPerformerTagTask.updateTxn env t box tp performer updated w
      = some (err, w1)) :
    updatesOf w1.events = updatesOf w.events ++ [updated] := by
  unfold StashBoxPerformerTagTask.updateTxn at h
  by_cases hr : t.refresh = true
  · simp only [hr, Bool.not_true, Bool.false_eq_true, if_false, false_and] at h
    repeat' split at h
    all_goals
      simp only [Option.some.injEq, Prod.mk.injEq] at h
      obtain ⟨_, h2⟩ := h
      subst h2
      simp only [updatesOf_snoc, List.append_nil]
  · have hr2 : t.refresh = false := by simpa using hr
    cases hrs : performer.RemoteSiteID with
    | none => simp [hr2, hrs] at h
    | some rid =>
      simp only [hr2, hrs, Bool.not_false, if_true, true_and] at h
      repeat' split at h
      all_goals
        simp only [Option.some.injEq, Prod.mk.injEq] at h
        obtain ⟨_, h2⟩ := h
        subst h2
        simp only [updatesOf_snoc, List.append_nil]


theorem createTxn_updates {σ : Type} (env : StashBoxDeps σ) (box : StashBox)
    (performer : ScrapedScenePerformer) (newPerformer : Performer) (w w1 : TaskWorld σ)
    (err : Option Err)
    (h : StashBoxPerformerTagTask.createTxn env box performer newPerformer w
      = some (err, w1)) :
    updatesOf w1.events = updatesOf w.events := by
  unfold StashBoxPerformerTagTask.createTxn at h
  simp only at h
  repeat' split at h
  all_goals
    first
    | (simp only [Option.some.injEq, Prod.mk.injEq] at h
       obtain ⟨_, h2⟩ := h
       subst h2
       simp only [updatesOf_snoc, List.append_nil])
    | simp at h

theorem save_updates {σ : Type} (env : StashBoxDeps σ) (t : StashBoxPerformerTagTask)
    (box : StashBox) (found : Option ScrapedScenePerformer) (w w1 : TaskWorld σ)
    (h : StashBoxPerformerTagTask.save env t box found w = some w1) :
    (updatesOf w1.events = updatesOf w.events ∧ (t.performer = none ∨ found = none)) ∨
    ∃ tp performer updatedTime, t.performer = some tp ∧ found = some performer ∧
      updatesOf w1.events = updatesOf w.events
        ++ [performerPartial (excludedFields t) tp.ID performer updatedTime] := by
  unfold StashBoxPerformerTagTask.save at h
  cases found with
  | none =>
    simp only [Option.some.injEq] at h
    subst h
    exact Or.inl ⟨by simp only [updatesOf_snoc, List.append_nil], Or.inr rfl⟩
  | some performer =>
    cases htp : t.performer with
    | some tp =>
      simp only [htp] at h
      split at h
      · exact absurd h (by simp)
      · rename_i err w2 hu
        simp only [Option.some.injEq] at h
        subst h
        refine Or.inr ⟨tp, performer, (env.Now w.db).1, rfl, rfl, ?_⟩
        rw [endTxn_updates, updateTxn_updates env t box tp performer _ _ w2 err hu]
        simp only [updatesOf_snoc, List.append_nil]
    | none =>
      simp only [htp] at h
      refine Or.inl ⟨?_, Or.inl rfl⟩
      split at h
      · split at h
        · exact absurd h (by simp)
        · rename_i err w2 hc
          have hcu := createTxn_updates env box performer _ _ w2 err hc
          simp only [updatesOf_snoc, List.append_nil] at hcu
          split at h
          · simp only [Option.some.injEq] at h
            subst h
            simp only [updatesOf_snoc, List.append_nil, endTxn_updates, hcu]
          · simp only [Option.some.injEq] at h
            subst h
            simp only [updatesOf_snoc, List.append_nil, endTxn_updates, hcu]
      · simp only [Option.some.injEq] at h
        subst h
        rfl

theorem stashBoxPerformerTag_updates {σ : Type} (env : StashBoxDeps σ)
    (t : StashBoxPerformerTagTask) (w w1 : TaskWorld σ)
    (h : StashBoxPerformerTagTask.stashBoxPerformerTag env t w = some w1) :
    updatesOf w1.events = updatesOf w.events ∨
    ∃ tp performer updatedTime, t.performer = some tp ∧
      (∃ query s, (env.FindStashBoxPerformerByID query s).1 = (some performer, none) ∨
        (env.FindStashBoxPerformerByName query s).1 = (some performer, none)) ∧
      updatesOf w1.events = updatesOf w.events
        ++ [performerPartial (excludedFields t) tp.ID performer updatedTime] := by
  unfold StashBoxPerformerTagTask.stashBoxPerformerTag at h
  split at h
  · exact absurd h (by simp)
  · split at h
    · exact absurd h (by simp)
    · rename_i hf
      simp only [Option.some.injEq] at h
      subst h
      left
      simp only [updatesOf_snoc, List.append_nil]
      exact (fetch_updates env t _ w _ _ hf).1
    · rename_i found w2 hf
      obtain ⟨hfu, hfq⟩ := fetch_updates env t _ w _ _ hf
      rcases save_updates env t _ found w2 w1 h with ⟨h1, _⟩ | ⟨tp, performer, time, h1, h2, h3⟩
      · left
        rw [h1, hfu]
      · right
        subst h2
        refine ⟨tp, performer, time, h1, hfq performer rfl, ?_⟩
        rw [h3, hfu]


/-- C27: `getNullString` marks its result valid exactly when its input is not nil, and its
`String` is then the input; `getDate` keeps the input string too, but marks its result
invalid whatever the input: for the non-nil input `1990-01-01` the date it returns is not
valid. The two functions do not agree on validity. -/
theorem getDate_never_valid :
    (∀ s : String, getNullString (some s) = { String := s, Valid := true }) ∧
    getNullString none = { String := "", Valid := false } ∧
    (∀ val : Option String, (getNullString val).Valid = val.isSome) ∧
    (∀ s : String, getDate (some s) = { String := s, Valid := false }) ∧
    getDate none = { String := "", Valid := false } ∧
    (∀ val : Option String, (getDate val).Valid = false) ∧
    getDate (some "1990-01-01") = { String := "1990-01-01", Valid := false } ∧
    (getDate (some "1990-01-01")).Valid ≠ (getNullString (some "1990-01-01")).Valid := by
  refine ⟨fun _ => rfl, rfl, ?_, fun _ => rfl, rfl, ?_, rfl, by decide⟩
  · intro val
    cases val <;> rfl
  · intro val
    cases val <;> rfl


/-- C25: the claim fails for `name`. Whenever `stashBoxPerformerTag` returns, it has handed at
most one partial record to `Update`, and in that record each of aliases, birthdate,
career_length, country, ethnicity, eye_color, fake_tits, gender, height, instagram,
measurements, piercings, tattoos, twitter and url is left nil when it is excluded; but `Name`
is set exactly when `name` is excluded, and left nil when it is not. -/
theorem stashBoxPerformerTag_excluded_fields {σ : Type} (env : StashBoxDeps σ)
    (t : StashBoxPerformerTagTask) (w w1 : TaskWorld σ)
    (h : StashBoxPerformerTagTask.stashBoxPerformerTag env t w = some w1) :
    updatesOf w1.events = updatesOf w.events ∨
    ∃ updated, updatesOf w1.events = updatesOf w.events ++ [updated] ∧
      (excludedFields t "aliases" = true → updated.Aliases = none) ∧
      (excludedFields t "birthdate" = true → updated.Birthdate = none) ∧
      (excludedFields t "career_length" = true → updated.CareerLength = none) ∧
      (excludedFields t "country" = true → updated.Country = none) ∧
      (excludedFields t "ethnicity" = true → updated.Ethnicity = none) ∧
      (excludedFields t "eye_color" = true → updated.EyeColor = none) ∧
      (excludedFields t "fake_tits" = true → updated.FakeTits = none) ∧
      (excludedFields t "gender" = true → updated.Gender = none) ∧
      (excludedFields t "height" = true → updated.Height = none) ∧
      (excludedFields t "instagram" = true → updated.Instagram = none) ∧
      (excludedFields t "measurements" = true → updated.Measurements = none) ∧
      (excludedFields t "piercings" = true → updated.Piercings = none) ∧
      (excludedFields t "tattoos" = true → updated.Tattoos = none) ∧
      (excludedFields t "twitter" = true → updated.Twitter = none) ∧
      (excludedFields t "url" = true → updated.URL = none) ∧
      (excludedFields t "name" = true → updated.Name ≠ none) ∧
      (excludedFields t "name" = false → updated.Name = none) := by
  rcases stashBoxPerformerTag_updates env t w w1 h with h1 | ⟨tp, performer, time, _, _, h3⟩
  · exact Or.inl h1
  · refine Or.inr ⟨_, h3, ?_, ?_, ?_, ?_, ?_, ?_, ?_, ?_, ?_, ?_, ?_, ?_, ?_, ?_, ?_, ?_, ?_⟩ <;>
      intro hx <;> simp [performerPartial, hx]

/-- C25 at the failing input: with `name` as the one excluded field, the partial record that
is written for performer 1 has `Name` set, to the scraped name. -/
theorem stashBoxPerformerTag_excluded_fields_witness :
    (StashBoxPerformerTagTask.stashBoxPerformerTag sampleStashBoxDeps (sampleTagTask ["name"])
        taskWorld).map (fun w1 => (updatesOf w1.events).map (fun updated => updated.Name))
      = some [some { String := "Scraped Name", Valid := true }] ∧
    excludedFields (sampleTagTask ["name"]) "name" = true ∧
    (updatesOf ([] : List TaskEvent) ++ [performerPartial
        (excludedFields (sampleTagTask ["name"])) 1 sampleScraped updateTime]
      = updatesOf taskWorld.events ∨
    ∃ updated, updatesOf ([] : List TaskEvent) ++ [performerPartial
        (excludedFields (sampleTagTask ["name"])) 1 sampleScraped updateTime]
        = updatesOf taskWorld.events ++ [updated] ∧
      (excludedFields (sampleTagTask ["name"]) "name" = true → updated.Name ≠ none)) := by
  refine ⟨rfl, by decide, ?_⟩
  rcases stashBoxPerformerTag_excluded_fields sampleStashBoxDeps (sampleTagTask ["name"])
    taskWorld
    { db := (), events := [TaskEvent.Begin,
        TaskEvent.Update (performerPartial (excludedFields (sampleTagTask ["name"])) 1
          sampleScraped updateTime),
        TaskEvent.UpdateStashIDs 1
          [{ Endpoint := "https://stashdb.org/graphql", StashID := "5c2a1e" }],
        TaskEvent.Infof "Updated performer Scraped Name", TaskEvent.Commit] } rfl
    with h1 | ⟨updated, h1, h2⟩
  · exact Or.inl h1
  · exact Or.inr ⟨updated, h1, h2.2.2.2.2.2.2.2.2.2.2.2.2.2.2.2.1⟩


theorem presentField (c : Prop) [Decidable c] (field : Option String) (v : NullString)
    (h : (if field ≠ none ∧ c then some (getNullString field) else none) = some v) :
    field = some v.String ∧ v.Valid = true := by
  split at h
  · rename_i hc
    cases field with
    | none => exact absurd rfl hc.1
    | some s =>
      simp only [getNullString, Option.some.injEq] at h
      subst h
      exact ⟨rfl, rfl⟩
  · exact absurd h (by simp)

/-- C26: the claim fails for Twitter. Whenever `stashBoxPerformerTag` returns, it has handed
at most one partial record to `Update`, built from the performer that stash-box returned; in
that record each of aliases, career length, country, ethnicity, eye colour, fake tits, gender,
height, instagram, measurements, piercings, tattoos and URL, when set, is a valid string equal
to the scraped performer's field of the same name; but `Twitter`, when set, is what
`getNullString` makes of the scraped performer's tattoos. -/
theorem stashBoxPerformerTag_text_fields {σ : Type} (env : StashBoxDeps σ)
    (t : StashBoxPerformerTagTask) (w w1 : TaskWorld σ)
    (h : StashBoxPerformerTagTask.stashBoxPerformerTag env t w = some w1) :
    updatesOf w1.events = updatesOf w.events ∨
    ∃ updated performer, updatesOf w1.events = updatesOf w.events ++ [updated] ∧
      (∃ query s, (env.FindStashBoxPerformerByID query s).1 = (some performer, none) ∨
        (env.FindStashBoxPerformerByName query s).1 = (some performer, none)) ∧
      (∀ v, updated.Aliases = some v → performer.Aliases = some v.String ∧ v.Valid = true) ∧
      (∀ v, updated.CareerLength = some v →
        performer.CareerLength = some v.String ∧ v.Valid = true) ∧
      (∀ v, updated.Country = some v → performer.Country = some v.String ∧ v.Valid = true) ∧
      (∀ v, updated.Ethnicity = some v →
        performer.Ethnicity = some v.String ∧ v.Valid = true) ∧
      (∀ v, updated.EyeColor = some v → performer.EyeColor = some v.String ∧ v.Valid = true) ∧
      (∀ v, updated.FakeTits = some v → performer.FakeTits = some v.String ∧ v.Valid = true) ∧
      (∀ v, updated.Gender = some v → performer.Gender = some v.String ∧ v.Valid = true) ∧
      (∀ v, updated.Height = some v → performer.Height = some v.String ∧ v.Valid = true) ∧
      (∀ v, updated.Instagram = some v →
        performer.Instagram = some v.String ∧ v.Valid = true) ∧
      (∀ v, updated.Measurements = some v →
        performer.Measurements = some v.String ∧ v.Valid = true) ∧
      (∀ v, updated.Piercings = some v →
        performer.Piercings = some v.String ∧ v.Valid = true) ∧
      (∀ v, updated.Tattoos = some v → performer.Tattoos = some v.String ∧ v.Valid = true) ∧
      (∀ v, updated.URL = some v → performer.URL = some v.String ∧ v.Valid = true) ∧
      (∀ v, updated.Twitter = some v →
        performer.Twitter ≠ none ∧ v = getNullString performer.Tattoos) := by
  rcases stashBoxPerformerTag_updates env t w w1 h with h1 | ⟨tp, performer, time, _, h2, h3⟩
  · exact Or.inl h1
  · refine Or.inr ⟨_, performer, h3, h2, ?_, ?_, ?_, ?_, ?_, ?_, ?_, ?_, ?_, ?_, ?_, ?_, ?_, ?_⟩
    case refine_14 =>
      intro v hv
      simp only [performerPartial] at hv
      split at hv
      · rename_i hc
        exact ⟨hc.1, (Option.some.inj hv).symm⟩
      · exact absurd hv (by simp)
    all_goals
      intro v hv
      exact presentField _ _ v hv

/-- C26 at the failing input: the scraped performer has the Twitter handle `handle` and the
tattoos `left arm`, and the partial record that is written has `Twitter` set to `left arm`. -/
theorem stashBoxPerformerTag_text_fields_witness :
    sampleScraped.Twitter = some "handle" ∧ sampleScraped.Tattoos = some "left arm" ∧
    (StashBoxPerformerTagTask.stashBoxPerformerTag sampleStashBoxDeps (sampleTagTask [])
        taskWorld).map (fun w1 => (updatesOf w1.events).map (fun updated => updated.Twitter))
      = some [some { String := "left arm", Valid := true }] ∧
    (updatesOf ([] : List TaskEvent) ++ [performerPartial
        (excludedFields (sampleTagTask [])) 1 sampleScraped updateTime]
      = updatesOf taskWorld.events ∨
    ∃ (updated : PerformerPartial) (performer : ScrapedScenePerformer),
      updatesOf ([] : List TaskEvent) ++ [performerPartial
        (excludedFields (sampleTagTask [])) 1 sampleScraped updateTime]
        = updatesOf taskWorld.events ++ [updated] ∧
      (∀ v, updated.Twitter = some v →
        performer.Twitter ≠ none ∧ v = getNullString performer.Tattoos)) := by
  refine ⟨rfl, rfl, rfl, ?_⟩
  rcases stashBoxPerformerTag_text_fields sampleStashBoxDeps (sampleTagTask []) taskWorld
    { db := (), events := [TaskEvent.Begin,
        TaskEvent.Update (performerPartial (excludedFields (sampleTagTask [])) 1
          sampleScraped updateTime),
        TaskEvent.UpdateStashIDs 1
          [{ Endpoint := "https://stashdb.org/graphql", StashID := "5c2a1e" }],
        TaskEvent.Infof "Updated performer Scraped Name", TaskEvent.Commit] } rfl
    with h1 | ⟨updated, performer, h1, h2⟩
  · exact Or.inl h1
  · exact Or.inr ⟨updated, performer, h1, h2.2.2.2.2.2.2.2.2.2.2.2.2.2.2⟩


/-- C23, as claimed, fails: the scene `transcodedScene` has an audio codec that is not
supported for its container, and `GetSceneStreamPaths` still returns the direct stream
endpoint first, because a transcode of the scene exists. -/
theorem GetSceneStreamPaths_direct_only_if_audio_counterexample :
    sampleStreamDeps.IsValidAudioForContainer "dts" "matroska" = false ∧
    GetSceneFileContainer sampleStreamDeps transcodedScene = ("matroska", none) ∧
    GetSceneStreamPaths sampleStreamDeps (some transcodedScene) "http://host/scene/1/stream"
      = (some [ { URL := "http://host/scene/1/stream", MimeType := some "video/mp4",
                  Label := some "Direct stream" },
                { URL := "http://host/scene/1/stream.mkv", MimeType := some "video/mp4",
                  Label := some "mkv" },
                { URL := "http://host/scene/1/stream.webm", MimeType := some "video/webm",
                  Label := some "webm" },
                { URL := "http://host/scene/1/stream.m3u8",
                  MimeType := some "application/vnd.apple.mpegurl", Label := some "HLS" },
                { URL := "http://host/scene/1/stream.mp4", MimeType := some "video/mp4",
                  Label := some "mp4" } ], none) := by
  refine ⟨by decide, rfl, rfl⟩

/-- C23, amended: for a scene that is not nil and whose container is determined,
`GetSceneStreamPaths` returns no error and the list made of the `Direct stream` endpoint at
the direct URL, present if and only if a transcode of the scene exists or the scene's audio
codec is supported for its container, then the `mkv` endpoint at `URL ++ ".mkv"`, present if
and only if the container is Matroska, then the endpoints webm at `URL ++ ".webm"`, HLS at
`URL ++ ".m3u8"` and mp4 at `URL ++ ".mp4"`, in that order; for a nil scene it returns the
error `nil scene` and no list. -/
theorem GetSceneStreamPaths_endpoints (env : StreamDeps) (scene : Scene) (url container : String)
    (hc : GetSceneFileContainer env scene = (container, none)) :
    GetSceneStreamPaths env (some scene) url
      = (some ((if (env.FileExists (env.GetTranscodePath scene.Checksum)).1 = true ∨
                  env.IsValidAudioForContainer
                    (if scene.AudioCodec.Valid then scene.AudioCodec.String
                     else env.MissingUnsupported) container = true
                then [{ URL := url, MimeType := some env.MimeMp4,
                        Label := some "Direct stream" }] else [])
          ++ (if container = env.Matroska
                then [{ URL := url ++ ".mkv", MimeType := some env.MimeMp4,
                        Label := some "mkv" }] else [])
          ++ [ { URL := url ++ ".webm", MimeType := some env.MimeWebm, Label := some "webm" },
               { URL := url ++ ".m3u8", MimeType := some env.MimeHLS, Label := some "HLS" },
               { URL := url ++ ".mp4", MimeType := some env.MimeMp4, Label := some "mp4" } ]),
         none) ∧
    GetSceneStreamPaths env none url = (none, some (Err.other "nil scene")) := by
  refine ⟨?_, rfl⟩
  simp only [GetSceneStreamPaths, hc, HasTranscode, List.nil_append]
  split_ifs <;> simp

/-- C23 (amended) at `transcodedScene`. -/
theorem GetSceneStreamPaths_endpoints_witness :
    GetSceneFileContainer sampleStreamDeps transcodedScene = ("matroska", none) ∧
    (GetSceneStreamPaths sampleStreamDeps (some transcodedScene) "u").1
      = some [ { URL := "u", MimeType := some "video/mp4", Label := some "Direct stream" },
               { URL := "u.mkv", MimeType := some "video/mp4", Label := some "mkv" },
               { URL := "u.webm", MimeType := some "video/webm", Label := some "webm" },
               { URL := "u.m3u8", MimeType := some "application/vnd.apple.mpegurl",
                 Label := some "HLS" },
               { URL := "u.mp4", MimeType := some "video/mp4", Label := some "mp4" } ] := by
  refine ⟨rfl, ?_⟩
  rw [(GetSceneStreamPaths_endpoints sampleStreamDeps transcodedScene "u" "matroska" rfl).1]
  rfl


theorem OCounterCall.run_eq {σ : Type} (d : Dbi σ) (qb : repository) (call : OCounterCall)
    (w : World σ) : call.run d qb w = oCounterMethod d qb call.stmt call.id w := by
  cases call <;> rfl

theorem CounterStore.nextFault_of_nil (st : CounterStore) (h : ∀ f ∈ st.faults, f = none) :
    st.nextFault = none := by
  unfold CounterStore.nextFault
  cases hf : st.faults with
  | nil => rfl
  | cons a rest =>
    have := h a (by simp [hf])
    subst this
    rfl

theorem CounterStore.Exec_call (call : OCounterCall) (st : CounterStore)
    (h : st.nextFault = none) :
    CounterStore.Exec call.stmt [Arg.int call.id] st
      = (Except.ok { lastInsertId := Except.ok 0 },
          { st.step with rows := st.rows.map call.effect }) := by
  cases call with
  | Increment id =>
    simp only [CounterStore.Exec, h, OCounterCall.stmt, OCounterCall.id, if_true]
    rfl
  | Decrement id =>
    have hne : ("UPDATE scenes SET o_counter = o_counter - 1 WHERE scenes.id = ? and scenes.o_counter > 0"
        = "UPDATE scenes SET o_counter = o_counter + 1 WHERE scenes.id = ?") = False := by
      simp
    simp only [CounterStore.Exec, h, OCounterCall.stmt, OCounterCall.id, hne, if_false, if_true]
    have hfun : (fun row : Int × Int =>
        if row.1 = id ∧ row.2 > 0 then (row.1, row.2 - 1) else row)
        = (OCounterCall.Decrement id).effect := by
      funext row
      simp only [OCounterCall.effect]
      by_cases h1 : row.1 = id
      · subst h1
        by_cases h2 : row.2 > 0
        · simp [h2]
        · simp [h2]
      · simp [h1]
    rw [hfun]
  | Reset id =>
    have hne1 : ("UPDATE scenes SET o_counter = 0 WHERE scenes.id = ?"
        = "UPDATE scenes SET o_counter = o_counter + 1 WHERE scenes.id = ?") = False := by
      simp
    have hne2 : ("UPDATE scenes SET o_counter = 0 WHERE scenes.id = ?"
        = "UPDATE scenes SET o_counter = o_counter - 1 WHERE scenes.id = ? and scenes.o_counter > 0") = False := by
      simp
    simp only [CounterStore.Exec, h, OCounterCall.stmt, OCounterCall.id, hne1, hne2, if_false,
      if_true]
    rfl

theorem CounterStore.Exec_rows (stmt : String) (args : List Arg) (st : CounterStore) :
    (CounterStore.Exec stmt args st).2.rows = st.rows ∨
    ∃ call : OCounterCall, stmt = call.stmt ∧ args = [Arg.int call.id] ∧
      (CounterStore.Exec stmt args st).2.rows = st.rows.map call.effect := by
  cases hf : st.nextFault with
  | some e => exact Or.inl (by simp [CounterStore.Exec, hf, CounterStore.step])
  | none =>
    by_cases hc : ∃ call : OCounterCall, stmt = call.stmt ∧ args = [Arg.int call.id]
    · obtain ⟨call, h1, h2⟩ := hc
      refine Or.inr ⟨call, h1, h2, ?_⟩
      rw [h1, h2, CounterStore.Exec_call call st hf]
    · left
      unfold CounterStore.Exec
      simp only [hf]
      split
      · rename_i id
        split_ifs with h1 h2 h3
        · exact absurd ⟨OCounterCall.Increment id, h1, rfl⟩ hc
        · exact absurd ⟨OCounterCall.Decrement id, h2, rfl⟩ hc
        · exact absurd ⟨OCounterCall.Reset id, h3, rfl⟩ hc
        · rfl
      · rfl


theorem keepsNonNegative_refl (rows : List (Int × Int)) : keepsNonNegative rows rows := by
  induction rows with
  | nil => exact List.Forall₂.nil
  | cons a rest ih => exact List.Forall₂.cons ⟨rfl, id⟩ ih

theorem keepsNonNegative_trans (a b c : List (Int × Int)) (h1 : keepsNonNegative a b)
    (h2 : keepsNonNegative b c) : keepsNonNegative a c := by
  unfold keepsNonNegative at *
  induction h1 generalizing c with
  | nil =>
    cases h2
    exact List.Forall₂.nil
  | cons hab _ ih =>
    cases h2 with
    | cons hbc hrest =>
      exact List.Forall₂.cons ⟨hab.1.trans hbc.1, fun h => hbc.2 (hab.2 h)⟩ (ih _ hrest)

theorem effect_fst (call : OCounterCall) (row : Int × Int) : (call.effect row).1 = row.1 := by
  cases call <;> simp only [OCounterCall.effect] <;> split_ifs <;> rfl

theorem effect_nonneg (call : OCounterCall) (row : Int × Int) (h : 0 ≤ row.2) :
    0 ≤ (call.effect row).2 := by
  cases call with
  | Increment id =>
    simp only [OCounterCall.effect]
    split_ifs
    · show 0 ≤ row.2 + 1
      omega
    · exact h
  | Decrement id =>
    simp only [OCounterCall.effect]
    split_ifs with h1 h2
    · show 0 ≤ row.2 - 1
      omega
    · exact h
    · exact h
  | Reset id =>
    simp only [OCounterCall.effect]
    split_ifs
    · exact le_refl _
    · exact h

theorem keepsNonNegative_effect (call : OCounterCall) (rows : List (Int × Int)) :
    keepsNonNegative rows (rows.map call.effect) := by
  induction rows with
  | nil => exact List.Forall₂.nil
  | cons a rest ih =>
    exact List.Forall₂.cons ⟨(effect_fst call a).symm, effect_nonneg call a⟩ ih

theorem find_counterDb_rows (qb : repository) (tx : Tx) (htx : qb.tx = some tx) (id : Int)
    (w : World CounterStore) :
    (sceneQueryBuilder.find counterDb qb id w).2.db.rows = w.db.rows := by
  have hget : ∀ query args, (CounterStore.Get query args w.db).2.rows = w.db.rows := by
    intro query args
    unfold CounterStore.Get
    repeat' split
    all_goals rfl
  have hg := hget ("SELECT * FROM " ++ qb.tableName ++ " WHERE " ++ qb.idColumn
    ++ " = ? LIMIT 1") [Arg.int id]
  rcases hq : CounterStore.Get ("SELECT * FROM " ++ qb.tableName ++ " WHERE " ++ qb.idColumn
    ++ " = ? LIMIT 1") [Arg.int id] w.db with ⟨res, s1⟩
  rw [hq] at hg
  simp only at hg
  cases res with
  | ok row =>
    simp [sceneQueryBuilder.find, repository.get, repository.wrapReadOnly, htx, txGet,
      counterDb, hq, hg]
  | error e =>
    simp only [sceneQueryBuilder.find, repository.get, repository.wrapReadOnly, htx, txGet,
      counterDb, hq]
    split_ifs <;> exact hg

theorem run_counterDb_rows (qb : repository) (call : OCounterCall) (w w1 : World CounterStore)
    (res : Int × Option Err) (h : call.run counterDb qb w = some (res, w1)) :
    w1.db.rows = w.db.rows ∨ w1.db.rows = w.db.rows.map call.effect := by
  rw [OCounterCall.run_eq] at h
  unfold oCounterMethod at h
  cases htx : qb.tx with
  | none => simp [htx] at h
  | some tx =>
    simp only [htx, txExec] at h
    have hexec : (counterDb.Exec call.stmt [Arg.int call.id] w.db).2.rows = w.db.rows ∨
        (counterDb.Exec call.stmt [Arg.int call.id] w.db).2.rows
          = w.db.rows.map call.effect := by
      show (CounterStore.Exec call.stmt [Arg.int call.id] w.db).2.rows = w.db.rows ∨ _
      cases hf : w.db.nextFault with
      | some e => exact Or.inl (by simp [CounterStore.Exec, hf, CounterStore.step])
      | none =>
        right
        show (CounterStore.Exec call.stmt [Arg.int call.id] w.db).2.rows = _
        rw [CounterStore.Exec_call call w.db hf]
    rcases hx : counterDb.Exec call.stmt [Arg.int call.id] w.db with ⟨r, s1⟩
    rw [hx] at h hexec
    simp only at hexec
    cases r with
    | error e =>
      simp only [Option.some.injEq, Prod.mk.injEq] at h
      rw [← h.2]
      exact hexec
    | ok v =>
      simp only at h
      have hfind := find_counterDb_rows qb tx htx call.id
        { db := s1, log := w.log ++ [Call.Exec call.stmt [Arg.int call.id]] }
      simp only at hfind
      split at h
      · simp only [Option.some.injEq, Prod.mk.injEq] at h
        rename_i hfd
        rw [hfd] at hfind
        rw [← h.2, hfind]
        exact hexec
      · exact absurd h (by simp)
      · simp only [Option.some.injEq, Prod.mk.injEq] at h
        rename_i hfd
        rw [hfd] at hfind
        rw [← h.2, hfind]
        exact hexec

theorem runOCounterCalls_keeps (qb : repository) (calls : List OCounterCall) :
    ∀ (w w1 : World CounterStore), runOCounterCalls counterDb qb calls w = some w1 →
      keepsNonNegative w.db.rows w1.db.rows := by
  induction calls with
  | nil =>
    intro w w1 h
    simp only [runOCounterCalls, Option.some.injEq] at h
    rw [← h]
    exact keepsNonNegative_refl _
  | cons call rest ih =>
    intro w w1 h
    simp only [runOCounterCalls] at h
    split at h
    · exact absurd h (by simp)
    · rename_i res w2 hrun
      have h2 := ih w2 w1 h
      rcases run_counterDb_rows qb call w w2 res hrun with h3 | h3
      · rw [← h3]
        exact h2
      · refine keepsNonNegative_trans _ _ _ ?_ h2
        rw [h3]
        exact keepsNonNegative_effect call _


theorem find?_map_effect (call : OCounterCall) (id : Int) (rows : List (Int × Int)) :
    (rows.map call.effect).find? (fun row => row.1 == id)
      = (rows.find? (fun row => row.1 == id)).map call.effect := by
  induction rows with
  | nil => rfl
  | cons a rest ih =>
    simp only [List.map_cons, List.find?_cons, effect_fst]
    cases a.1 == id
    · simpa using ih
    · rfl

theorem CounterStore.step_faults (st : CounterStore) (h : ∀ f ∈ st.faults, f = none) :
    ∀ f ∈ st.step.faults, f = none :=
  fun f hf => h f (List.mem_of_mem_tail hf)

theorem run_counterDb_ok (tx : Tx) (call : OCounterCall) (w : World CounterStore)
    (row : Int × Int) (hf : ∀ f ∈ w.db.faults, f = none)
    (hrow : w.db.rows.find? (fun row => row.1 == call.id) = some row) :
    ∃ w1, call.run counterDb (NewSceneReaderWriter (some tx)) w
        = some (((call.effect row).2, none), w1) ∧
      w1.db.rows = w.db.rows.map call.effect := by
  have h0 : w.db.nextFault = none := CounterStore.nextFault_of_nil _ hf
  have h1 : ({ w.db.step with rows := w.db.rows.map call.effect } : CounterStore).nextFault
      = none := by
    apply CounterStore.nextFault_of_nil
    exact CounterStore.step_faults _ hf
  have hfind : ({ w.db.step with rows := w.db.rows.map call.effect } : CounterStore).rows.find?
      (fun row => row.1 == call.id) = some (call.effect row) := by
    show (w.db.rows.map call.effect).find? _ = _
    rw [find?_map_effect, hrow]
    rfl
  refine ⟨{ db := ({ w.db.step with rows := w.db.rows.map call.effect } : CounterStore).step,
            log := w.log ++ [Call.Exec call.stmt [Arg.int call.id]] ++
              [Call.Get ("SELECT * FROM " ++ sceneTable ++ " WHERE " ++ "id" ++ " = ? LIMIT 1")
                [Arg.int call.id]] }, ?_, ?_⟩
  · rw [OCounterCall.run_eq]
    simp only [oCounterMethod, NewSceneReaderWriter, txExec, counterDb,
      CounterStore.Exec_call call w.db h0, sceneQueryBuilder.find, repository.get,
      repository.wrapReadOnly, txGet, CounterStore.Get, h1, if_true, hfind, Row.getInt]
    rfl
  · rfl


/-- C24: over the store of integer counters, (1) after any sequence of `IncrementOCounter`,
`DecrementOCounter` and `ResetOCounter` calls that runs to its end, whatever the faults of
the store, the rows are those of the same scenes and no counter that was non-negative is
negative; (2) a call that returns has left the rows as they were or has applied its effect to
them, and with a transaction, no fault and a row for the scene it does return, with the
effect applied and the new counter as its result; (3) the effect of `DecrementOCounter`
leaves a counter 0 at 0 and takes a positive `n` to `n - 1`, that of `ResetOCounter` gives 0
and that of `IncrementOCounter` `n + 1`; (4) no effect changes the row of another scene. -/
theorem oCounter_stays_nonNegative (qb : repository) (tx : Tx) :
    (∀ (calls : List OCounterCall) (w w1 : World CounterStore),
      runOCounterCalls counterDb qb calls w = some w1 →
        keepsNonNegative w.db.rows w1.db.rows) ∧
    (∀ (call : OCounterCall) (w w1 : World CounterStore) (res : Int × Option Err),
      call.run counterDb qb w = some (res, w1) →
        w1.db.rows = w.db.rows ∨ w1.db.rows = w.db.rows.map call.effect) ∧
    (∀ (call : OCounterCall) (w : World CounterStore) (row : Int × Int),
      (∀ f ∈ w.db.faults, f = none) →
      w.db.rows.find? (fun row => row.1 == call.id) = some row →
        ∃ w1, call.run counterDb (NewSceneReaderWriter (some tx)) w
            = some (((call.effect row).2, none), w1) ∧
          w1.db.rows = w.db.rows.map call.effect) ∧
    (∀ id : Int, (OCounterCall.Decrement id).effect (id, 0) = (id, 0)) ∧
    (∀ id n : Int, 0 < n → (OCounterCall.Decrement id).effect (id, n) = (id, n - 1)) ∧
    (∀ id n : Int, (OCounterCall.Reset id).effect (id, n) = (id, 0)) ∧
    (∀ id n : Int, (OCounterCall.Increment id).effect (id, n) = (id, n + 1)) ∧
    (∀ (call : OCounterCall) (row : Int × Int), row.1 ≠ call.id → call.effect row = row) := by
  refine ⟨runOCounterCalls_keeps qb, fun call w w1 res h => run_counterDb_rows qb call w w1 res h,
    fun call w row hf hrow => run_counterDb_ok tx call w row hf hrow, ?_, ?_, ?_, ?_, ?_⟩
  · intro id
    simp [OCounterCall.effect]
  · intro id n hn
    simp [OCounterCall.effect, hn]
  · intro id n
    simp [OCounterCall.effect]
  · intro id n
    simp [OCounterCall.effect]
  · intro call row hne
    cases call <;> simp only [OCounterCall.effect, OCounterCall.id] at hne ⊢ <;> simp [hne]

/-- C24 at `sampleCounters`: decrementing the counter 0 of scene 1 leaves it at 0 and
returns 0, and after a run of five calls no counter is negative. -/
theorem oCounter_stays_nonNegative_witness :
    (∀ f ∈ sampleCounters.db.faults, f = none) ∧
    sampleCounters.db.rows.find? (fun row => row.1 == (OCounterCall.Decrement 1).id)
      = some (1, 0) ∧
    (∃ w1, (OCounterCall.Decrement 1).run counterDb (NewSceneReaderWriter (some Tx.mk))
          sampleCounters = some ((0, none), w1) ∧
        w1.db.rows = [(1, 0), (2, 2), (3, 5)]) ∧
    (runOCounterCalls counterDb (NewSceneReaderWriter (some Tx.mk))
        [OCounterCall.Decrement 1, OCounterCall.Decrement 2, OCounterCall.Reset 3,
         OCounterCall.Increment 1, OCounterCall.Decrement 2] sampleCounters).map
      (fun w1 => w1.db.rows) = some [(1, 1), (2, 0), (3, 0)] ∧
    keepsNonNegative sampleCounters.db.rows [(1, 1), (2, 0), (3, 0)] := by
  have hf : ∀ f ∈ sampleCounters.db.faults, f = none := by
    intro f hf
    simp [sampleCounters] at hf
  obtain ⟨h1, _, h3, _⟩ := oCounter_stays_nonNegative (NewSceneReaderWriter (some Tx.mk)) Tx.mk
  refine ⟨hf, rfl, ?_, rfl, ?_⟩
  · obtain ⟨w1, e1, e2⟩ := h3 (OCounterCall.Decrement 1) sampleCounters (1, 0) hf rfl
    exact ⟨w1, e1, e2⟩
  · exact h1 [OCounterCall.Decrement 1, OCounterCall.Decrement 2, OCounterCall.Reset 3,
      OCounterCall.Increment 1, OCounterCall.Decrement 2] sampleCounters
      { db := { rows := [(1, 1), (2, 0), (3, 0)], faults := [] },
        log := (runOCounterCalls counterDb (NewSceneReaderWriter (some Tx.mk))
          [OCounterCall.Decrement 1, OCounterCall.Decrement 2, OCounterCall.Reset 3,
           OCounterCall.Increment 1, OCounterCall.Decrement 2] sampleCounters).elim []
            (fun w1 => w1.log) } rfl


theorem commonPostProcess_sample :
    commonPostProcess "\n  Jane   Doe \n born\n1990  \t" = "Jane Doe born1990" := by
  decide


theorem dropWhile_head_not (p : Char → Bool) (l : List Char) :
    ∀ c, (l.dropWhile p).head? = some c → p c = false := by
  induction l with
  | nil => simp
  | cons a rest ih =>
    intro c hc
    by_cases ha : p a = true
    · rw [List.dropWhile_cons_of_pos ha] at hc
      exact ih c hc
    · rw [List.dropWhile_cons_of_neg ha] at hc
      simp only [List.head?_cons, Option.some.injEq] at hc
      rw [← hc]
      simpa using ha

theorem dropWhile_of_head (p : Char → Bool) (l : List Char)
    (h : ∀ c, l.head? = some c → p c = false) : l.dropWhile p = l := by
  cases l with
  | nil => rfl
  | cons a rest =>
    have ha : ¬ p a = true := by
      rw [h a rfl]
      simp
    exact List.dropWhile_cons_of_neg ha

theorem dropWhile_getLast (p : Char → Bool) (l : List Char) :
    ∀ c, (l.dropWhile p).getLast? = some c → l.getLast? = some c := by
  induction l with
  | nil => simp
  | cons a rest ih =>
    intro c hc
    by_cases ha : p a = true
    · rw [List.dropWhile_cons_of_pos ha] at hc
      have hr := ih c hc
      cases rest with
      | nil => simp at hr
      | cons b rest2 => simpa [List.getLast?_cons_cons] using hr
    · rw [List.dropWhile_cons_of_neg ha] at hc
      exact hc

theorem trimSpace_head (l : List Char) :
    ∀ c, (trimSpace l).head? = some c → isSpace c = false := by
  intro c hc
  unfold trimSpace at hc
  rw [List.head?_reverse] at hc
  have h2 := dropWhile_getLast isSpace _ c hc
  rw [List.getLast?_reverse] at h2
  exact dropWhile_head_not isSpace l c h2

theorem trimSpace_getLast (l : List Char) :
    ∀ c, (trimSpace l).getLast? = some c → isSpace c = false := by
  intro c hc
  unfold trimSpace at hc
  rw [List.getLast?_reverse] at hc
  exact dropWhile_head_not isSpace _ c hc

theorem trimSpace_of_ends (l : List Char) (h1 : ∀ c, l.head? = some c → isSpace c = false)
    (h2 : ∀ c, l.getLast? = some c → isSpace c = false) : trimSpace l = l := by
  unfold trimSpace
  rw [dropWhile_of_head isSpace l h1, dropWhile_of_head isSpace l.reverse, List.reverse_reverse]
  intro c hc
  rw [List.head?_reverse] at hc
  exact h2 c hc


theorem isSpace_lineFeed : isSpace '\n' = true := by decide

theorem removeLineFeeds_head (l : List Char) (h : ∀ c, l.head? = some c → isSpace c = false) :
    (removeLineFeeds l).head? = l.head? := by
  cases l with
  | nil => rfl
  | cons a rest =>
    have ha : a ≠ '\n' := by
      intro e
      have := h a rfl
      rw [e, isSpace_lineFeed] at this
      exact absurd this (by simp)
    simp [removeLineFeeds, List.filter_cons, ha]

theorem removeLineFeeds_getLast (l : List Char)
    (h : ∀ c, l.getLast? = some c → isSpace c = false) :
    (removeLineFeeds l).getLast? = l.getLast? := by
  rcases List.eq_nil_or_concat l with rfl | ⟨init, a, rfl⟩
  · rfl
  · have ha : a ≠ '\n' := by
      intro e
      have := h a (by simp)
      rw [e, isSpace_lineFeed] at this
      exact absurd this (by simp)
    simp [removeLineFeeds, List.filter_append, ha]

theorem removeLineFeeds_not_mem (l : List Char) : '\n' ∉ removeLineFeeds l := by
  simp [removeLineFeeds, List.mem_filter]

theorem removeLineFeeds_of_not_mem (l : List Char) (h : '\n' ∉ l) : removeLineFeeds l = l := by
  unfold removeLineFeeds
  rw [List.filter_eq_self]
  intro c hc
  have : c ≠ '\n' := fun e => h (e ▸ hc)
  simpa using this

theorem collapseSpaces_head (l : List Char) : (collapseSpaces l).head? = l.head? := by
  induction l with
  | nil => rfl
  | cons a rest ih =>
    unfold collapseSpaces
    split_ifs with hc
    · rw [ih, hc.2, hc.1]
      rfl
    · rfl

theorem collapseSpaces_eq_nil (l : List Char) (h : collapseSpaces l = []) : l = [] := by
  have := collapseSpaces_head l
  rw [h] at this
  cases l with
  | nil => rfl
  | cons a rest => simp at this

theorem collapseSpaces_getLast (l : List Char) : (collapseSpaces l).getLast? = l.getLast? := by
  induction l with
  | nil => rfl
  | cons a rest ih =>
    unfold collapseSpaces
    split_ifs with hc
    · rw [ih]
      cases rest with
      | nil => simp at hc
      | cons b rest2 => simp [List.getLast?_cons_cons]
    · cases hr : collapseSpaces rest with
      | nil =>
        have := collapseSpaces_eq_nil rest hr
        subst this
        rfl
      | cons b rest2 =>
        rw [List.getLast?_cons_cons, ← hr, ih]
        cases rest with
        | nil => simp [collapseSpaces] at hr
        | cons b2 rest3 => simp [List.getLast?_cons_cons]

theorem collapseSpaces_mem (l : List Char) (c : Char) (h : c ∈ collapseSpaces l) : c ∈ l := by
  induction l with
  | nil => simp [collapseSpaces] at h
  | cons a rest ih =>
    unfold collapseSpaces at h
    split_ifs at h with hc
    · exact List.mem_cons_of_mem _ (ih h)
    · rcases List.mem_cons.1 h with h1 | h1
      · exact h1 ▸ List.mem_cons_self _ _
      · exact List.mem_cons_of_mem _ (ih h1)

theorem collapseSpaces_noDoubleSpace (l : List Char) : noDoubleSpace (collapseSpaces l) := by
  unfold noDoubleSpace
  induction l with
  | nil => exact List.chain'_nil
  | cons a rest ih =>
    unfold collapseSpaces
    split_ifs with hc
    · exact ih
    · rw [List.chain'_cons']
      refine ⟨?_, ih⟩
      intro b hb
      rw [collapseSpaces_head] at hb
      intro hab
      exact hc ⟨hab.1, by rw [Option.mem_def.1 hb, hab.2]⟩

theorem collapseSpaces_of_noDoubleSpace (l : List Char) (h : noDoubleSpace l) :
    collapseSpaces l = l := by
  unfold noDoubleSpace at h
  induction l with
  | nil => rfl
  | cons a rest ih =>
    rw [List.chain'_cons'] at h
    unfold collapseSpaces
    have hc : ¬ (a = ' ' ∧ rest.head? = some ' ') := by
      intro hc
      exact h.1 ' ' (Option.mem_def.2 hc.2) ⟨hc.1, rfl⟩
    rw [if_neg hc, ih h.2]

theorem noDoubleSpace_no_infix (l : List Char) (h : noDoubleSpace l) :
    ∀ pre post : List Char, l ≠ pre ++ [' ', ' '] ++ post := by
  unfold noDoubleSpace at h
  intro pre
  induction pre generalizing l with
  | nil =>
    intro post e
    subst e
    rw [List.nil_append, List.cons_append, List.cons_append, List.chain'_cons] at h
    exact h.1 ⟨rfl, rfl⟩
  | cons a pre2 ih =>
    intro post e
    subst e
    simp only [List.cons_append] at h
    exact ih _ (List.Chain'.tail h) post (by simp)


/-- C28: for every string `s`, `commonPostProcess(commonPostProcess(s))` is
`commonPostProcess(s)`; the result neither starts nor ends with white space, contains no line
feed and contains no two consecutive spaces. -/
theorem commonPostProcess_idempotent (s : String) :
    commonPostProcess (commonPostProcess s) = commonPostProcess s ∧
    (∀ c, (commonPostProcess s).data.head? = some c → isSpace c = false) ∧
    (∀ c, (commonPostProcess s).data.getLast? = some c → isSpace c = false) ∧
    '\n' ∉ (commonPostProcess s).data ∧
    (∀ pre post : List Char, (commonPostProcess s).data ≠ pre ++ [' ', ' '] ++ post) := by
  have hdata : (commonPostProcess s).data
      = collapseSpaces (removeLineFeeds (trimSpace s.data)) := rfl
  have hhead : ∀ c, (commonPostProcess s).data.head? = some c → isSpace c = false := by
    intro c hc
    rw [hdata, collapseSpaces_head, removeLineFeeds_head _ (trimSpace_head s.data)] at hc
    exact trimSpace_head s.data c hc
  have hlast : ∀ c, (commonPostProcess s).data.getLast? = some c → isSpace c = false := by
    intro c hc
    rw [hdata, collapseSpaces_getLast, removeLineFeeds_getLast _ (trimSpace_getLast s.data)]
      at hc
    exact trimSpace_getLast s.data c hc
  have hlf : '\n' ∉ (commonPostProcess s).data := by
    rw [hdata]
    exact fun h => removeLineFeeds_not_mem _ (collapseSpaces_mem _ _ h)
  have hnd : noDoubleSpace (commonPostProcess s).data := by
    rw [hdata]
    exact collapseSpaces_noDoubleSpace _
  refine ⟨?_, hhead, hlast, hlf, noDoubleSpace_no_infix _ hnd⟩
  apply String.ext
  show collapseSpaces (removeLineFeeds (trimSpace (commonPostProcess s).data))
    = (commonPostProcess s).data
  rw [trimSpace_of_ends _ hhead hlast, removeLineFeeds_of_not_mem _ hlf,
    collapseSpaces_of_noDoubleSpace _ hnd]

/-- C28 at a scraped text with line feeds, runs of spaces and white space at both ends. -/
theorem commonPostProcess_idempotent_witness :
    commonPostProcess "\n  Jane   Doe \n born\n1990  \t" = "Jane Doe born1990" ∧
    commonPostProcess (commonPostProcess "\n  Jane   Doe \n born\n1990  \t")
      = commonPostProcess "\n  Jane   Doe \n born\n1990  \t" ∧
    (commonPostProcess "\n  Jane   Doe \n born\n1990  \t").data.head? = some 'J' ∧
    isSpace 'J' = false ∧
    (commonPostProcess "\n  Jane   Doe \n born\n1990  \t").data.getLast? = some '0' ∧
    isSpace '0' = false := by
  obtain ⟨h1, h2, h3, _, _⟩ :=
    commonPostProcess_idempotent "\n  Jane   Doe \n born\n1990  \t"
  have hh : (commonPostProcess "\n  Jane   Doe \n born\n1990  \t").data.head? = some 'J' := by
    decide
  have hl : (commonPostProcess "\n  Jane   Doe \n born\n1990  \t").data.getLast? = some '0' := by
    decide
  exact ⟨by decide, h1, hh, h2 'J' hh, hl, h3 '0' hl⟩




theorem lookup_cons_if (k a b : String) (l : xPathResult) :
    List.lookup k ((a, b) :: l) = if k = a then some b else List.lookup k l := by
  by_cases h : k = a
  · subst h
    simp [List.lookup]
  · have hb : (k == a) = false := by simpa using h
    simp [List.lookup, hb, h]

theorem lookup_map_assign (m : xPathResult) (key value k2 : String) :
    (m.map (fun kv => if kv.1 = key then (kv.1, value) else kv)).lookup k2
      = if k2 = key then (m.lookup k2).map (fun _ => value) else m.lookup k2 := by
  induction m with
  | nil => simp
  | cons a rest ih =>
    obtain ⟨ak, av⟩ := a
    by_cases ha : ak = key
    · simp only [List.map_cons, ha, if_true, lookup_cons_if, ih]
      split_ifs <;> simp
    · simp only [List.map_cons, ha, if_false, lookup_cons_if, ih]
      split_ifs with h1 h2
      · exact absurd (h1.symm.trans h2) ha
      · rfl
      · rfl
      · rfl

theorem lookup_append_new (m : xPathResult) (key value k2 : String) :
    (m ++ [(key, value)]).lookup k2
      = match m.lookup k2 with
        | some v => some v
        | none => if k2 = key then some value else none := by
  induction m with
  | nil => simp [lookup_cons_if]
  | cons a rest ih =>
    obtain ⟨ak, av⟩ := a
    simp only [List.cons_append, lookup_cons_if, ih]
    split_ifs <;> rfl

theorem lookup_isSome_of_any (m : xPathResult) (key : String)
    (h : m.any (fun kv => kv.1 == key) = true) : ∃ v, m.lookup key = some v := by
  induction m with
  | nil => simp at h
  | cons a rest ih =>
    obtain ⟨ak, av⟩ := a
    rw [lookup_cons_if]
    by_cases ha : key = ak
    · exact ⟨av, by simp [ha]⟩
    · rw [if_neg ha]
      apply ih
      rw [List.any_cons] at h
      have hb : (ak == key) = false := by simpa using fun e => ha e.symm
      simpa [hb] using h

theorem lookup_none_of_not_any (m : xPathResult) (key : String)
    (h : m.any (fun kv => kv.1 == key) = false) : m.lookup key = none := by
  induction m with
  | nil => rfl
  | cons a rest ih =>
    obtain ⟨ak, av⟩ := a
    rw [List.any_cons, Bool.or_eq_false_iff] at h
    have ha : ¬ key = ak := by
      intro e
      have := h.1
      simp [e] at this
    rw [lookup_cons_if, if_neg ha]
    exact ih h.2

theorem mapAssign_lookup (m : xPathResult) (key value : String) :
    (mapAssign m key value).lookup key = some value ∧
    ∀ k2, k2 ≠ key → (mapAssign m key value).lookup k2 = m.lookup k2 := by
  unfold mapAssign
  cases h : m.any (fun kv => kv.1 == key) with
  | true =>
    simp only [if_true, lookup_map_assign]
    obtain ⟨v, hv⟩ := lookup_isSome_of_any m key h
    refine ⟨by simp [hv], ?_⟩
    intro k2 hk
    simp [hk]
  | false =>
    simp only [Bool.false_eq_true, if_false, lookup_append_new]
    refine ⟨by simp [lookup_none_of_not_any m key h], ?_⟩
    intro k2 hk
    cases m.lookup k2 <;> simp [hk]


theorem setKey_of_le (r : xPathResults) (n : Nat) (key value : String) (h : n ≤ r.length) :
    r.setKey (n : Int) key value
      = some ((if n = r.length then r ++ [[]] else r).set n
          (mapAssign (r.getD n []) key value)) := by
  unfold xPathResults.setKey
  by_cases hn : n = r.length
  · subst hn
    simp
  · have hlt : n < r.length := lt_of_le_of_ne h hn
    have h1 : ¬ ((n : Int) ≥ (r.length : Int)) := by omega
    simp only [h1, if_false, hn, Int.toNat_ofNat]
    have h2 : (0 : Int) ≤ (n : Int) ∧ (n : Int) < (r.length : Int) := by omega
    rw [if_pos h2]

theorem setKey_none_iff (r : xPathResults) (index : Int) (key value : String) :
    r.setKey index key value = none ↔ (index < 0 ∨ (r.length : Int) < index) := by
  unfold xPathResults.setKey
  by_cases hge : index ≥ (r.length : Int)
  · simp only [hge, if_true, List.length_append, List.length_singleton]
    constructor
    · intro h
      split_ifs at h with h1
      right
      push_cast at h1
      omega
    · intro h
      have h1 : ¬ (0 ≤ index ∧ index < ((r.length + 1 : Nat) : Int)) := by
        push_cast
        omega
      rw [if_neg h1]
  · simp only [hge, if_false]
    constructor
    · intro h
      split_ifs at h with h1
      left
      omega
    · intro h
      have h1 : ¬ (0 ≤ index ∧ index < (r.length : Int)) := by omega
      rw [if_neg h1]

theorem setKeyLoop_isSome {Node : Type} (text : Node → String) (k : String)
    (found : List Node) :
    ∀ (i : Nat) (ret : xPathResults), i ≤ ret.length →
      ∃ ret2, setKeyLoop text k i found ret = some ret2 := by
  induction found with
  | nil =>
    intro i ret _
    exact ⟨ret, rfl⟩
  | cons elem rest ih =>
    intro i ret hi
    unfold setKeyLoop
    rw [setKey_of_le ret i k (text elem) hi]
    apply ih
    rw [List.length_set]
    split_ifs with h
    · rw [List.length_append, List.length_singleton, h]
    · omega

theorem processLoop_isSome {Node : Type} (env : XPathDeps Node) (doc : Node)
    (common : Option commonXPathConfig) (s : xpathScraperConfig) :
    ∀ ret : xPathResults, ∃ ret2, processLoop env doc common s ret = some ret2 := by
  induction s with
  | nil =>
    intro ret
    exact ⟨ret, rfl⟩
  | cons entry rest ih =>
    intro ret
    obtain ⟨k, value⟩ := entry
    cases value with
    | string v =>
      unfold processLoop
      simp only
      split_ifs
      · obtain ⟨ret1, h1⟩ := setKeyLoop_isSome
          (fun elem => commonPostProcess (env.InnerText elem)) k
          (runXPathQuery env doc v common) 0 ret (Nat.zero_le _)
        rw [h1]
        exact ih ret1
      · exact ih ret
    | map attrConfig =>
      unfold processLoop
      simp only
      split_ifs
      · have h1 := setKey_of_le ret 0 k
          (attrConfig.postProcess env (attrConfig.concatenateResults env
            (runXPathQuery env doc attrConfig.selector common))) (Nat.zero_le _)
        simp only [Nat.cast_zero] at h1
        rw [h1]
        exact ih _
      · obtain ⟨ret1, h1⟩ := setKeyLoop_isSome
          (fun elem => attrConfig.postProcess env (commonPostProcess (env.InnerText elem))) k
          (runXPathQuery env doc attrConfig.selector common) 0 ret (Nat.zero_le _)
        rw [h1]
        exact ih ret1
      · exact ih ret
    | other =>
      unfold processLoop
      exact ih ret


theorem setKey_spec (r : xPathResults) (n : Nat) (key value : String) (h : n ≤ r.length) :
    ∃ r2, r.setKey (n : Int) key value = some r2 ∧
      r2.length = max r.length (n + 1) ∧
      (r2.getD n []).lookup key = some value ∧
      (∀ k2, k2 ≠ key → (r2.getD n []).lookup k2 = (r.getD n []).lookup k2) ∧
      (∀ j : Nat, j ≠ n → r2[j]? = r[j]?) := by
  refine ⟨_, setKey_of_le r n key value h, ?_, ?_, ?_, ?_⟩
  · rw [List.length_set]
    split_ifs with hn
    · rw [List.length_append, List.length_singleton, hn]
      omega
    · omega
  · have hlen : n < (if n = r.length then r ++ [[]] else r).length := by
      split_ifs with hn
      · rw [List.length_append, List.length_singleton, hn]
        omega
      · omega
    rw [List.getD_eq_getElem?_getD, List.getElem?_set_self hlen]
    exact (mapAssign_lookup _ key value).1
  · intro k2 hk
    have hlen : n < (if n = r.length then r ++ [[]] else r).length := by
      split_ifs with hn
      · rw [List.length_append, List.length_singleton, hn]
        omega
      · omega
    rw [List.getD_eq_getElem?_getD, List.getElem?_set_self hlen]
    exact (mapAssign_lookup _ key value).2 k2 hk
  · intro j hj
    rw [List.getElem?_set_ne (Ne.symm hj)]
    split_ifs with hn
    · by_cases hjl : j < r.length
      · rw [List.getElem?_append_left hjl]
      · have h1 : r.length < j := by omega
        rw [List.getElem?_eq_none (by simp; omega), List.getElem?_eq_none (by omega)]
    · rfl

/-- C29: for every result list `r`, key `k`, value `v` and index `i` with
`0 <= i <= len(r)`, `setKey(i, k, v)` does not index out of range: it returns a list of
length `max(len(r), i+1)` whose entry `i` maps `k` to `v`, in which every other key of entry
`i` (of the empty map, when the entry is new) and every other entry is as before. The only
indexes at which it panics are those below 0 or above `len(r)`; and `process`, which numbers
the matches of each key 0, 1, 2, ... in order, never makes it panic: it returns for every
configuration, document and query outcome. -/
theorem setKey_within_range :
    (∀ (r : xPathResults) (index : Int) (k v : String), 0 ≤ index →
      index ≤ (r.length : Int) →
        ∃ r2, r.setKey index k v = some r2 ∧
          r2.length = max r.length (index.toNat + 1) ∧
          (r2.getD index.toNat []).lookup k = some v ∧
          (∀ k2, k2 ≠ k →
            (r2.getD index.toNat []).lookup k2 = (r.getD index.toNat []).lookup k2) ∧
          (∀ j : Nat, j ≠ index.toNat → r2[j]? = r[j]?)) ∧
    (∀ (r : xPathResults) (index : Int) (k v : String),
      r.setKey index k v = none ↔ (index < 0 ∨ (r.length : Int) < index)) ∧
    (∀ (Node : Type) (env : XPathDeps Node) (s : xpathScraperConfig) (doc : Node)
      (common : Option commonXPathConfig), ∃ ret, s.process env doc common = some ret) := by
  refine ⟨?_, setKey_none_iff, ?_⟩
  · intro r index k v h0 h1
    obtain ⟨n, rfl⟩ := Int.eq_ofNat_of_zero_le h0
    simp only [Int.toNat_ofNat]
    exact setKey_spec r n k v (by omega)
  · intro Node env s doc common
    exact processLoop_isSome env doc common s []

/-- C29 at `sampleResults`: setting a key at index 1, the length of the list, appends a
record; the first record is as before. -/
theorem setKey_within_range_witness :
    (0 : Int) ≤ 1 ∧ (1 : Int) ≤ (sampleResults.length : Int) ∧
    sampleResults.setKey 1 "Title" "Dunes"
      = some [[("Title", "Beach")], [("Title", "Dunes")]] ∧
    sampleResults.setKey 0 "Date" "2020-01-01"
      = some [[("Title", "Beach"), ("Date", "2020-01-01")]] ∧
    sampleResults.setKey 2 "Title" "Dunes" = none ∧
    ∃ r2, sampleResults.setKey 1 "Title" "Dunes" = some r2 ∧
      r2.length = max sampleResults.length 2 := by
  obtain ⟨r2, e1, e2, _⟩ := setKey_within_range.1 sampleResults 1 "Title" "Dunes"
    (by decide) (by decide)
  exact ⟨by decide, by decide, by decide, by decide, by decide, r2, e1, e2⟩

end Stash
